import Mathlib

/-!
# DOMGuard: pattern matcher, attribute merging and shadow-tree recording

A shallow embedding of `third_party/blink/renderer/core/frame/dom_guard.cc`.

Modelling conventions
* A WTF `String` is a `List Char`; an `AtomicString` is an `Option (List Char)` whose
  `none` is the null atom `g_null_atom`.  A null string has length 0 and reading a
  string past its end yields the character 0, as WTF does.
* Facilities of the rendering engine that DOMGuard only calls (URL parsing, percent
  decoding, the element predicates of the attribute classifier, CSS text and parsing,
  the token kinds delivered by the JavaScript scanner) are fields of `Host`.
* Attributes are keyed by their local name; namespaces are not modelled.
* The shadow tree is a value; an operation that mutates it returns the new tree.
* A live node is located through its ancestor chain (`NodePosition`); a hook returns the
  state in which it stops (`HookResult`), with a flag for a hook that stops at the
  dereference of a null pointer.
* A `ComputedStyle` is named by a number and read through the fields of `StyleHost` (the
  fast path of property equality, computed values, property names, the computed style
  of a shadow element); the style members of the guard are a `StyleState`, which the
  style functions take and return.
* A read outside a string or outside the table `kOneByteCharFlags` has no value: the
  functions that make their reads explicit (`stringEqualsLoopChecked`, the character
  classes of `v8_scanner/utils.h`) return `none` there.
* `scriptEquals` reads the representation of its two strings (`Is8Bit()`), which a null
  string does not have.  `scriptEquals`, `attributeEquals`, `mergeShadowAttribute` and
  `matchesAttributeWhitelistInShadowTree` give the value of a call that returns; their
  companions `scriptEqualsChecked`, `attributeEqualsChecked`,
  `mergeShadowAttributeChecked` and `matchesAttributeWhitelistInShadowTreeChecked` follow
  the same code with that read made explicit and are `none` for a call that stops at
  it.  The attribute hook, which passes the null value of a removed attribute on, is
  built on the companions.
-/

namespace DOMGuard

/-! ## Strings -/

/-- An `AtomicString`: `none` is the null atom. -/
abbrev AtomicString := Option (List Char)

/-- The characters of an atomic string; the null atom has none (`GetString`, `length`). -/
def AtomicString.getString (s : AtomicString) : List Char := s.getD []

/-- Character at an index as `String::operator[]` gives it: 0 past the end. -/
def charAt (s : List Char) (i : Nat) : Char := s.getD i (Char.ofNat 0)

/-! ## stringEquals -/

/-- The `while (true)` loop of `DOMGuard::stringEquals`, one iteration per unit of fuel.
The two recursive calls made on an unescaped star restart the loop at the new positions
with the escape flag cleared. -/
def stringEqualsLoop (shadow_string actual_string : List Char) :
    Nat → Nat → Nat → Bool → Bool
  | 0, _, _, _ => false
  | fuel + 1, shadow_ptr, actual_ptr, is_escaped_character =>
    if shadow_ptr = shadow_string.length then
      decide (actual_ptr = actual_string.length)
    else if actual_ptr = actual_string.length then
      charAt shadow_string shadow_ptr == '*' && decide (shadow_ptr = shadow_string.length - 1)
    else if is_escaped_character then
      -- ignore_control_character = true
      if charAt shadow_string shadow_ptr == charAt actual_string actual_ptr
          || (charAt shadow_string shadow_ptr == '?' && !true) then
        stringEqualsLoop shadow_string actual_string fuel (shadow_ptr + 1) (actual_ptr + 1) false
      else false
    else if charAt shadow_string shadow_ptr == '\\' then
      stringEqualsLoop shadow_string actual_string fuel (shadow_ptr + 1) actual_ptr true
    else if charAt shadow_string shadow_ptr == '*' then
      stringEqualsLoop shadow_string actual_string fuel (shadow_ptr + 1) actual_ptr false
        || stringEqualsLoop shadow_string actual_string fuel shadow_ptr (actual_ptr + 1) false
    else if charAt shadow_string shadow_ptr == charAt actual_string actual_ptr
        || (charAt shadow_string shadow_ptr == '?' && !false) then
      stringEqualsLoop shadow_string actual_string fuel (shadow_ptr + 1) (actual_ptr + 1) false
    else false

/-- Model of `DOMGuard::stringEquals(shadow_string, shadow_start_position, actual_string,
actual_start_position)`.  Every iteration and every recursive call moves at least one of
the two positions forward, so the number of characters left in both strings, plus one,
is enough fuel (`stringEqualsLoop_fuel`: more fuel never changes the result). -/
def stringEquals (shadow_string : List Char) (shadow_start_position : Nat)
    (actual_string : List Char) (actual_start_position : Nat) : Bool :=
  stringEqualsLoop shadow_string actual_string
    ((shadow_string.length - shadow_start_position)
      + (actual_string.length - actual_start_position) + 1)
    shadow_start_position actual_start_position false

/-! ## scriptEquals -/

/-- Token kinds of the scanner: the two terminal markers and every other kind by number. -/
inductive Token where
  | EOS
  | ILLEGAL
  | other (kind : Nat)
deriving DecidableEq, Repr

/-- The `do ... while` loop of `DOMGuard::scriptEquals` over the token kinds that the two
scanners deliver: a list holds the results of the successive `Next()` calls before the
end of the source, after which `Next()` returns `EOS`. -/
def scriptEqualsTokens : List Token → List Token → Bool
  | [], actual_tokens => decide (Token.EOS = actual_tokens.headD Token.EOS)
  | shadow_token :: shadow_rest, actual_tokens =>
    let actual_token := actual_tokens.headD Token.EOS
    if shadow_token ≠ actual_token then false
    else if shadow_token ≠ Token.EOS ∧ shadow_token ≠ Token.ILLEGAL
        ∧ actual_token ≠ Token.EOS ∧ actual_token ≠ Token.ILLEGAL then
      scriptEqualsTokens shadow_rest actual_tokens.tail
    else true

/-! ## URLs and CSS values of the host -/

/-- What DOMGuard reads of a `KURL`. -/
structure KURL where
  isValid : Bool
  protocol : List Char
  host : List Char
  port : Nat
  protocolIsJavaScript : Bool
  string : List Char
  contentBegin : Nat
  contentLen : Nat
deriving DecidableEq, Repr

/-- The null URL, which `KURL(const String&)` builds from a null string; it is invalid. -/
def KURL.null : KURL :=
  { isValid := false, protocol := [], host := [], port := 0, protocolIsJavaScript := false,
    string := [], contentBegin := 0, contentLen := 0 }

/-- Class types of CSS values (`CSSValue::GetClassType`); the list classes and the
classes that `cssValueEquals` does not look into are told apart by a number. -/
inductive ClassType where
  | numericLiteral
  | uri
  | image
  | color
  | valueList (kind : Nat)
  | other (kind : Nat)
deriving DecidableEq, Repr

/-- CSS values as the tagged variant `cssValueEquals` dispatches on. -/
inductive CSSValue where
  | valueList (kind : Nat) (value_list_separator : Nat) (items : List CSSValue)
  | numericLiteral (doubleValue : Rat)
  | uri (absoluteUrl : KURL)
  | image (url : List Char)
  | color (value : Nat)
  | other (kind : Nat) (payload : Nat)

/-- The class type of a value: `GetClassType()`. -/
def CSSValue.getClassType : CSSValue → ClassType
  | .valueList kind _ _ => .valueList kind
  | .numericLiteral _ => .numericLiteral
  | .uri _ => .uri
  | .image _ => .image
  | .color _ => .color
  | .other kind _ => .other kind

/-- An attribute of an element: local name and value. -/
structure Attribute where
  name : List Char
  value : List Char
deriving DecidableEq, Repr

/-- Tag name and attribute list of an element. -/
structure ElementData where
  tagName : List Char
  attributes : List Attribute
deriving DecidableEq, Repr

/-- Facilities of the rendering engine that DOMGuard calls. -/
structure Host where
  /-- Parsing `KURL(const String&)` of a non-null string -/
  kurl : List Char → KURL
  /-- The function `DecodeURLEscapeSequences(_, kUTF8)` -/
  decodeURLEscapeSequences : List Char → List Char
  /-- Token kinds returned by successive `Scanner::Next()` calls before the end of source -/
  tokens : List Char → List Token
  /-- The predicate `Element::IsURLAttribute` -/
  isURLAttribute : ElementData → List Char → Bool
  /-- Whether `ExpectedTrustedTypeForAttribute` differs from `kNone` -/
  expectsTrustedType : ElementData → List Char → Bool
  /-- The predicate `Element::IsHTMLContentAttribute` -/
  isHTMLContentAttribute : ElementData → List Char → Bool
  /-- The predicate `Element::IsSVGAnimationAttributeSettingJavaScriptURL` -/
  isSVGAnimationAttributeSettingJavaScriptURL : ElementData → List Char → Bool
  /-- The text `CSSValue::CssText()` -/
  cssText : CSSValue → List Char
  /-- The parser `CSSParser::ParseSingleValue(property, text, context)` -/
  parseSingleValue : Nat → List Char → Option CSSValue

/-- The constructor `KURL(const String&)`: a null string gives the null URL. -/
def Host.mkKURL (h : Host) (s : AtomicString) : KURL :=
  match s with
  | none => KURL.null
  | some t => h.kurl t

/-- Model of `DOMGuard::scriptEquals` on two strings that are not null: both sources are
scanned and the token kinds compared. -/
def scriptEquals (h : Host) (shadow_string actual_string : List Char) : Bool :=
  scriptEqualsTokens (h.tokens shadow_string) (h.tokens actual_string)

/-- Model of `DOMGuard::scriptEquals` on two strings that may be null.  Before it scans,
the function copies each string after asking `Is8Bit()`, which dereferences the
implementation of the string; a null string has none, and the call has no result. -/
def scriptEqualsChecked (h : Host) (shadow_string actual_string : AtomicString) :
    Option Bool :=
  match shadow_string, actual_string with
  | some shadow, some actual => some (scriptEquals h shadow actual)
  | _, _ => none

/-! ## idEquals and urlEquals -/

/-- The call `String::Split(" ", false, result)`: the pieces between spaces, empty ones dropped. -/
def splitSpaces (s : List Char) : List (List Char) :=
  (s.splitOn ' ').filter fun piece => !piece.isEmpty

/-- Model of `DOMGuard::idEquals`. -/
def idEquals (shadow_string actual_string : AtomicString) (dom_constraint_mode : List Char) :
    Bool :=
  let pfx_match :=
    if dom_constraint_mode.length > 1 then
      (splitSpaces (dom_constraint_mode.drop 1)).any fun p =>
        p.isPrefixOf shadow_string.getString && p.isPrefixOf actual_string.getString
    else false
  pfx_match || stringEquals shadow_string.getString 0 actual_string.getString 0

/-- Model of `DOMGuard::urlEquals(const KURL&, const KURL&)`. -/
def urlEquals (h : Host) (url_constraint new_url : KURL) : Bool :=
  if !new_url.isValid then true
  else
    new_url.protocol == url_constraint.protocol
      && stringEquals (h.decodeURLEscapeSequences url_constraint.host) 0
          (h.decodeURLEscapeSequences new_url.host) 0
      && new_url.port == url_constraint.port

/-- The content of a URL: `GetString().Substring(content.begin, content.len)`. -/
def KURL.content (u : KURL) : List Char := (u.string.drop u.contentBegin).take u.contentLen

/-- The `for` loop of the list form of `urlEquals`. -/
def urlEqualsListLoop (h : Host) (new_url : KURL) : List KURL → Bool
  | [] => false
  | it :: rest =>
    if new_url.protocol ≠ it.protocol then urlEqualsListLoop h new_url rest
    else if new_url.protocolIsJavaScript then
      if scriptEquals h (h.decodeURLEscapeSequences it.content)
          (h.decodeURLEscapeSequences new_url.content) then true
      else urlEqualsListLoop h new_url rest
    else if new_url.port == it.port
        && stringEquals (h.decodeURLEscapeSequences it.host) 0
            (h.decodeURLEscapeSequences new_url.host) 0 then true
    else urlEqualsListLoop h new_url rest

/-- Model of `DOMGuard::urlEquals(const Vector<KURL>&, const KURL&)`. -/
def urlEqualsList (h : Host) (url_constraints : List KURL) (new_url : KURL) : Bool :=
  if !new_url.isValid then true
  else if url_constraints.length = 0 then false
  else urlEqualsListLoop h new_url url_constraints

/-! ## Attribute classes and attributeEquals -/

/-- Model of `DOMGuard::isScriptAttribute`: the qualified name built there has a null
namespace, so only the local name decides. -/
def isScriptAttribute (_element : ElementData) (attribute_name : List Char) : Bool :=
  "on".toList.isPrefixOf attribute_name

/-- Model of `DOMGuard::isURLAttribute`. -/
def isURLAttribute (h : Host) (element : ElementData) (attribute_name : List Char) : Bool :=
  if h.isURLAttribute element attribute_name then true
  else if element.tagName == "A".toList && attribute_name == "ping".toList then true
  else if element.tagName == "WEBVIEW".toList && attribute_name == "src".toList then true
  else false

/-- State left by the `for` loop of `attributeEquals`. -/
structure SplitState where
  found_in_shadow_attribute_value : Bool
  unescaped_current_part : List Char
  url_constraints : List KURL

/-- The `for` loop of `DOMGuard::attributeEquals` over the characters of the stored
pattern that are still to be read; a `break` returns the state at once.  The state is
that of a loop that comes to its end: for a script attribute the value is passed to
`scriptEquals` as a string that is not null (`attributeEqualsLoopChecked` stops where
it is null). -/
def attributeEqualsLoop (h : Host) (dom_constraint_mode : List Char) (element : ElementData)
    (attribute_name : List Char) (attribute_value : AtomicString) :
    List Char → Bool → List Char → List KURL → SplitState
  | [], _, unescaped_current_part, url_constraints =>
    ⟨false, unescaped_current_part, url_constraints⟩
  | c :: rest, is_escaped_character, unescaped_current_part, url_constraints =>
    if is_escaped_character then
      attributeEqualsLoop h dom_constraint_mode element attribute_name attribute_value
        rest false (unescaped_current_part ++ [c]) url_constraints
    else if c == '\\' then
      attributeEqualsLoop h dom_constraint_mode element attribute_name attribute_value
        rest true unescaped_current_part url_constraints
    else if c == '|' then
      if attribute_name == "dtt-id".toList || attribute_name == "id".toList then
        if idEquals (some unescaped_current_part) attribute_value dom_constraint_mode then
          ⟨true, unescaped_current_part, url_constraints⟩
        else
          attributeEqualsLoop h dom_constraint_mode element attribute_name attribute_value
            rest false [] url_constraints
      else if isScriptAttribute element attribute_name then
        if scriptEquals h unescaped_current_part attribute_value.getString then
          ⟨true, unescaped_current_part, url_constraints⟩
        else
          attributeEqualsLoop h dom_constraint_mode element attribute_name attribute_value
            rest false [] url_constraints
      else if isURLAttribute h element attribute_name then
        attributeEqualsLoop h dom_constraint_mode element attribute_name attribute_value
          rest false [] (url_constraints ++ [h.mkKURL (some unescaped_current_part)])
      else if stringEquals unescaped_current_part 0 attribute_value.getString 0 then
        ⟨true, unescaped_current_part, url_constraints⟩
      else
        attributeEqualsLoop h dom_constraint_mode element attribute_name attribute_value
          rest false [] url_constraints
    else
      attributeEqualsLoop h dom_constraint_mode element attribute_name attribute_value
        rest false (unescaped_current_part ++ [c]) url_constraints

/-- Model of `DOMGuard::attributeEquals`: the value of a call that returns.  `frame_mode`
is the `DOMConstraintMode` of the frame of the element's document, `none` when the
document has no frame.  A call with a present pattern, a script attribute and a null
value does not return, it stops in `scriptEquals`: `attributeEqualsChecked` is `none`
there and is this value everywhere else. -/
def attributeEquals (h : Host) (frame_mode : Option (List Char)) (element : ElementData)
    (attribute_name : List Char) (shadow_attribute_value attribute_value : AtomicString) :
    Bool :=
  match shadow_attribute_value with
  | none => decide (attribute_value = none)
  | some shadow =>
    let dom_constraint_mode := frame_mode.getD "r".toList
    let st := attributeEqualsLoop h dom_constraint_mode element attribute_name attribute_value
      shadow false [] []
    if attribute_name == "dtt-id".toList || attribute_name == "id".toList then
      st.found_in_shadow_attribute_value
        || idEquals (some st.unescaped_current_part) attribute_value dom_constraint_mode
    else if isScriptAttribute element attribute_name then
      st.found_in_shadow_attribute_value
        || scriptEquals h st.unescaped_current_part attribute_value.getString
    else if isURLAttribute h element attribute_name then
      urlEqualsList h (st.url_constraints ++ [h.mkKURL (some st.unescaped_current_part)])
        (h.mkKURL attribute_value)
    else
      st.found_in_shadow_attribute_value
        || stringEquals st.unescaped_current_part 0 attribute_value.getString 0

/-- The `for` loop of `DOMGuard::attributeEquals` with the calls of `scriptEquals` on the
value as it is passed, null or not: `none` when such a call stops the loop. -/
def attributeEqualsLoopChecked (h : Host) (dom_constraint_mode : List Char)
    (element : ElementData) (attribute_name : List Char) (attribute_value : AtomicString) :
    List Char → Bool → List Char → List KURL → Option SplitState
  | [], _, unescaped_current_part, url_constraints =>
    some ⟨false, unescaped_current_part, url_constraints⟩
  | c :: rest, is_escaped_character, unescaped_current_part, url_constraints =>
    if is_escaped_character then
      attributeEqualsLoopChecked h dom_constraint_mode element attribute_name attribute_value
        rest false (unescaped_current_part ++ [c]) url_constraints
    else if c == '\\' then
      attributeEqualsLoopChecked h dom_constraint_mode element attribute_name attribute_value
        rest true unescaped_current_part url_constraints
    else if c == '|' then
      if attribute_name == "dtt-id".toList || attribute_name == "id".toList then
        if idEquals (some unescaped_current_part) attribute_value dom_constraint_mode then
          some ⟨true, unescaped_current_part, url_constraints⟩
        else
          attributeEqualsLoopChecked h dom_constraint_mode element attribute_name
            attribute_value rest false [] url_constraints
      else if isScriptAttribute element attribute_name then
        -- `ToString()` of the builder is never null
        match scriptEqualsChecked h (some unescaped_current_part) attribute_value with
        | none => none
        | some true => some ⟨true, unescaped_current_part, url_constraints⟩
        | some false =>
          attributeEqualsLoopChecked h dom_constraint_mode element attribute_name
            attribute_value rest false [] url_constraints
      else if isURLAttribute h element attribute_name then
        attributeEqualsLoopChecked h dom_constraint_mode element attribute_name attribute_value
          rest false [] (url_constraints ++ [h.mkKURL (some unescaped_current_part)])
      else if stringEquals unescaped_current_part 0 attribute_value.getString 0 then
        some ⟨true, unescaped_current_part, url_constraints⟩
      else
        attributeEqualsLoopChecked h dom_constraint_mode element attribute_name attribute_value
          rest false [] url_constraints
    else
      attributeEqualsLoopChecked h dom_constraint_mode element attribute_name attribute_value
        rest false (unescaped_current_part ++ [c]) url_constraints

/-- Model of `DOMGuard::attributeEquals` with the calls of `scriptEquals` on the value as
it is passed: the result of the call, `none` when the call stops at the read of the
null value string instead of returning.  The final `scriptEquals` is called only when
no alternative was found before (`||`). -/
def attributeEqualsChecked (h : Host) (frame_mode : Option (List Char))
    (element : ElementData) (attribute_name : List Char)
    (shadow_attribute_value attribute_value : AtomicString) : Option Bool :=
  match shadow_attribute_value with
  | none => some (decide (attribute_value = none))
  | some shadow =>
    let dom_constraint_mode := frame_mode.getD "r".toList
    match attributeEqualsLoopChecked h dom_constraint_mode element attribute_name
        attribute_value shadow false [] [] with
    | none => none
    | some st =>
      if attribute_name == "dtt-id".toList || attribute_name == "id".toList then
        some (st.found_in_shadow_attribute_value
          || idEquals (some st.unescaped_current_part) attribute_value dom_constraint_mode)
      else if isScriptAttribute element attribute_name then
        if st.found_in_shadow_attribute_value then some true
        else scriptEqualsChecked h (some st.unescaped_current_part) attribute_value
      else if isURLAttribute h element attribute_name then
        some (urlEqualsList h
          (st.url_constraints ++ [h.mkKURL (some st.unescaped_current_part)])
          (h.mkKURL attribute_value))
      else
        some (st.found_in_shadow_attribute_value
          || stringEquals st.unescaped_current_part 0 attribute_value.getString 0)

/-! ## Merging -/

/-- The escaping loop of `escapeAndAddToAttributeValue` over the new value. -/
def escapeValue : List Char → List Char
  | [] => []
  | c :: rest =>
    if c == '\\' then '\\' :: '\\' :: escapeValue rest
    else if c == '|' then '\\' :: '|' :: escapeValue rest
    else if c == '*' then '\\' :: '*' :: escapeValue rest
    else c :: escapeValue rest

/-- Model of `DOMGuard::escapeAndAddToAttributeValue`; appending a null atom appends
nothing. -/
def escapeAndAddToAttributeValue (current_value new_value : AtomicString) : List Char :=
  current_value.getString ++ '|' :: escapeValue new_value.getString

/-- Model of `DOMGuard::mergeShadowAttribute`: the value of a call that returns. -/
def mergeShadowAttribute (h : Host) (frame_mode : Option (List Char)) (element : ElementData)
    (attribute_name : List Char) (current_value new_value : AtomicString) : AtomicString :=
  if attributeEquals h frame_mode element attribute_name current_value new_value then
    current_value
  else
    some (escapeAndAddToAttributeValue current_value new_value)

/-- Model of `DOMGuard::mergeShadowAttribute` with the result of `attributeEquals` as
`attributeEqualsChecked` gives it: `none` when that call does not return. -/
def mergeShadowAttributeChecked (h : Host) (frame_mode : Option (List Char))
    (element : ElementData) (attribute_name : List Char)
    (current_value new_value : AtomicString) : Option AtomicString :=
  match attributeEqualsChecked h frame_mode element attribute_name current_value
      new_value with
  | none => none
  | some true => some current_value
  | some false => some (some (escapeAndAddToAttributeValue current_value new_value))

/-! ## CSS values and property patterns -/

mutual
/-- Model of `DOMGuard::cssValueEquals(property, const CSSValue*, const CSSValue*, context,
match_state)`: the result is the value of `match_state` on return. -/
def cssValueEquals (h : Host) : CSSValue → CSSValue → Int → Int
  | .valueList shadow_kind shadow_separator shadow_items, actual_css_value, match_state =>
    match actual_css_value with
    | .valueList actual_kind actual_separator actual_items =>
      if shadow_kind = actual_kind then
        if shadow_separator ≠ actual_separator then match_state
        else if shadow_items.length ≠ actual_items.length then match_state
        else cssValueEqualsItems h shadow_items actual_items match_state
      else match_state
    | _ => match_state
  | .numericLiteral shadow_double, actual_css_value, match_state =>
    match actual_css_value with
    | .numericLiteral actual_double =>
      if shadow_double = actual_double then -1
      else if shadow_double > actual_double then
        if match_state = 0 then 1
        else if match_state = 2 then -1
        else match_state
      else
        if match_state = 0 then 2
        else if match_state = 1 then -1
        else match_state
    | _ => match_state
  | .uri shadow_url, actual_css_value, match_state =>
    match actual_css_value with
    | .uri actual_url => if urlEquals h shadow_url actual_url then -1 else match_state
    | _ => match_state
  | .image shadow_url, actual_css_value, match_state =>
    match actual_css_value with
    | .image actual_url =>
      if urlEquals h (h.mkKURL (some shadow_url)) (h.mkKURL (some actual_url)) then -1
      else match_state
    | _ => match_state
  | .color _, actual_css_value, match_state =>
    match actual_css_value with
    | .color _ => -1
    | _ => match_state
  | .other _ _, _, match_state => match_state
/-- The item loop of `cssValueEquals` on two value lists of equal length: it returns as
soon as an item leaves `match_state` different from -1 and sets -1 after the last item. -/
def cssValueEqualsItems (h : Host) : List CSSValue → List CSSValue → Int → Int
  | [], _, _ => -1
  | _ :: _, [], match_state => match_state
  | shadow_item :: shadow_rest, actual_item :: actual_rest, match_state =>
    let state := cssValueEquals h shadow_item actual_item match_state
    if state ≠ -1 then state
    else cssValueEqualsItems h shadow_rest actual_rest state
end

/-- Model of `DOMGuard::cssValueEquals(property, const String&, const CSSValue*, context,
match_state)`; a null `CSSValue*` is `none`. -/
def cssValueEqualsText (h : Host) (property : Nat) (shadow_css_text : List Char)
    (actual_css_value : Option CSSValue) (match_state : Int) : Int :=
  if shadow_css_text.length = 0 then
    match actual_css_value with
    | none => -1
    | some _ => match_state
  else
    match actual_css_value with
    | none => 0
    | some actual =>
      if stringEquals shadow_css_text 0 (h.cssText actual) 0 then -1
      else
        match h.parseSingleValue property shadow_css_text with
        | some shadow_css_value => cssValueEquals h shadow_css_value actual match_state
        | none => match_state

/-- The `for` loop of `DOMGuard::propertyEquals`; `none` is the early `return true`,
otherwise the state after the last character is returned. -/
def propertyEqualsLoop (h : Host) (property : Nat) (new_value : Option CSSValue) :
    List Char → Bool → List Char → Int → Option (List Char × Int)
  | [], _, unescaped_current_part, match_state => some (unescaped_current_part, match_state)
  | c :: rest, is_escaped_character, unescaped_current_part, match_state =>
    if is_escaped_character then
      propertyEqualsLoop h property new_value rest false (unescaped_current_part ++ [c])
        match_state
    else if c == '\\' then
      propertyEqualsLoop h property new_value rest true unescaped_current_part match_state
    else if c == '|' then
      let state := cssValueEqualsText h property unescaped_current_part new_value match_state
      if state = -1 then none
      else propertyEqualsLoop h property new_value rest false [] state
    else
      propertyEqualsLoop h property new_value rest false (unescaped_current_part ++ [c])
        match_state

/-- Model of `DOMGuard::propertyEquals`. -/
def propertyEquals (h : Host) (property : Nat) (current_value : AtomicString)
    (new_value : Option CSSValue) : Bool :=
  match current_value with
  | none => new_value.isNone
  | some current =>
    match propertyEqualsLoop h property new_value current false [] 0 with
    | none => true
    | some (unescaped_current_part, match_state) =>
      if cssValueEqualsText h property unescaped_current_part new_value match_state = -1 then
        true
      else false

/-- Model of `DOMGuard::mergeShadowProperty`. -/
def mergeShadowProperty (h : Host) (property : Nat) (current_value : AtomicString)
    (new_value : Option CSSValue) : AtomicString :=
  if current_value.getString.length = 0 then
    match new_value with
    | some v => some (h.cssText v)
    | none => none
  else if propertyEquals h property current_value new_value then
    current_value
  else
    some (escapeAndAddToAttributeValue current_value (new_value.map h.cssText))

/-! ## Nodes and the shadow tree -/

/-- Nodes of the live tree and of the shadow tree. -/
inductive Node where
  | element (data : ElementData) (children : List Node)
  | documentFragment (children : List Node)
  | document (children : List Node)
  | text (data : List Char)

/-- Children of a node, in sibling order. -/
def Node.children : Node → List Node
  | .element _ children => children
  | .documentFragment children => children
  | .document children => children
  | .text _ => []

/-- The same node with another child list. -/
def Node.withChildren : Node → List Node → Node
  | .element data _, children => .element data children
  | .documentFragment _, children => .documentFragment children
  | .document _, children => .document children
  | .text data, _ => .text data

/-- The tag name of an element; other nodes have none. -/
def Node.tagName : Node → List Char
  | .element data _ => data.tagName
  | _ => []

/-- Lookup `Element::getAttribute(name)`: the value, or the null atom. -/
def ElementData.getAttribute (e : ElementData) (name : List Char) : AtomicString :=
  (e.attributes.find? fun a => a.name == name).map fun a => a.value

/-- The id of an element, `Element::GetIdAttribute()`: the null atom without one. -/
def ElementData.getIdAttribute (e : ElementData) : AtomicString := e.getAttribute "id".toList

/-- Replacement of the value of the first attribute of that name. -/
def setAttributeValue (name value : List Char) : List Attribute → List Attribute
  | [] => []
  | a :: rest =>
    if a.name == name then { a with value := value } :: rest
    else a :: setAttributeValue name value rest

/-- Model of `Element::setAttribute(name, value)` through `Element::SetAttributeInternal`:
a null value removes the attribute, an unknown name is appended, a known one is
overwritten in place. -/
def ElementData.setAttribute (e : ElementData) (name : List Char) (new_value : AtomicString) :
    ElementData :=
  match new_value with
  | none => { e with attributes := e.attributes.filter fun a => !(a.name == name) }
  | some v =>
    if e.attributes.any fun a => a.name == name then
      { e with attributes := setAttributeValue name v e.attributes }
    else { e with attributes := e.attributes ++ [⟨name, v⟩] }

/-- Model of `DOMGuard::shouldMonitorAttribute`. -/
def shouldMonitorAttribute (h : Host) (element : ElementData) (attribute_name : List Char) :
    Bool :=
  if "dtt-".toList.isPrefixOf attribute_name then false
  else if attribute_name == "id".toList then true
  else if attribute_name == "name".toList then true
  else if h.expectsTrustedType element attribute_name then true
  else if isURLAttribute h element attribute_name then true
  else if h.isHTMLContentAttribute element attribute_name then true
  else if h.isSVGAnimationAttributeSettingJavaScriptURL element attribute_name then true
  else if element.tagName == "FORM".toList then
    attribute_name == "target".toList || attribute_name == "method".toList
  else false

/-- Model of `DOMGuard::isEqualInShadowTree`. -/
def isEqualInShadowTree (h : Host) (frame_mode : Option (List Char))
    (shadow actual : ElementData) : Bool :=
  if shadow.tagName ≠ actual.tagName then false
  else if !attributeEquals h frame_mode actual "dtt-id".toList
      (shadow.getAttribute "dtt-id".toList) actual.getIdAttribute then false
  else true

/-- The attribute loop of `matchingNode`: false as soon as a monitored attribute of the
element is not accepted by the pattern of the same name on the shadow. -/
def matchingNodeAttributes (h : Host) (frame_mode : Option (List Char))
    (element shadow_element : ElementData) : List Attribute → Bool
  | [] => true
  | attr :: rest =>
    if !shouldMonitorAttribute h element attr.name then
      matchingNodeAttributes h frame_mode element shadow_element rest
    else if !attributeEquals h frame_mode element attr.name
        (shadow_element.getAttribute attr.name) (some attr.value) then false
    else matchingNodeAttributes h frame_mode element shadow_element rest

/-- Model of `DOMGuard::matchingNode` for a live element: the shadow node, or `none` for
the null pointer. -/
def matchingNode (h : Host) (frame_mode : Option (List Char)) (element : ElementData)
    (shadow_node : Node) : Option Node :=
  match shadow_node with
  | .element shadow_element _ =>
    if element.tagName ≠ shadow_element.tagName then none
    else if !attributeEquals h frame_mode element "dtt-id".toList
        (shadow_element.getAttribute "dtt-id".toList) element.getIdAttribute then none
    else if !matchingNodeAttributes h frame_mode element shadow_element element.attributes
      then none
    else some shadow_node
  | _ => none

/-- The sibling loop of `hasMatchingSubtreeInShadowTree`: the first child of the shadow
parent that `matchingNode` returns. -/
def firstMatchingNode (h : Host) (frame_mode : Option (List Char)) (element : ElementData) :
    List Node → Option Node
  | [] => none
  | child :: rest =>
    match matchingNode h frame_mode element child with
    | some shadow_node => some shadow_node
    | none => firstMatchingNode h frame_mode element rest

mutual
/-- Model of `DOMGuard::hasMatchingSubtreeInShadowTree(node, shadow_parent)`. -/
def hasMatchingSubtreeInShadowTree (h : Host) (frame_mode : Option (List Char)) :
    Node → Node → Bool
  | .documentFragment children, shadow_parent =>
    hasMatchingSubtreeChildren h frame_mode children shadow_parent
  | .element element children, shadow_parent =>
    match firstMatchingNode h frame_mode element shadow_parent.children with
    | none => false
    | some shadow_node => hasMatchingSubtreeChildren h frame_mode children shadow_node
  | .document _, _ => true
  | .text _, _ => true
/-- The child loops of `hasMatchingSubtreeInShadowTree`. -/
def hasMatchingSubtreeChildren (h : Host) (frame_mode : Option (List Char)) :
    List Node → Node → Bool
  | [], _ => true
  | child :: rest, shadow_parent =>
    if !hasMatchingSubtreeInShadowTree h frame_mode child shadow_parent then false
    else hasMatchingSubtreeChildren h frame_mode rest shadow_parent
end

/-- The sibling loop of `createShadowNode`: position and data of the first element child
of the shadow parent for which `isEqualInShadowTree` holds. -/
def findShadowSibling (h : Host) (frame_mode : Option (List Char)) (element : ElementData) :
    List Node → Nat → Option (Nat × ElementData × List Node)
  | [], _ => none
  | .element sibling_element sibling_children :: rest, i =>
    if isEqualInShadowTree h frame_mode sibling_element element then
      some (i, sibling_element, sibling_children)
    else findShadowSibling h frame_mode element rest (i + 1)
  | _ :: rest, i => findShadowSibling h frame_mode element rest (i + 1)

/-- The attribute loop of `createShadowNode` for a new shadow element. -/
def copyShadowAttributes (h : Host) (element : ElementData) :
    List Attribute → ElementData → ElementData
  | [], shadow_element => shadow_element
  | attr :: rest, shadow_element =>
    let s1 :=
      if attr.name == "id".toList then
        shadow_element.setAttribute "dtt-id".toList (some attr.value)
      else shadow_element
    let s2 :=
      if shouldMonitorAttribute h element attr.name then
        s1.setAttribute attr.name (some attr.value)
      else s1
    copyShadowAttributes h element rest s2

/-- The attribute loop of `createShadowNode` for an existing shadow element. -/
def mergeShadowAttributes (h : Host) (frame_mode : Option (List Char)) (element : ElementData) :
    List Attribute → ElementData → ElementData
  | [], shadow_element => shadow_element
  | attr :: rest, shadow_element =>
    let s1 :=
      if shouldMonitorAttribute h element attr.name then
        shadow_element.setAttribute attr.name
          (mergeShadowAttribute h frame_mode element attr.name
            (shadow_element.getAttribute attr.name) (some attr.value))
      else shadow_element
    mergeShadowAttributes h frame_mode element rest s1

mutual
/-- Model of `DOMGuard::createShadowNode(dom_constraint, shadow_ptr, node)`: the result is
the shadow parent after the node has been recorded under it. -/
def createShadowNode (h : Host) (frame_mode : Option (List Char)) : Node → Node → Node
  | shadow_ptr, .documentFragment children =>
    createShadowNodeChildren h frame_mode shadow_ptr children
  | shadow_ptr, .element element children =>
    match findShadowSibling h frame_mode element shadow_ptr.children 0 with
    | none =>
      let shadow_element := copyShadowAttributes h element element.attributes
        { tagName := element.tagName, attributes := [] }
      let shadow_element :=
        if shadow_ptr.tagName == "HTML".toList && element.tagName ≠ "HEAD".toList
            && element.tagName ≠ "BODY".toList then
          shadow_element.setAttribute "dtt-dangling".toList (some [])
        else shadow_element
      shadow_ptr.withChildren (shadow_ptr.children ++
        [createShadowNodeChildren h frame_mode (.element shadow_element []) children])
    | some (i, sibling_element, sibling_children) =>
      let shadow_element := mergeShadowAttributes h frame_mode element element.attributes
        sibling_element
      shadow_ptr.withChildren (shadow_ptr.children.set i
        (createShadowNodeChildren h frame_mode (.element shadow_element sibling_children)
          children))
  | shadow_ptr, .document _ => shadow_ptr
  | shadow_ptr, .text _ => shadow_ptr
/-- The child loops of `createShadowNode`. -/
def createShadowNodeChildren (h : Host) (frame_mode : Option (List Char)) :
    Node → List Node → Node
  | shadow_ptr, [] => shadow_ptr
  | shadow_ptr, child :: rest =>
    createShadowNodeChildren h frame_mode (createShadowNode h frame_mode shadow_ptr child) rest
end

/-! ## Whitelist matching -/

mutual
/-- Model of `DOMGuard::hasMatchingNodeInShadowTree(node, shadow_parent)` for a live element:
some node strictly below the shadow parent is returned by `matchingNode`. -/
def hasMatchingNodeInShadowTree (h : Host) (frame_mode : Option (List Char))
    (element : ElementData) : Node → Bool
  | .element _ children => hasMatchingNodeInShadowChildren h frame_mode element children
  | .documentFragment children => hasMatchingNodeInShadowChildren h frame_mode element children
  | .document children => hasMatchingNodeInShadowChildren h frame_mode element children
  | .text _ => false
/-- The child loop of `hasMatchingNodeInShadowTree`. -/
def hasMatchingNodeInShadowChildren (h : Host) (frame_mode : Option (List Char))
    (element : ElementData) : List Node → Bool
  | [] => false
  | child :: rest =>
    if (matchingNode h frame_mode element child).isSome
        || hasMatchingNodeInShadowTree h frame_mode element child then true
    else hasMatchingNodeInShadowChildren h frame_mode element rest
end

mutual
/-- Model of `DOMGuard::matchesNodeWhitelistInShadowTree(node, shadow_parent)`. -/
def matchesNodeWhitelistInShadowTree (h : Host) (frame_mode : Option (List Char)) :
    Node → Node → Bool
  | .documentFragment children, shadow_parent =>
    matchesNodeWhitelistChildren h frame_mode children shadow_parent
  | .element element children, shadow_parent =>
    if !hasMatchingNodeInShadowTree h frame_mode element shadow_parent then false
    else matchesNodeWhitelistChildren h frame_mode children shadow_parent
  | .document _, _ => true
  | .text _, _ => true
/-- The child loops of `matchesNodeWhitelistInShadowTree`. -/
def matchesNodeWhitelistChildren (h : Host) (frame_mode : Option (List Char)) :
    List Node → Node → Bool
  | [], _ => true
  | child :: rest, shadow_parent =>
    if !matchesNodeWhitelistInShadowTree h frame_mode child shadow_parent then false
    else matchesNodeWhitelistChildren h frame_mode rest shadow_parent
end

mutual
/-- Model of `DOMGuard::matchesAttributeWhitelistInShadowTree(element, attribute_name,
attribute_value, shadow_parent)`: the value of a call that returns. -/
def matchesAttributeWhitelistInShadowTree (h : Host) (frame_mode : Option (List Char))
    (element : ElementData) (attribute_name : List Char) (attribute_value : AtomicString) :
    Node → Bool
  | .element _ children =>
    matchesAttributeWhitelistChildren h frame_mode element attribute_name attribute_value
      children
  | .documentFragment children =>
    matchesAttributeWhitelistChildren h frame_mode element attribute_name attribute_value
      children
  | .document children =>
    matchesAttributeWhitelistChildren h frame_mode element attribute_name attribute_value
      children
  | .text _ => false
/-- The child loop of `matchesAttributeWhitelistInShadowTree`; children that are not
elements are skipped. -/
def matchesAttributeWhitelistChildren (h : Host) (frame_mode : Option (List Char))
    (element : ElementData) (attribute_name : List Char) (attribute_value : AtomicString) :
    List Node → Bool
  | [] => false
  | .element child_element child_children :: rest =>
    if attributeEquals h frame_mode element attribute_name
          (child_element.getAttribute attribute_name) attribute_value
        || matchesAttributeWhitelistInShadowTree h frame_mode element attribute_name
            attribute_value (.element child_element child_children) then true
    else
      matchesAttributeWhitelistChildren h frame_mode element attribute_name attribute_value rest
  | _ :: rest =>
    matchesAttributeWhitelistChildren h frame_mode element attribute_name attribute_value rest
end

mutual
/-- Model of `DOMGuard::matchesAttributeWhitelistInShadowTree` with the results of
`attributeEquals` as `attributeEqualsChecked` gives them: `none` when the search comes
to a call that does not return before it has found a match. -/
def matchesAttributeWhitelistInShadowTreeChecked (h : Host)
    (frame_mode : Option (List Char)) (element : ElementData) (attribute_name : List Char)
    (attribute_value : AtomicString) : Node → Option Bool
  | .element _ children =>
    matchesAttributeWhitelistChildrenChecked h frame_mode element attribute_name
      attribute_value children
  | .documentFragment children =>
    matchesAttributeWhitelistChildrenChecked h frame_mode element attribute_name
      attribute_value children
  | .document children =>
    matchesAttributeWhitelistChildrenChecked h frame_mode element attribute_name
      attribute_value children
  | .text _ => some false
/-- The child loop of `matchesAttributeWhitelistInShadowTreeChecked`: for each element
child first `attributeEquals` on its pattern, then the search below it. -/
def matchesAttributeWhitelistChildrenChecked (h : Host) (frame_mode : Option (List Char))
    (element : ElementData) (attribute_name : List Char) (attribute_value : AtomicString) :
    List Node → Option Bool
  | [] => some false
  | .element child_element child_children :: rest =>
    match attributeEqualsChecked h frame_mode element attribute_name
        (child_element.getAttribute attribute_name) attribute_value with
    | none => none
    | some true => some true
    | some false =>
      match matchesAttributeWhitelistInShadowTreeChecked h frame_mode element attribute_name
          attribute_value (.element child_element child_children) with
      | none => none
      | some true => some true
      | some false =>
        matchesAttributeWhitelistChildrenChecked h frame_mode element attribute_name
          attribute_value rest
  | _ :: rest =>
    matchesAttributeWhitelistChildrenChecked h frame_mode element attribute_name
      attribute_value rest
end

/-! ## Locating a live node in the shadow tree -/

/-- The values of `DOMGuard::ShadowTreeMatchResult`. -/
inductive ShadowTreeMatchResult where
  | Found
  | NotFound
  | RootIsNotDocument
  | WhitelistMatch
deriving DecidableEq, Repr

/-- A node on the ancestor chain of a live node below its topmost ancestor.  Parents
and shadow hosts are container nodes, so such a node is an element or a document
fragment (a shadow root is a document fragment); the `DCHECK` of the locate walks states
the same. -/
inductive Ancestor where
  | element (data : ElementData)
  | documentFragment (isUserAgentShadowRoot : Bool)
deriving DecidableEq, Repr

/-- What the topmost ancestor of a live node is: the document of the node, another
document, or no document at all. -/
inductive RootKind where
  | ownDocument
  | otherDocument
  | notDocument
deriving DecidableEq, Repr

/-- The vector `ancestors` that the locate walks build with `ParentOrShadowHostNode`:
`chain` runs from the node itself up to the child of the topmost ancestor (the vector
after `pop_back`, empty when the node is its own topmost ancestor), `root` is the topmost
ancestor. -/
structure NodePosition where
  chain : List Ancestor
  root : RootKind
deriving DecidableEq, Repr

/-- Whether the topmost ancestor is a `Document`: `DynamicTo<Document>(ancestors.back())`. -/
def RootKind.isDocument : RootKind → Bool
  | .ownDocument => true
  | .otherDocument => true
  | .notDocument => false

/-- The first loop of `locateNodeInShadowTree` over the ancestors still to be visited,
topmost first. -/
def locateLoop (h : Host) (frame_mode : Option (List Char)) :
    List Ancestor → Node → ShadowTreeMatchResult × Option Node
  | [], shadow_ptr => (.Found, some shadow_ptr)
  | .documentFragment _ :: rest, shadow_ptr => locateLoop h frame_mode rest shadow_ptr
  | .element ancestor_element :: rest, shadow_ptr =>
    match findShadowSibling h frame_mode ancestor_element shadow_ptr.children 0 with
    | some (_, found_element, found_children) =>
      if found_element.getAttribute "dtt-whitelist".toList ≠ none then
        if rest ≠ [] then (.WhitelistMatch, some (.element found_element found_children))
        else (.Found, some (.element found_element found_children))
      else locateLoop h frame_mode rest (.element found_element found_children)
    | none => (.NotFound, none)

/-- Model of `DOMGuard::locateNodeInShadowTree(node, result)`: the match result and the
returned shadow node (`none` for the null pointer).  `dom_constraint` is the shadow
document of the frame. -/
def locateNodeInShadowTree (h : Host) (frame_mode : Option (List Char)) (dom_constraint : Node)
    (node : NodePosition) : ShadowTreeMatchResult × Option Node :=
  if !node.root.isDocument then (.RootIsNotDocument, none)
  else locateLoop h frame_mode node.chain.reverse dom_constraint

/-- Replacement of the child at a position by its image under `f`. -/
def modifyChild (f : Node → Node) : Nat → List Node → List Node
  | _, [] => []
  | 0, child :: rest => f child :: rest
  | i + 1, child :: rest => child :: modifyChild f i rest

/-- The node reached from a node by a path of child positions. -/
def Node.nodeAt : Node → List Nat → Option Node
  | n, [] => some n
  | n, i :: path =>
    match n.children.get? i with
    | some child => child.nodeAt path
    | none => none

/-- The tree in which the node reached by a path is replaced by its image under `f`. -/
def Node.updateAt (f : Node → Node) : List Nat → Node → Node
  | [], n => f n
  | i :: path, n => n.withChildren (modifyChild (Node.updateAt f path) i n.children)

/-- The second loop of `locateNodeAndCreateAncestorsInShadowTree`: a shadow element is
created for every remaining element ancestor and appended below the previous one.  The
result is the new shadow pointer subtree and the path from it to the last shadow. -/
def createAncestorsLoop (shadow_ptr_is_html : Bool) : List Ancestor → Node → Node × List Nat
  | [], shadow_ptr => (shadow_ptr, [])
  | .documentFragment _ :: rest, shadow_ptr =>
    createAncestorsLoop shadow_ptr_is_html rest shadow_ptr
  | .element ancestor_element :: rest, shadow_ptr =>
    let shadow_element :=
      ({ tagName := ancestor_element.tagName, attributes := [] } : ElementData).setAttribute
        "dtt-id".toList ancestor_element.getIdAttribute
    let shadow_element :=
      if shadow_ptr_is_html && shadow_element.tagName ≠ "HEAD".toList
          && shadow_element.tagName ≠ "BODY".toList then
        shadow_element.setAttribute "dtt-dangling".toList (some [])
      else shadow_element
    let below := createAncestorsLoop shadow_ptr_is_html rest (.element shadow_element [])
    (shadow_ptr.withChildren (shadow_ptr.children ++ [below.1]),
      shadow_ptr.children.length :: below.2)

/-- The first loop of `locateNodeAndCreateAncestorsInShadowTree`, followed by the second
loop where the walk stalls. -/
def locateAndCreateLoop (h : Host) (frame_mode : Option (List Char)) :
    Bool → Bool → List Ancestor → Node → Node × List Nat
  | _, _, [], shadow_ptr => (shadow_ptr, [])
  | shadow_ptr_is_root, shadow_ptr_is_html, .documentFragment _ :: rest, shadow_ptr =>
    locateAndCreateLoop h frame_mode shadow_ptr_is_root shadow_ptr_is_html rest shadow_ptr
  | shadow_ptr_is_root, shadow_ptr_is_html, .element ancestor_element :: rest, shadow_ptr =>
    match findShadowSibling h frame_mode ancestor_element shadow_ptr.children 0 with
    | some (i, found_element, found_children) =>
      let below :=
        if shadow_ptr_is_root then
          locateAndCreateLoop h frame_mode false shadow_ptr_is_html rest
            (.element found_element found_children)
        else if shadow_ptr_is_html then
          locateAndCreateLoop h frame_mode shadow_ptr_is_root false rest
            (.element found_element found_children)
        else
          locateAndCreateLoop h frame_mode shadow_ptr_is_root shadow_ptr_is_html rest
            (.element found_element found_children)
      (shadow_ptr.withChildren (shadow_ptr.children.set i below.1), i :: below.2)
    | none =>
      createAncestorsLoop shadow_ptr_is_html (.element ancestor_element :: rest) shadow_ptr

/-- Result of `locateNodeAndCreateAncestorsInShadowTree`: the match result, the shadow
document after the call and the path in it to the returned shadow node (`none` for the
null pointer). -/
structure LocateAndCreateResult where
  result : ShadowTreeMatchResult
  dom_constraint : Node
  shadow_path : Option (List Nat)

/-- Model of `DOMGuard::locateNodeAndCreateAncestorsInShadowTree(node, result)`. -/
def locateNodeAndCreateAncestorsInShadowTree (h : Host) (frame_mode : Option (List Char))
    (dom_constraint : Node) (node : NodePosition) : LocateAndCreateResult :=
  if node.root ≠ .ownDocument then
    { result := .RootIsNotDocument, dom_constraint := dom_constraint, shadow_path := none }
  else
    let walk := locateAndCreateLoop h frame_mode true true node.chain.reverse dom_constraint
    { result := .Found, dom_constraint := walk.1, shadow_path := some walk.2 }

/-! ## The hooks -/

/-- What the hooks read of the frame and the document of the node they are called for. -/
structure FrameState where
  /-- Whether the document has a window: `GetDocument().domWindow()` -/
  has_dom_window : Bool
  /-- Whether the document has a parser that is parsing -/
  is_parsing : Bool
  /-- The string `DOMConstraintMode()` of the frame -/
  dom_constraint_mode : List Char
  /-- The shadow document `DOMConstraint()` of the frame -/
  dom_constraint : Node
  /-- Whether `LOG(INFO)` evaluates its operands: `LOG_IS_ON(INFO)` -/
  log_info_is_on : Bool

/-- State when a hook stops: the `allowed` flag, the shadow document, whether
`executePendingAttributeChanges` ran on the node, and whether the hook stopped at the
dereference of a null pointer instead of returning. -/
structure HookResult where
  allowed : Bool
  dom_constraint : Node
  pending_attribute_changes_executed : Bool
  null_dereference : Bool

/-- Model of `DOMGuard::isDescendantOfUserAgentShadowRoot(node)`: the node or one of its
ancestors is a user-agent shadow root. -/
def isDescendantOfUserAgentShadowRoot (node : NodePosition) : Bool :=
  node.chain.any fun a =>
    match a with
    | .documentFragment isUserAgentShadowRoot => isUserAgentShadowRoot
    | .element _ => false

mutual
/-- Whether `createShadowNode(dom_constraint, nullptr, node)` reads its null shadow
pointer: it does at the first element it reaches through document fragments. -/
def createShadowNodeReadsShadow : Node → Bool
  | .documentFragment children => createShadowNodeChildrenReadShadow children
  | .element _ _ => true
  | .document _ => false
  | .text _ => false
/-- The child loop of `createShadowNodeReadsShadow`. -/
def createShadowNodeChildrenReadShadow : List Node → Bool
  | [] => false
  | child :: rest =>
    createShadowNodeReadsShadow child || createShadowNodeChildrenReadShadow rest
end

/-- Model of `DOMGuard::WillInsertDOMNodeExtended(parent, node, next, allowed)`. -/
def WillInsertDOMNodeExtended (h : Host) (frame : FrameState) (parent : NodePosition)
    (node : Node) : HookResult :=
  if !frame.has_dom_window then
    { allowed := true, dom_constraint := frame.dom_constraint,
      pending_attribute_changes_executed := false, null_dereference := false }
  else if isDescendantOfUserAgentShadowRoot parent then
    { allowed := true, dom_constraint := frame.dom_constraint,
      pending_attribute_changes_executed := true, null_dereference := false }
  else if frame.is_parsing then
    { allowed := true, dom_constraint := frame.dom_constraint,
      pending_attribute_changes_executed := true, null_dereference := false }
  else if frame.dom_constraint_mode.head? = some 'r' then
    let located := locateNodeAndCreateAncestorsInShadowTree h (some frame.dom_constraint_mode)
      frame.dom_constraint parent
    if located.result ≠ .Found then
      { allowed := true, dom_constraint := located.dom_constraint,
        pending_attribute_changes_executed := false, null_dereference := false }
    else
      match located.shadow_path with
      | none =>
        { allowed := true, dom_constraint := located.dom_constraint,
          pending_attribute_changes_executed := false, null_dereference := true }
      | some path =>
        match located.dom_constraint.nodeAt path with
        | some (.element _ _) =>
          { allowed := true,
            dom_constraint := Node.updateAt
              (fun shadow_ptr => createShadowNode h (some frame.dom_constraint_mode) shadow_ptr node)
              path located.dom_constraint,
            pending_attribute_changes_executed := true, null_dereference := false }
        | _ =>
          -- `DynamicTo<Element>` of the shadow document is the null pointer
          if createShadowNodeReadsShadow node then
            { allowed := true, dom_constraint := located.dom_constraint,
              pending_attribute_changes_executed := false, null_dereference := true }
          else
            { allowed := true, dom_constraint := located.dom_constraint,
              pending_attribute_changes_executed := true, null_dereference := false }
  else if frame.dom_constraint_mode.head? = some 'e' then
    match locateNodeInShadowTree h (some frame.dom_constraint_mode) frame.dom_constraint
        parent with
    | (.RootIsNotDocument, _) =>
      { allowed := true, dom_constraint := frame.dom_constraint,
        pending_attribute_changes_executed := false, null_dereference := false }
    | (.Found, some shadow_parent) =>
      let allowed := hasMatchingSubtreeInShadowTree h (some frame.dom_constraint_mode) node
        shadow_parent
      { allowed := allowed, dom_constraint := frame.dom_constraint,
        pending_attribute_changes_executed := allowed, null_dereference := false }
    | (.WhitelistMatch, some shadow_parent) =>
      let allowed := matchesNodeWhitelistInShadowTree h (some frame.dom_constraint_mode) node
        shadow_parent
      { allowed := allowed, dom_constraint := frame.dom_constraint,
        pending_attribute_changes_executed := allowed, null_dereference := false }
    | (.NotFound, _) =>
      { allowed := false, dom_constraint := frame.dom_constraint,
        pending_attribute_changes_executed := false, null_dereference := false }
    | (_, none) =>
      -- a match without a shadow node; `locateNodeInShadowTree` never returns it
      { allowed := true, dom_constraint := frame.dom_constraint,
        pending_attribute_changes_executed := false, null_dereference := true }
  else
    { allowed := true, dom_constraint := frame.dom_constraint,
      pending_attribute_changes_executed := false, null_dereference := false }

/-- The position of an element with the given ancestors. -/
def elementPosition (element : ElementData) (parents : List Ancestor) (root : RootKind) :
    NodePosition :=
  { chain := .element element :: parents, root := root }

/-- Model of `DOMGuard::WillModifyDOMAttrExtended(element, name, old_value, new_value,
allowed)`; `parents` and `root` are the ancestors of the element. -/
def WillModifyDOMAttrExtended (h : Host) (frame : FrameState) (element : ElementData)
    (parents : List Ancestor) (root : RootKind) (name : List Char)
    (_old_value new_value : AtomicString) : HookResult :=
  if !frame.has_dom_window then
    { allowed := true, dom_constraint := frame.dom_constraint,
      pending_attribute_changes_executed := false, null_dereference := false }
  else if isDescendantOfUserAgentShadowRoot (elementPosition element parents root) then
    { allowed := true, dom_constraint := frame.dom_constraint,
      pending_attribute_changes_executed := false, null_dereference := false }
  else if !shouldMonitorAttribute h element name then
    { allowed := true, dom_constraint := frame.dom_constraint,
      pending_attribute_changes_executed := false, null_dereference := false }
  else if frame.dom_constraint_mode.head? = some 'r' then
    let located := locateNodeAndCreateAncestorsInShadowTree h (some frame.dom_constraint_mode)
      frame.dom_constraint (elementPosition element parents root)
    if located.result ≠ .Found then
      { allowed := true, dom_constraint := located.dom_constraint,
        pending_attribute_changes_executed := false, null_dereference := false }
    else
      match located.shadow_path with
      | none =>
        { allowed := true, dom_constraint := located.dom_constraint,
          pending_attribute_changes_executed := false, null_dereference := true }
      | some path =>
        match located.dom_constraint.nodeAt path with
        | some (.element shadow_element _) =>
          -- the shadow element is in the shadow document, which has no frame
          match mergeShadowAttributeChecked h none shadow_element name
              (shadow_element.getAttribute name) new_value with
          | none =>
            -- `scriptEquals` reads the null value string
            { allowed := true, dom_constraint := located.dom_constraint,
              pending_attribute_changes_executed := false, null_dereference := true }
          | some merged =>
            { allowed := true,
              dom_constraint := Node.updateAt
                (fun shadow_ptr =>
                  match shadow_ptr with
                  | .element shadow_element shadow_children =>
                    .element (shadow_element.setAttribute name merged) shadow_children
                  | other => other)
                path located.dom_constraint,
              pending_attribute_changes_executed := false, null_dereference := false }
        | _ =>
          { allowed := true, dom_constraint := located.dom_constraint,
            pending_attribute_changes_executed := false, null_dereference := true }
  else if frame.dom_constraint_mode.head? = some 'e' then
    match locateNodeInShadowTree h (some frame.dom_constraint_mode) frame.dom_constraint
        (elementPosition element parents root) with
    | (.RootIsNotDocument, _) =>
      { allowed := true, dom_constraint := frame.dom_constraint,
        pending_attribute_changes_executed := false, null_dereference := false }
    | (.Found, some (.element shadow_element _)) =>
      match attributeEqualsChecked h (some frame.dom_constraint_mode) element name
          (shadow_element.getAttribute name) new_value with
      | some verdict =>
        { allowed := verdict, dom_constraint := frame.dom_constraint,
          pending_attribute_changes_executed := false, null_dereference := false }
      | none =>
        -- `scriptEquals` reads the null value string
        { allowed := true, dom_constraint := frame.dom_constraint,
          pending_attribute_changes_executed := false, null_dereference := true }
    | (.WhitelistMatch, some (.element shadow_element shadow_children)) =>
      match matchesAttributeWhitelistInShadowTreeChecked h (some frame.dom_constraint_mode)
          element name new_value (.element shadow_element shadow_children) with
      | some verdict =>
        { allowed := verdict, dom_constraint := frame.dom_constraint,
          pending_attribute_changes_executed := false, null_dereference := false }
      | none =>
        -- `scriptEquals` reads the null value string
        { allowed := true, dom_constraint := frame.dom_constraint,
          pending_attribute_changes_executed := false, null_dereference := true }
    | (.NotFound, _) =>
      -- the rejection record reads `shadow_ptr->getAttribute(name)` of the null pointer
      { allowed := false, dom_constraint := frame.dom_constraint,
        pending_attribute_changes_executed := false,
        null_dereference := frame.log_info_is_on }
    | (_, _) =>
      -- a match whose shadow is not an element; the walk from an element never returns it
      { allowed := true, dom_constraint := frame.dom_constraint,
        pending_attribute_changes_executed := false, null_dereference := true }
  else
    { allowed := true, dom_constraint := frame.dom_constraint,
      pending_attribute_changes_executed := false, null_dereference := false }

/-! ## Styles -/

/-- A `ComputedStyle` of the engine, named by a number; the guard reads a style only
through the facilities of `StyleHost`. -/
abbrev ComputedStyle := Nat

/-- The style facilities of the rendering engine that DOMGuard only calls; a CSS property
is named by the number of its `CSSPropertyID`. -/
structure StyleHost where
  /-- The function `CSSPropertyEquality::PropertiesEqualForDOMGuard(property, a, b)` -/
  propertiesEqualForDOMGuard : Nat → ComputedStyle → ComputedStyle → Int
  /-- The function `ComputedStyleUtils::ComputedPropertyValue(property, style)`; `none` is
  the null pointer -/
  computedPropertyValue : Nat → ComputedStyle → Option CSSValue
  /-- The string `property.GetPropertyNameString()` -/
  getPropertyNameString : Nat → List Char
  /-- The style `GetComputedStyle()` of a shadow element; `none` is the null pointer -/
  shadowComputedStyle : ElementData → Option ComputedStyle

/-- The members of `DOMGuard` used during style comparison (`dom_guard.h`): the monitored
property ids and the scratch vectors indexed like them. -/
structure StyleState where
  css_property_ids_ : List Nat
  css_property_values_ : List (Option CSSValue)
  is_css_property_modified_ : List Bool
  modified_property_count_ : Int

/-- The expression `value ? value->CssText() : ""`. -/
def cssTextOrEmpty (h : Host) (value : Option CSSValue) : List Char :=
  match value with
  | some v => h.cssText v
  | none => []

/-- The name `"dtt-s-" + property.GetPropertyNameString()` of the shadow attribute that
stores the pattern of a property. -/
def shadowStyleAttributeName (sh : StyleHost) (property : Nat) : List Char :=
  "dtt-s-".toList ++ sh.getPropertyNameString property

/-- The loop of `DOMGuard::collectStyleChanges` over the property ids still to be visited;
`count` is the index of the first of them. -/
def collectStyleChangesLoop (h : Host) (sh : StyleHost) (current_style : Option ComputedStyle)
    (new_style : ComputedStyle) (is_whitelist_match : Bool) :
    List Nat → Nat → StyleState → StyleState
  | [], _, state => state
  | property :: rest, count, state =>
    let state :=
      { state with is_css_property_modified_ := state.is_css_property_modified_.set count false }
    let new_css_value := sh.computedPropertyValue property new_style
    let state :=
      if is_whitelist_match then
        { state with css_property_values_ := state.css_property_values_.set count new_css_value }
      else state
    let modified :=
      match current_style with
      | none => decide (cssTextOrEmpty h new_css_value ≠ [])
      | some current =>
        let fast_match_result := sh.propertiesEqualForDOMGuard property current new_style
        if fast_match_result = 0 then true
        else if fast_match_result = -1 then
          decide (cssTextOrEmpty h (sh.computedPropertyValue property current)
            ≠ cssTextOrEmpty h new_css_value)
        else false
    let state :=
      if modified then
        { state with
          is_css_property_modified_ := state.is_css_property_modified_.set count true
          modified_property_count_ := state.modified_property_count_ + 1 }
      else state
    collectStyleChangesLoop h sh current_style new_style is_whitelist_match rest (count + 1)
      state

/-- Model of `DOMGuard::collectStyleChanges(element, current_style, new_style,
is_whitelist_match)`: the members after the call. -/
def collectStyleChanges (h : Host) (sh : StyleHost) (current_style : Option ComputedStyle)
    (new_style : ComputedStyle) (is_whitelist_match : Bool) (state : StyleState) : StyleState :=
  collectStyleChangesLoop h sh current_style new_style is_whitelist_match
    state.css_property_ids_ 0 { state with modified_property_count_ := 0 }

/-- The property loop that `matchesPropertyWhitelistInShadowTree` runs for one child
element of the shadow parent: every property still marked modified that the child
accepts is unmarked and the counter is decremented. -/
def clearMatchedPropertiesLoop (h : Host) (sh : StyleHost) (style : ComputedStyle)
    (slow_path : Bool) (child_element : ElementData) :
    List Nat → Nat → StyleState → StyleState
  | [], _, state => state
  | property :: rest, count, state =>
    if !state.is_css_property_modified_.getD count false then
      clearMatchedPropertiesLoop h sh style slow_path child_element rest (count + 1) state
    else
      let new_value := state.css_property_values_.getD count none
      let cleared :=
        if slow_path then
          propertyEquals h property
            (child_element.getAttribute (shadowStyleAttributeName sh property)) new_value
        else
          match sh.shadowComputedStyle child_element with
          | none => false
          | some shadow_computed_style =>
            if sh.propertiesEqualForDOMGuard property shadow_computed_style style = 1 then true
            else
              decide (cssTextOrEmpty h (sh.computedPropertyValue property shadow_computed_style)
                = cssTextOrEmpty h new_value)
      let state :=
        if cleared then
          { state with
            is_css_property_modified_ := state.is_css_property_modified_.set count false
            modified_property_count_ := state.modified_property_count_ - 1 }
        else state
      clearMatchedPropertiesLoop h sh style slow_path child_element rest (count + 1) state

mutual
/-- Model of `DOMGuard::matchesPropertyWhitelistInShadowTree(element, shadow_parent, style,
slow_path)`: the returned flag and the members after the call. -/
def matchesPropertyWhitelistInShadowTree (h : Host) (sh : StyleHost) (style : ComputedStyle)
    (slow_path : Bool) : Node → StyleState → Bool × StyleState
  | .element _ children, state =>
    matchesPropertyWhitelistChildren h sh style slow_path children state
  | .documentFragment children, state =>
    matchesPropertyWhitelistChildren h sh style slow_path children state
  | .document children, state =>
    matchesPropertyWhitelistChildren h sh style slow_path children state
  | .text _, state => (false, state)
/-- The child loop of `matchesPropertyWhitelistInShadowTree`; children that are not
elements are skipped. -/
def matchesPropertyWhitelistChildren (h : Host) (sh : StyleHost) (style : ComputedStyle)
    (slow_path : Bool) : List Node → StyleState → Bool × StyleState
  | [], state => (false, state)
  | .element child_element child_children :: rest, state =>
    let state := clearMatchedPropertiesLoop h sh style slow_path child_element
      state.css_property_ids_ 0 state
    if state.modified_property_count_ = 0 then (true, state)
    else
      let below := matchesPropertyWhitelistInShadowTree h sh style slow_path
        (.element child_element child_children) state
      if below.1 then (true, below.2)
      else matchesPropertyWhitelistChildren h sh style slow_path rest below.2
  | _ :: rest, state => matchesPropertyWhitelistChildren h sh style slow_path rest state
end

/-- Model of `DOMGuard::WillRemoveDOMNodeExtended(node, allowed)`. -/
def WillRemoveDOMNodeExtended (frame : FrameState) (node : NodePosition) : HookResult :=
  if !frame.has_dom_window then
    { allowed := true, dom_constraint := frame.dom_constraint,
      pending_attribute_changes_executed := false, null_dereference := false }
  else if isDescendantOfUserAgentShadowRoot node then
    { allowed := true, dom_constraint := frame.dom_constraint,
      pending_attribute_changes_executed := false, null_dereference := false }
  else
    { allowed := true, dom_constraint := frame.dom_constraint,
      pending_attribute_changes_executed := false, null_dereference := false }

/-- The loop of the record branch of `WillSetStyle` over the property ids still to be
visited: the pattern of every modified property is merged into the shadow element. -/
def recordStyleLoop (h : Host) (sh : StyleHost) (style : ComputedStyle)
    (is_css_property_modified : List Bool) : List Nat → Nat → ElementData → ElementData
  | [], _, shadow_element => shadow_element
  | property :: rest, count, shadow_element =>
    if is_css_property_modified.getD count false then
      let shadow_attribute_name := shadowStyleAttributeName sh property
      let new_css_value := sh.computedPropertyValue property style
      recordStyleLoop h sh style is_css_property_modified rest (count + 1)
        (shadow_element.setAttribute shadow_attribute_name
          (mergeShadowProperty h property (shadow_element.getAttribute shadow_attribute_name)
            new_css_value))
    else
      recordStyleLoop h sh style is_css_property_modified rest (count + 1) shadow_element

/-- Whether the loop of the record branch of `WillSetStyle` reads its shadow pointer: it
does at the first modified property. -/
def recordStyleReadsShadow (is_css_property_modified : List Bool) : List Nat → Nat → Bool
  | [], _ => false
  | _ :: rest, count =>
    is_css_property_modified.getD count false
      || recordStyleReadsShadow is_css_property_modified rest (count + 1)

/-- The loop of the enforce branch of `WillSetStyle` for the result `Found`, over the
property ids still to be visited: the value of `allowed` when the loop is left. -/
def enforceStyleLoop (h : Host) (sh : StyleHost) (current_style : Option ComputedStyle)
    (style : ComputedStyle) (shadow_element : ElementData) : List Nat → Bool
  | [] => true
  | property :: rest =>
    let new_value := sh.computedPropertyValue property style
    let new_css_text := cssTextOrEmpty h new_value
    let unchanged :=
      match current_style with
      | none => decide (new_css_text = [])
      | some current =>
        let fast_match_result_current := sh.propertiesEqualForDOMGuard property current style
        if fast_match_result_current = 1 then true
        else if fast_match_result_current = -1 then
          decide (cssTextOrEmpty h (sh.computedPropertyValue property current) = new_css_text)
        else false
    if unchanged then enforceStyleLoop h sh current_style style shadow_element rest
    else
      let shadow_matches :=
        match sh.shadowComputedStyle shadow_element with
        | none => false
        | some shadow_computed_style =>
          if sh.propertiesEqualForDOMGuard property shadow_computed_style style = 1 then true
          else
            decide (cssTextOrEmpty h (sh.computedPropertyValue property shadow_computed_style)
              = new_css_text)
      if shadow_matches then enforceStyleLoop h sh current_style style shadow_element rest
      else if propertyEquals h property
          (shadow_element.getAttribute (shadowStyleAttributeName sh property)) new_value then
        enforceStyleLoop h sh current_style style shadow_element rest
      else false

/-- State when `WillSetStyle` stops: the state of the hook and the members of the guard. -/
structure StyleHookResult where
  hook : HookResult
  state : StyleState

/-- Model of `DOMGuard::WillSetStyle(element, style, allowed)`; `parents` and `root` are the
ancestors of the element, `current_style` is its `GetComputedStyle()` and `state` holds
the members of the guard before the call. -/
def WillSetStyle (h : Host) (sh : StyleHost) (frame : FrameState) (state : StyleState)
    (element : ElementData) (parents : List Ancestor) (root : RootKind)
    (current_style : Option ComputedStyle) (style : ComputedStyle) : StyleHookResult :=
  if !frame.has_dom_window then
    { hook := { allowed := true, dom_constraint := frame.dom_constraint,
                pending_attribute_changes_executed := false, null_dereference := false },
      state := state }
  else if isDescendantOfUserAgentShadowRoot (elementPosition element parents root) then
    { hook := { allowed := true, dom_constraint := frame.dom_constraint,
                pending_attribute_changes_executed := false, null_dereference := false },
      state := state }
  else if frame.dom_constraint_mode.head? = some 'r' then
    let located := locateNodeAndCreateAncestorsInShadowTree h (some frame.dom_constraint_mode)
      frame.dom_constraint (elementPosition element parents root)
    if located.result ≠ .Found then
      { hook := { allowed := true, dom_constraint := located.dom_constraint,
                  pending_attribute_changes_executed := false, null_dereference := false },
        state := state }
    else
      let collected := collectStyleChanges h sh current_style style false state
      match located.shadow_path with
      | none =>
        { hook :=
            { allowed := true, dom_constraint := located.dom_constraint,
              pending_attribute_changes_executed := false,
              null_dereference := recordStyleReadsShadow collected.is_css_property_modified_
                collected.css_property_ids_ 0 },
          state := collected }
      | some path =>
        match located.dom_constraint.nodeAt path with
        | some (.element _ _) =>
          { hook :=
              { allowed := true,
                dom_constraint := Node.updateAt
                  (fun shadow_ptr =>
                    match shadow_ptr with
                    | .element shadow_element shadow_children =>
                      .element
                        (recordStyleLoop h sh style collected.is_css_property_modified_
                          collected.css_property_ids_ 0 shadow_element)
                        shadow_children
                    | other => other)
                  path located.dom_constraint,
                pending_attribute_changes_executed := false, null_dereference := false },
            state := collected }
        | _ =>
          -- `DynamicTo<Element>` gave the null pointer; the walk from an element never does
          { hook :=
              { allowed := true, dom_constraint := located.dom_constraint,
                pending_attribute_changes_executed := false,
                null_dereference := recordStyleReadsShadow collected.is_css_property_modified_
                  collected.css_property_ids_ 0 },
            state := collected }
  else if frame.dom_constraint_mode.head? = some 'e' then
    match locateNodeInShadowTree h (some frame.dom_constraint_mode) frame.dom_constraint
        (elementPosition element parents root) with
    | (match_result, some (.element shadow_element shadow_children)) =>
      match match_result with
      | .RootIsNotDocument =>
        { hook := { allowed := true, dom_constraint := frame.dom_constraint,
                    pending_attribute_changes_executed := false, null_dereference := false },
          state := state }
      | .Found =>
        { hook :=
            { allowed := enforceStyleLoop h sh current_style style shadow_element
                state.css_property_ids_,
              dom_constraint := frame.dom_constraint,
              pending_attribute_changes_executed := false, null_dereference := false },
          state := state }
      | .WhitelistMatch =>
        let collected := collectStyleChanges h sh current_style style true state
        let fast := matchesPropertyWhitelistInShadowTree h sh style false
          (.element shadow_element shadow_children) collected
        if fast.1 then
          { hook := { allowed := true, dom_constraint := frame.dom_constraint,
                      pending_attribute_changes_executed := false, null_dereference := false },
            state := fast.2 }
        else
          let slow := matchesPropertyWhitelistInShadowTree h sh style true
            (.element shadow_element shadow_children) fast.2
          { hook := { allowed := slow.1, dom_constraint := frame.dom_constraint,
                      pending_attribute_changes_executed := false, null_dereference := false },
            state := slow.2 }
      | .NotFound =>
        { hook := { allowed := false, dom_constraint := frame.dom_constraint,
                    pending_attribute_changes_executed := false, null_dereference := false },
          state := state }
    | (_, _) =>
      -- `if (!shadow_ptr) { allowed = false; return; }`
      { hook := { allowed := false, dom_constraint := frame.dom_constraint,
                  pending_attribute_changes_executed := false, null_dereference := false },
        state := state }
  else
    { hook := { allowed := true, dom_constraint := frame.dom_constraint,
                pending_attribute_changes_executed := false, null_dereference := false },
      state := state }

/-! ## stringEquals with its reads made explicit -/

/-- The `while (true)` loop of `DOMGuard::stringEquals` with every read of a character made
explicit: the result is `none` when the fuel is used up or when a position that is not
inside the string is read, and otherwise the value the loop returns.  The second
recursive call on a star is made only when the first returned false. -/
def stringEqualsLoopChecked (shadow_string actual_string : List Char) :
    Nat → Nat → Nat → Bool → Option Bool
  | 0, _, _, _ => none
  | fuel + 1, shadow_ptr, actual_ptr, is_escaped_character =>
    if shadow_ptr = shadow_string.length then
      some (decide (actual_ptr = actual_string.length))
    else if actual_ptr = actual_string.length then
      match shadow_string.get? shadow_ptr with
      | none => none
      | some c => some (c == '*' && decide (shadow_ptr = shadow_string.length - 1))
    else if is_escaped_character then
      -- ignore_control_character = true
      match shadow_string.get? shadow_ptr, actual_string.get? actual_ptr with
      | some c, some d =>
        if c == d || (c == '?' && !true) then
          stringEqualsLoopChecked shadow_string actual_string fuel (shadow_ptr + 1)
            (actual_ptr + 1) false
        else some false
      | _, _ => none
    else
      match shadow_string.get? shadow_ptr with
      | none => none
      | some c =>
        if c == '\\' then
          stringEqualsLoopChecked shadow_string actual_string fuel (shadow_ptr + 1) actual_ptr
            true
        else if c == '*' then
          match stringEqualsLoopChecked shadow_string actual_string fuel (shadow_ptr + 1)
              actual_ptr false with
          | none => none
          | some true => some true
          | some false =>
            stringEqualsLoopChecked shadow_string actual_string fuel shadow_ptr
              (actual_ptr + 1) false
        else
          match actual_string.get? actual_ptr with
          | none => none
          | some d =>
            if c == d || (c == '?' && !false) then
              stringEqualsLoopChecked shadow_string actual_string fuel (shadow_ptr + 1)
                (actual_ptr + 1) false
            else some false

/-! ## Attaching a frame -/

/-- The loop of `DOMGuard::FrameAttachedToParent` over the ids of `CSSPropertyIDList()` still
to be visited; `is_monitored` is the test of the property (web-exposed, no shorthand, a
property, not layout-dependent, not internal, no surrogate). -/
def FrameAttachedToParentLoop (is_monitored : Nat → Bool) : List Nat → StyleState → StyleState
  | [], state => state
  | property_id :: rest, state =>
    if is_monitored property_id then
      FrameAttachedToParentLoop is_monitored rest
        { state with
          css_property_ids_ := state.css_property_ids_ ++ [property_id]
          is_css_property_modified_ := state.is_css_property_modified_ ++ [false]
          css_property_values_ := state.css_property_values_ ++ [none] }
    else FrameAttachedToParentLoop is_monitored rest state

/-- Model of `DOMGuard::FrameAttachedToParent(frame)` on the members of the guard:
`css_property_id_list` is `CSSPropertyIDList()`.  The call also empties the constraint
HTML of the frame and sets its mode to `r`. -/
def FrameAttachedToParent (css_property_id_list : List Nat) (is_monitored : Nat → Bool)
    (state : StyleState) : StyleState :=
  FrameAttachedToParentLoop is_monitored css_property_id_list
    { state with
      modified_property_count_ := 0
      css_property_ids_ := []
      is_css_property_modified_ := [] }

/-! ## Character classes of the scanner -/

/-- Flag `kIsIdentifierStart` of `OneByteCharFlags`. -/
def kIsIdentifierStart : Nat := 1

/-- Flag `kIsIdentifierPart` of `OneByteCharFlags`. -/
def kIsIdentifierPart : Nat := 2

/-- Flag `kIsWhiteSpace` of `OneByteCharFlags`. -/
def kIsWhiteSpace : Nat := 4

/-- Flag `kIsWhiteSpaceOrLineTerminator` of `OneByteCharFlags`. -/
def kIsWhiteSpaceOrLineTerminator : Nat := 8

/-- Flag `kMaybeLineEnd` of `OneByteCharFlags`. -/
def kMaybeLineEnd : Nat := 16

/-- Model of `IsOneByteIDStart`. -/
def IsOneByteIDStart (c : Nat) : Bool :=
  c == 0x0024 || (c ≥ 0x0041 && c ≤ 0x005A) || c == 0x005F || (c ≥ 0x0061 && c ≤ 0x007A)
    || c == 0x00AA || c == 0x00B5 || c == 0x00BA || (c ≥ 0x00C0 && c ≤ 0x00D6)
    || (c ≥ 0x00D8 && c ≤ 0x00F6) || (c ≥ 0x00F8 && c ≤ 0x00FF)

/-- Model of `IsOneByteIDContinue`. -/
def IsOneByteIDContinue (c : Nat) : Bool :=
  c == 0x0024 || (c ≥ 0x0030 && c ≤ 0x0039) || c == 0x005F || (c ≥ 0x0041 && c ≤ 0x005A)
    || (c ≥ 0x0061 && c ≤ 0x007A) || c == 0x00AA || c == 0x00B5 || c == 0x00B7
    || c == 0x00BA || (c ≥ 0x00C0 && c ≤ 0x00D6) || (c ≥ 0x00D8 && c ≤ 0x00F6)
    || (c ≥ 0x00F8 && c ≤ 0x00FF)

/-- Model of `IsOneByteWhitespace`: tab, vertical tab, form feed, space, no-break space. -/
def IsOneByteWhitespace (c : Nat) : Bool :=
  c == 9 || c == 11 || c == 12 || c == 32 || c == 0xa0

/-- Model of `BuildOneByteCharFlags`; the backslash is 92, `\r` is 13, `\n` is 10 and the
low bytes of 0x2028 and 0x2029 are 0x28 and 0x29. -/
def BuildOneByteCharFlags (c : Nat) : Nat :=
  (if IsOneByteIDStart c || c == 92 then kIsIdentifierStart else 0)
    ||| (if IsOneByteIDContinue c || c == 92 then kIsIdentifierPart else 0)
    ||| (if IsOneByteWhitespace c then kIsWhiteSpace ||| kIsWhiteSpaceOrLineTerminator else 0)
    ||| (if c == 13 || c == 10 then kIsWhiteSpaceOrLineTerminator ||| kMaybeLineEnd else 0)
    ||| (if c == 0x28 || c == 0x29 then kMaybeLineEnd else 0)

/-- The table `kOneByteCharFlags[256]`. -/
def kOneByteCharFlags : List Nat := (List.range 256).map BuildOneByteCharFlags

/-- Modelled from the spec: the range test `IsInRange(c, lower, higher)` of `bounds.h`, which
is not among the sources; it holds when `lower <= c <= higher`. -/
def IsInRange (c lower higher : Nat) : Bool := decide (lower ≤ c) && decide (c ≤ higher)

/-- A read `kOneByteCharFlags[c] & flag`: `none` when `c` is not an index of the table. -/
def readOneByteCharFlag (c flag : Nat) : Option Bool :=
  (kOneByteCharFlags.get? c).map fun flags => decide (flags &&& flag ≠ 0)

/-- Model of `IsIdentifierStart(c)` for a code point `c`; `IsIdentifierStartSlow` is the
Unicode predicate of the engine, and `none` is a read outside the table. -/
def IsIdentifierStart (IsIdentifierStartSlow : Nat → Bool) (c : Nat) : Option Bool :=
  if !IsInRange c 0 255 then some (IsIdentifierStartSlow c)
  else readOneByteCharFlag c kIsIdentifierStart

/-- Model of `IsIdentifierPart(c)`. -/
def IsIdentifierPart (IsIdentifierPartSlow : Nat → Bool) (c : Nat) : Option Bool :=
  if !IsInRange c 0 255 then some (IsIdentifierPartSlow c)
  else readOneByteCharFlag c kIsIdentifierPart

/-- Model of `IsWhiteSpace(c)`: the slow predicate is called when `c` IS in the range
0..255, and the table is read otherwise. -/
def IsWhiteSpace (IsWhiteSpaceSlow : Nat → Bool) (c : Nat) : Option Bool :=
  if IsInRange c 0 255 then some (IsWhiteSpaceSlow c)
  else readOneByteCharFlag c kIsWhiteSpace

/-- Model of `IsWhiteSpaceOrLineTerminator(c)`. -/
def IsWhiteSpaceOrLineTerminator (IsWhiteSpaceOrLineTerminatorSlow : Nat → Bool) (c : Nat) :
    Option Bool :=
  if !IsInRange c 0 255 then some (IsWhiteSpaceOrLineTerminatorSlow c)
  else readOneByteCharFlag c kIsWhiteSpaceOrLineTerminator

/-! ## The pattern language as the specification words it -/

/-- The alternatives of a stored pattern: the pieces between unescaped `|`, each with its
escaping backslashes removed; `current` is the piece being read. -/
def splitAlternativesFrom : List Char → List Char → List (List Char)
  | [], current => [current]
  | c :: rest, current =>
    if c = '\\' then
      match rest with
      | [] => [current]
      | d :: rest2 => splitAlternativesFrom rest2 (current ++ [d])
    else if c = '|' then current :: splitAlternativesFrom rest []
    else splitAlternativesFrom rest (current ++ [c])

/-- The alternatives of a stored pattern. -/
def splitAlternatives (pattern : List Char) : List (List Char) :=
  splitAlternativesFrom pattern []

/-- The verdict `attributeEquals` computes from the state its loop leaves. -/
def attributeEqualsVerdict (h : Host) (dom_constraint_mode : List Char) (element : ElementData)
    (attribute_name : List Char) (attribute_value : AtomicString) (st : SplitState) : Bool :=
  if attribute_name == "dtt-id".toList || attribute_name == "id".toList then
    st.found_in_shadow_attribute_value
      || idEquals (some st.unescaped_current_part) attribute_value dom_constraint_mode
  else if isScriptAttribute element attribute_name then
    st.found_in_shadow_attribute_value
      || scriptEquals h st.unescaped_current_part attribute_value.getString
  else if isURLAttribute h element attribute_name then
    urlEqualsList h (st.url_constraints ++ [h.mkKURL (some st.unescaped_current_part)])
      (h.mkKURL attribute_value)
  else
    st.found_in_shadow_attribute_value
      || stringEquals st.unescaped_current_part 0 attribute_value.getString 0

/-- The verdict the attribute class prescribes for a list of alternatives, with the URLs
already collected in front. -/
def classVerdict (h : Host) (dom_constraint_mode : List Char) (element : ElementData)
    (attribute_name : List Char) (attribute_value : AtomicString) (urls : List KURL)
    (alternatives : List (List Char)) : Bool :=
  if attribute_name == "dtt-id".toList || attribute_name == "id".toList then
    alternatives.any fun a => idEquals (some a) attribute_value dom_constraint_mode
  else if isScriptAttribute element attribute_name then
    alternatives.any fun a => scriptEquals h a attribute_value.getString
  else if isURLAttribute h element attribute_name then
    urlEqualsList h (urls ++ alternatives.map fun a => h.mkKURL (some a))
      (h.mkKURL attribute_value)
  else
    alternatives.any fun a => stringEquals a 0 attribute_value.getString 0

/-- Units of the string pattern language. -/
inductive PatternUnit where
  | star
  | anyChar
  | literal (c : Char)
deriving DecidableEq, Repr

/-- The units of a pattern, in order: an unescaped `*`, an unescaped `?`, `\c` as the
character `c`, any other character as itself.  A trailing unpaired backslash has no unit. -/
def patternUnits : List Char → List PatternUnit
  | [] => []
  | c :: rest =>
    if c = '\\' then
      match rest with
      | [] => []
      | d :: rest2 => .literal d :: patternUnits rest2
    else if c = '*' then .star :: patternUnits rest
    else if c = '?' then .anyChar :: patternUnits rest
    else .literal c :: patternUnits rest

/-- Whether a pattern ends in a backslash that escapes nothing. -/
def endsWithUnpairedBackslash : List Char → Bool
  | [] => false
  | c :: rest =>
    if c = '\\' then
      match rest with
      | [] => true
      | _ :: rest2 => endsWithUnpairedBackslash rest2
    else endsWithUnpairedBackslash rest

/-- Whether the subject is a concatenation of pieces matching the units in order: a star
takes any run of characters (also none), `?` one character, a literal that character. -/
def unitsMatch : List PatternUnit → List Char → Bool
  | [], subject => subject.isEmpty
  | .star :: units, subject =>
    (List.range (subject.length + 1)).any fun k => unitsMatch units (subject.drop k)
  | .anyChar :: units, subject =>
    match subject with
    | [] => false
    | _ :: tail => unitsMatch units tail
  | .literal c :: units, subject =>
    match subject with
    | [] => false
    | a :: tail => a == c && unitsMatch units tail

/-- The top-level alternatives of a pattern with their escapes kept: the pieces between
unescaped `|`; `current` is the piece being read. -/
def splitUnescapedBarFrom : List Char → List Char → List (List Char)
  | [], current => [current]
  | c :: rest, current =>
    if c = '\\' then
      match rest with
      | [] => [current ++ [c]]
      | d :: rest2 => splitUnescapedBarFrom rest2 (current ++ [c, d])
    else if c = '|' then current :: splitUnescapedBarFrom rest []
    else splitUnescapedBarFrom rest (current ++ [c])

/-- The last top-level alternative of a pattern: the text after its last unescaped `|`. -/
def lastAlternative (pattern : List Char) : List Char :=
  (splitUnescapedBarFrom pattern []).getLastD []

/-! ## Token streams and the scanner -/

/-- The token-kind stream of a source: the result of the `k`-th call of `Next()`, which is
`EOS` from the end of the source on. -/
def tokenAt (tokens : List Token) (k : Nat) : Token := tokens.getD k Token.EOS

/-- The terminal markers `EOS` and `ILLEGAL`. -/
def Token.isTerminal (t : Token) : Bool := t == Token.EOS || t == Token.ILLEGAL

/-- Modelled from the spec: token kind of an identifier that is no keyword (`token.h` is
not among the sources). -/
def Token.IDENTIFIER : Token := .other 0

/-- Modelled from the spec: token kind of a small integer literal (`token.h` is not among
the sources). -/
def Token.SMI : Token := .other 1

/-- Modelled from the spec: token kind of any other number literal (`token.h` is not among
the sources). -/
def Token.NUMBER : Token := .other 2

/-- Modelled from the spec: token kind of a string literal (`token.h` is not among the
sources). -/
def Token.STRING : Token := .other 3

/-- Modelled from the spec: token kind of the keyword at an index of `specKeywords`
(`token.h` is not among the sources). -/
def Token.keyword (index : Nat) : Token := .other (100 + index)

/-- Modelled from the spec: token kind of a punctuator character (`token.h` is not among
the sources). -/
def Token.punctuator (c : Char) : Token := .other (1000 + c.toNat)

/-- Modelled from the spec: the reserved words, each a token kind of its own (the keyword
table of `scanner-inl.h` is not among the sources). -/
def specKeywords : List (List Char) :=
  ["async", "await", "break", "case", "catch", "class", "const", "continue", "debugger",
   "default", "delete", "do", "else", "enum", "export", "extends", "false", "finally", "for",
   "function", "if", "import", "in", "instanceof", "let", "new", "null", "return", "static",
   "super", "switch", "this", "throw", "true", "try", "typeof", "var", "void", "while", "with",
   "yield"].map String.toList

/-- One-byte identifier start of `utils.h`, ASCII part: a letter, `$` or `_`. -/
def isIdentifierStartChar (c : Char) : Bool := c.isAlpha || c == '$' || c == '_'

/-- One-byte identifier part of `utils.h`, ASCII part: a letter, a digit, `$` or `_`. -/
def isIdentifierPartChar (c : Char) : Bool := c.isAlphanum || c == '$' || c == '_'

/-- White space or line terminator of `utils.h`, ASCII part. -/
def isWhiteSpaceOrLineTerminatorChar (c : Char) : Bool :=
  c == ' ' || c == '\t' || c == '\n' || c == '\r' || c == Char.ofNat 11 || c == Char.ofNat 12

/-- Modelled from the spec: the punctuator characters (the token dispatch of
`scanner-inl.h` is not among the sources). -/
def specPunctuators : List Char :=
  ['(', ')', '[', ']', '{', '}', '.', ',', ';', ':', '?', '!', '~', '+', '-', '*', '/', '%',
   '<', '>', '=', '&', '|', '^']

/-- Modelled from the spec: token kind of a word, the keyword kind if it is a reserved
word, else `IDENTIFIER` (`KeywordOrIdentifierToken` is not among the sources). -/
def specWordKind (word : List Char) : Token :=
  match specKeywords.indexOf? word with
  | some index => Token.keyword index
  | none => Token.IDENTIFIER

/-- Token kind of a run of decimal digits, as `Scanner::ScanNumber` tells small integers
from other numbers: at most ten digits and a value of at most 2147483647. -/
def specNumberKind (digits : List Char) : Token :=
  if digits.length ≤ 10
      ∧ digits.foldl (fun value d => 10 * value + (d.toNat - '0'.toNat)) 0 ≤ 2147483647 then
    Token.SMI
  else Token.NUMBER

/-- Modelled from the spec: the token dispatch of the scanner (`scanner-inl.h` and
`token.h`) is not among the sources.  This is the minimal lexical scanner of the
specification: it yields the ordered token kinds of a source and drops every payload.
White space separates tokens; a word is an identifier or a keyword; a run of decimal
digits is a number; a quoted run is a string; each punctuator character is a kind of its
own; any other character, and an unterminated string, ends the stream with `ILLEGAL`.
Every step consumes a character, so the fuel of `specTokens` is never used up. -/
def specScanLoop : Nat → List Char → List Token
  | 0, _ => []
  | _ + 1, [] => []
  | fuel + 1, c :: rest =>
    if isWhiteSpaceOrLineTerminatorChar c then specScanLoop fuel rest
    else if isIdentifierStartChar c then
      specWordKind (c :: rest.takeWhile isIdentifierPartChar)
        :: specScanLoop fuel (rest.dropWhile isIdentifierPartChar)
    else if c.isDigit then
      specNumberKind (c :: rest.takeWhile Char.isDigit)
        :: specScanLoop fuel (rest.dropWhile Char.isDigit)
    else if c == '"' || c == '\'' then
      match rest.dropWhile fun d => d != c with
      | [] => [Token.ILLEGAL]
      | _ :: after => Token.STRING :: specScanLoop fuel after
    else if specPunctuators.contains c then Token.punctuator c :: specScanLoop fuel rest
    else [Token.ILLEGAL]

/-- Modelled from the spec: the token kinds that successive `Next()` calls return for a
source before its end (the scanner's token dispatch is not among the sources). -/
def specTokens (source : List Char) : List Token := specScanLoop (source.length + 1) source

/-! ## The list form of urlEquals and the locate walk as the specification words them -/

/-- The element ancestors of a chain, document fragments skipped. -/
def elementAncestors : List Ancestor → List ElementData
  | [] => []
  | .element data :: rest => data :: elementAncestors rest
  | .documentFragment _ :: rest => elementAncestors rest

/-- The walk of the specification over the element ancestors, topmost first: at each
level the first shadow child element equal to the ancestor is taken; no such child gives
`NotFound`, a whitelisted shadow matched against an ancestor that is not the deepest one
gives `WhitelistMatch`, and the shadow matched against the deepest ancestor gives `Found`. -/
def locateSpecWalk (h : Host) (frame_mode : Option (List Char)) :
    List ElementData → Node → ShadowTreeMatchResult × Option Node
  | [], shadow => (.Found, some shadow)
  | ancestor :: deeper, shadow =>
    match findShadowSibling h frame_mode ancestor shadow.children 0 with
    | none => (.NotFound, none)
    | some (_, found_element, found_children) =>
      if found_element.getAttribute "dtt-whitelist".toList ≠ none ∧ deeper ≠ [] then
        (.WhitelistMatch, some (.element found_element found_children))
      else locateSpecWalk h frame_mode deeper (.element found_element found_children)

/-- The classification of the specification for `locateNodeInShadowTree`. -/
def locateSpec (h : Host) (frame_mode : Option (List Char)) (dom_constraint : Node)
    (node : NodePosition) : ShadowTreeMatchResult × Option Node :=
  if !node.root.isDocument then (.RootIsNotDocument, none)
  else locateSpecWalk h frame_mode (elementAncestors node.chain.reverse) dom_constraint

/-! ## Descendants, and the pattern of a property as a list of alternatives -/

mutual
/-- The nodes strictly below a node (its descendants), in document order. -/
def Node.descendants : Node → List Node
  | .element _ children => Node.descendantsOfChildren children
  | .documentFragment children => Node.descendantsOfChildren children
  | .document children => Node.descendantsOfChildren children
  | .text _ => []
/-- The nodes of a list of children together with their descendants. -/
def Node.descendantsOfChildren : List Node → List Node
  | [] => []
  | child :: rest => child :: (child.descendants ++ Node.descendantsOfChildren rest)
end

mutual
/-- The elements of a live subtree about to be inserted: the node itself when it is an
element, and the elements below it; a document fragment stands for its children. -/
def Node.subtreeElements : Node → List ElementData
  | .element data children => data :: Node.subtreeElementsOfChildren children
  | .documentFragment children => Node.subtreeElementsOfChildren children
  | .document _ => []
  | .text _ => []
/-- The elements of the subtrees of a list of children. -/
def Node.subtreeElementsOfChildren : List Node → List ElementData
  | [] => []
  | child :: rest => child.subtreeElements ++ Node.subtreeElementsOfChildren rest
end

mutual
/-- Whether a node can stand below an element of a DOM tree: it is a text node, or an
element all of whose descendants can.  Documents and document fragments are never
children. -/
def Node.isTreeNode : Node → Bool
  | .element _ children => Node.areTreeNodes children
  | .text _ => true
  | .documentFragment _ => false
  | .document _ => false
/-- Whether all nodes of a list can stand below an element of a DOM tree. -/
def Node.areTreeNodes : List Node → Bool
  | [] => true
  | child :: rest => child.isTreeNode && Node.areTreeNodes rest
end

/-- The state in which the comparison of a new value with a list of alternatives ends:
each alternative is compared by `cssValueEqualsText` in the state the one before it
left, and the state -1 ends the comparison. -/
def alternativesState (h : Host) (property : Nat) (new_value : Option CSSValue) :
    List (List Char) → Int → Int
  | [], match_state => match_state
  | alternative :: rest, match_state =>
    let state := cssValueEqualsText h property alternative new_value match_state
    if state = -1 then -1 else alternativesState h property new_value rest state

/-! ## Hosts that classify two elements alike, whitelisted shadows, set flags -/

/-- The element predicates of the host give the same answers for two elements.  In the
engine the predicates depend on the class of the element and on the attribute asked
about, not on the other attributes the element carries. -/
def Host.classifiesAlike (h : Host) (a b : ElementData) : Prop :=
  ∀ attribute_name : List Char,
    h.isURLAttribute a attribute_name = h.isURLAttribute b attribute_name
      ∧ h.expectsTrustedType a attribute_name = h.expectsTrustedType b attribute_name
      ∧ h.isHTMLContentAttribute a attribute_name = h.isHTMLContentAttribute b attribute_name
      ∧ h.isSVGAnimationAttributeSettingJavaScriptURL a attribute_name
          = h.isSVGAnimationAttributeSettingJavaScriptURL b attribute_name

mutual
/-- The whitelisted shadows of a shadow tree: the path from the node to every element
below it (or the node itself) that carries `dtt-whitelist`, with the value of the
attribute, in document order. -/
def Node.whitelisted : Node → List (List Nat × List Char)
  | .element data children =>
    (match data.getAttribute "dtt-whitelist".toList with
      | some value => [([], value)]
      | none => [])
      ++ Node.whitelistedOfChildren children 0
  | .documentFragment children => Node.whitelistedOfChildren children 0
  | .document children => Node.whitelistedOfChildren children 0
  | .text _ => []
/-- The whitelisted shadows below a list of children, the first of which stands at the
given position. -/
def Node.whitelistedOfChildren : List Node → Nat → List (List Nat × List Char)
  | [], _ => []
  | child :: rest, position =>
    (child.whitelisted.map fun entry => (position :: entry.1, entry.2))
      ++ Node.whitelistedOfChildren rest (position + 1)
end

/-- The number of true entries of a flag vector. -/
def countSetFlags (flags : List Bool) : Int := (flags.count true : Nat)

/-! ## Concrete inputs -/

/-- A host in which no attribute is a URL, trusted-type, content or SVG attribute; every
attribute other than `id`, `dtt-id` and the `on...` handlers is then of the plain class. -/
def plainHost : Host :=
  { kurl := fun _ => KURL.null
    decodeURLEscapeSequences := fun s => s
    tokens := fun _ => []
    isURLAttribute := fun _ _ => false
    expectsTrustedType := fun _ _ => false
    isHTMLContentAttribute := fun _ _ => false
    isSVGAnimationAttributeSettingJavaScriptURL := fun _ _ => false
    cssText := fun _ => "red".toList
    parseSingleValue := fun _ _ => none }

/-- A `DIV` element without attributes. -/
def plainDiv : ElementData := { tagName := "DIV".toList, attributes := [] }

/-- The live element `<div id="a|b">`. -/
def divWithBarId : Node :=
  .element { tagName := "DIV".toList, attributes := [⟨"id".toList, "a|b".toList⟩] } []

/-- An empty `BODY` shadow element. -/
def emptyBodyShadow : Node := .element { tagName := "BODY".toList, attributes := [] } []

/-- The live element `<div id="item-42">`. -/
def liveItem42 : Node :=
  .element { tagName := "DIV".toList, attributes := [⟨"id".toList, "item-42".toList⟩] } []

/-- A `BODY` shadow whose only child is `<DIV dtt-id="item-*">`. -/
def shadowBodyDttIdOnly : Node :=
  .element { tagName := "BODY".toList, attributes := [] }
    [.element { tagName := "DIV".toList, attributes := [⟨"dtt-id".toList, "item-*".toList⟩] } []]

/-- The shadow element `<DIV dtt-id="item-*" id="item-*">`. -/
def shadowDivItemStar : ElementData :=
  { tagName := "DIV".toList,
    attributes := [⟨"dtt-id".toList, "item-*".toList⟩, ⟨"id".toList, "item-*".toList⟩] }

/-- A `BODY` shadow whose only child is `<DIV dtt-id="item-*" id="item-*">`. -/
def shadowBodyDttIdAndId : Node :=
  .element { tagName := "BODY".toList, attributes := [] } [.element shadowDivItemStar []]

/-- The plain host with the scanner modelled from the specification; event-handler
attributes expect a trusted type and are therefore monitored. -/
def scriptHost : Host :=
  { plainHost with
    tokens := specTokens
    expectsTrustedType := fun _ name => "on".toList.isPrefixOf name }

/-- An `A` element without attributes. -/
def plainAnchor : ElementData := { tagName := "A".toList, attributes := [] }

/-- The URL `https://cdn.test/a.png` as `KURL` parses it. -/
def cdnUrlA : KURL :=
  { isValid := true, protocol := "https".toList, host := "cdn.test".toList, port := 0,
    protocolIsJavaScript := false, string := "https://cdn.test/a.png".toList,
    contentBegin := 6, contentLen := 16 }

/-- The shadow document `<HTML><BODY><DIV dtt-whitelist=""></DIV></BODY></HTML>`. -/
def shadowDocWhitelistDiv : Node :=
  .document
    [.element { tagName := "HTML".toList, attributes := [] }
      [.element { tagName := "BODY".toList, attributes := [] }
        [.element { tagName := "DIV".toList,
                    attributes := [⟨"dtt-whitelist".toList, []⟩] } []]]]

/-- The position of a `<div>` under `<body>` under `<html>` under the document. -/
def divUnderBody : NodePosition :=
  { chain := [.element plainDiv,
              .element { tagName := "BODY".toList, attributes := [] },
              .element { tagName := "HTML".toList, attributes := [] }],
    root := .ownDocument }

/-- The position of the author shadow root of that `<div>`: the shadow root is a document
fragment whose shadow host is the `<div>`. -/
def shadowRootOfDiv : NodePosition :=
  { chain := .documentFragment false :: divUnderBody.chain, root := .ownDocument }

/-- A shadow document `<HTML><BODY><DIV dtt-id="a" id="a"></DIV></BODY></HTML>`. -/
def shadowDocBodyDiv : Node :=
  .document
    [.element { tagName := "HTML".toList, attributes := [] }
      [.element { tagName := "BODY".toList, attributes := [] }
        [.element { tagName := "DIV".toList,
                    attributes := [⟨"dtt-id".toList, ['a']⟩, ⟨"id".toList, ['a']⟩] } []]]]

/-- The position of `<body>` under `<html>` under the document. -/
def bodyPosition : NodePosition :=
  { chain := [.element { tagName := "BODY".toList, attributes := [] },
              .element { tagName := "HTML".toList, attributes := [] }],
    root := .ownDocument }

/-- A frame in enforce mode with the shadow document `shadowDocBodyDiv`. -/
def enforceFrame : FrameState :=
  { has_dom_window := true, is_parsing := false, dom_constraint_mode := ['e'],
    dom_constraint := shadowDocBodyDiv, log_info_is_on := true }

/-- The live element `<div id="a">`. -/
def liveDivA : ElementData := { tagName := "DIV".toList, attributes := [⟨"id".toList, ['a']⟩] }

/-- The ancestors `<body>`, `<html>` of a child of the body. -/
def bodyParents : List Ancestor :=
  [.element { tagName := "BODY".toList, attributes := [] },
   .element { tagName := "HTML".toList, attributes := [] }]

/-- The position of the document itself. -/
def documentPosition : NodePosition := { chain := [], root := .ownDocument }

/-- A frame in record mode whose shadow document is still empty. -/
def recordFrame : FrameState :=
  { has_dom_window := true, is_parsing := false, dom_constraint_mode := ['r'],
    dom_constraint := .document [], log_info_is_on := false }

/-- The frame `enforceFrame` while its document is being parsed. -/
def parsingEnforceFrame : FrameState :=
  { has_dom_window := true, is_parsing := true, dom_constraint_mode := ['e'],
    dom_constraint := shadowDocBodyDiv, log_info_is_on := false }

/-- A frame in enforce mode whose shadow document has the childless whitelisted `DIV` of
`shadowDocWhitelistDiv` under the body. -/
def whitelistFrame : FrameState :=
  { has_dom_window := true, is_parsing := false, dom_constraint_mode := ['e'],
    dom_constraint := shadowDocWhitelistDiv, log_info_is_on := false }

/-- Style facilities in which every style computes no value for any property and the
shadow elements have no computed style; the fast path cannot tell (-1). -/
def plainStyleHost : StyleHost :=
  { propertiesEqualForDOMGuard := fun _ _ _ => -1
    computedPropertyValue := fun _ _ => none
    getPropertyNameString := fun _ => "color".toList
    shadowComputedStyle := fun _ => none }

/-- The members of a guard that monitors the single property 0, after
`FrameAttachedToParent`. -/
def oneProperty : StyleState :=
  { css_property_ids_ := [0], css_property_values_ := [none],
    is_css_property_modified_ := [false], modified_property_count_ := 0 }

/-- A `SPAN` element without attributes. -/
def plainSpan : ElementData := { tagName := "SPAN".toList, attributes := [] }

/-- A shadow `BODY` whose only child is a `DIV` without attributes. -/
def shadowBodyPlainDiv : Node :=
  .element { tagName := "BODY".toList, attributes := [] }
    [.element { tagName := "DIV".toList, attributes := [] } []]

/-- The ancestors `<div>`, `<body>`, `<html>` of a child of the `<div>` under the body. -/
def divParents : List Ancestor := divUnderBody.chain

/-- A host that writes the numeric literals 1, 5 and 9 as `1`, `5`, `9` and every other
value as `3`, and parses these texts back to the literals. -/
def numericHost : Host :=
  { plainHost with
    cssText := fun v =>
      match v with
      | .numericLiteral d => if d = 1 then ['1'] else if d = 5 then ['5'] else if d = 9 then ['9'] else ['3']
      | _ => ['x']
    parseSingleValue := fun _ text =>
      if text = ['1'] then some (.numericLiteral 1)
      else if text = ['5'] then some (.numericLiteral 5)
      else if text = ['9'] then some (.numericLiteral 9)
      else none }

/-- The members of a guard before the first frame is attached. -/
def freshStyleState : StyleState :=
  { css_property_ids_ := [], css_property_values_ := [], is_css_property_modified_ := [],
    modified_property_count_ := 0 }

/-- The shadow document `<HTML dtt-dangling><BODY><DIV dtt-dangling></DIV></BODY></HTML>`. -/
def shadowDocDanglingDiv : Node :=
  .document
    [.element { tagName := "HTML".toList, attributes := [⟨"dtt-dangling".toList, []⟩] }
      [.element { tagName := "BODY".toList, attributes := [] }
        [.element { tagName := "DIV".toList,
                    attributes := [⟨"dtt-dangling".toList, []⟩] } []]]]

/-- The live element `<div dtt-whitelist="">`. -/
def liveDivWhitelistAttribute : ElementData :=
  { tagName := "DIV".toList, attributes := [⟨"dtt-whitelist".toList, []⟩] }

/-- The live element `<div id="a" onclick="f(1)">`. -/
def liveDivOnclick : ElementData :=
  { tagName := "DIV".toList,
    attributes := [⟨"id".toList, ['a']⟩, ⟨"onclick".toList, "f(1)".toList⟩] }

/-- The shadow element `<DIV dtt-id="a" id="a" onclick="f(1)">`. -/
def shadowDivOnclick : ElementData :=
  { tagName := "DIV".toList,
    attributes := [⟨"dtt-id".toList, ['a']⟩, ⟨"id".toList, ['a']⟩,
                   ⟨"onclick".toList, "f(1)".toList⟩] }

/-- The shadow document `<HTML><BODY><DIV dtt-id="a" id="a" onclick="f(1)"></DIV></BODY></HTML>`. -/
def shadowDocOnclickDiv : Node :=
  .document
    [.element { tagName := "HTML".toList, attributes := [] }
      [.element { tagName := "BODY".toList, attributes := [] }
        [.element shadowDivOnclick []]]]

/-- A frame in enforce mode with the shadow document `shadowDocOnclickDiv`. -/
def enforceOnclickFrame : FrameState :=
  { has_dom_window := true, is_parsing := false, dom_constraint_mode := ['e'],
    dom_constraint := shadowDocOnclickDiv, log_info_is_on := false }

/-- A frame in record mode with the shadow document `shadowDocOnclickDiv`. -/
def recordOnclickFrame : FrameState :=
  { has_dom_window := true, is_parsing := false, dom_constraint_mode := ['r'],
    dom_constraint := shadowDocOnclickDiv, log_info_is_on := false }

/-- The shadow element `<SPAN onclick="f(1)">`. -/
def shadowSpanOnclick : ElementData :=
  { tagName := "SPAN".toList, attributes := [⟨"onclick".toList, "f(1)".toList⟩] }

/-- The whitelisted shadow `<DIV dtt-whitelist=""><SPAN onclick="f(1)"></SPAN><SPAN></SPAN></DIV>`:
its first child stores a pattern for `onclick`, its second child stores none. -/
def whitelistDivTwoSpans : Node :=
  .element { tagName := "DIV".toList, attributes := [⟨"dtt-whitelist".toList, []⟩] }
    [.element shadowSpanOnclick [], .element plainSpan []]

/-- A frame in enforce mode whose shadow document has `whitelistDivTwoSpans` under the
body. -/
def whitelistOnclickFrame : FrameState :=
  { has_dom_window := true, is_parsing := false, dom_constraint_mode := ['e'],
    dom_constraint :=
      .document
        [.element { tagName := "HTML".toList, attributes := [] }
          [.element { tagName := "BODY".toList, attributes := [] } [whitelistDivTwoSpans]]],
    log_info_is_on := false }

/-- The live element `<span onclick="f(1)">`. -/
def liveSpanOnclick : ElementData :=
  { tagName := "SPAN".toList, attributes := [⟨"onclick".toList, "f(1)".toList⟩] }

/-! ## Properties of stringEquals -/

/-- Inside the string `charAt` is the indexed character. -/
theorem charAt_eq_getElem (s : List Char) (i : Nat) (hi : i < s.length) : charAt s i = s[i] := by
  simp [charAt, List.getD_eq_getElem?_getD, List.getElem?_eq_getElem hi]

/-- More fuel than the characters left in both strings never changes the result of the
loop: the fuel given by `stringEquals` is never used up. -/
theorem stringEqualsLoop_fuel (P S : List Char) :
    ∀ (f1 f2 sp ap : Nat) (esc : Bool), sp ≤ P.length → ap ≤ S.length →
      (P.length - sp) + (S.length - ap) < f1 → (P.length - sp) + (S.length - ap) < f2 →
      stringEqualsLoop P S f1 sp ap esc = stringEqualsLoop P S f2 sp ap esc := by
  intro f1
  induction f1 with
  | zero => intro f2 sp ap esc _ _ h1; omega
  | succ n ih =>
    intro f2 sp ap esc hsp hap h1 h2
    cases f2 with
    | zero => omega
    | succ m =>
      unfold stringEqualsLoop
      by_cases e1 : sp = P.length
      · simp [e1]
      · by_cases e2 : ap = S.length
        · simp [e1, e2]
        · have hs : sp < P.length := by omega
          have ha : ap < S.length := by omega
          have r1 := ih m (sp + 1) (ap + 1) false (by omega) (by omega) (by omega) (by omega)
          have r2 := ih m (sp + 1) ap true (by omega) (by omega) (by omega) (by omega)
          have r3 := ih m (sp + 1) ap false (by omega) (by omega) (by omega) (by omega)
          have r4 := ih m sp (ap + 1) false (by omega) (by omega) (by omega) (by omega)
          simp only [e1, e2, if_false, r1, r2, r3, r4]

/-- Reflexivity of the loop on a string without backslash, also one character into a star. -/
theorem stringEqualsLoop_self (s : List Char) (hs : '\\' ∉ s) :
    ∀ (n i fuel : Nat), s.length - i ≤ n → i ≤ s.length → 2 * (s.length - i) < fuel →
      stringEqualsLoop s s fuel i i false = true := by
  intro n
  induction n with
  | zero =>
    intro i fuel hn hi hf
    have : i = s.length := by omega
    cases fuel with
    | zero => omega
    | succ f => unfold stringEqualsLoop; simp [this]
  | succ n ih =>
    intro i fuel hn hi hf
    cases fuel with
    | zero => omega
    | succ f =>
      by_cases e1 : i = s.length
      · unfold stringEqualsLoop; simp [e1]
      · have hlt : i < s.length := by omega
        have hc : charAt s i ≠ '\\' := by
          intro hc
          apply hs
          rw [charAt_eq_getElem s i hlt] at hc
          exact hc ▸ List.getElem_mem hlt
        have hc' : (charAt s i == '\\') = false := by simpa using hc
        unfold stringEqualsLoop
        simp only [e1, if_false, hc', Bool.false_eq_true]
        by_cases hstar : (charAt s i == '*') = true
        · simp only [hstar, if_true, Bool.or_eq_true]
          right
          cases f with
          | zero => omega
          | succ g =>
            unfold stringEqualsLoop
            by_cases e3 : i + 1 = s.length
            · simp [e1, e3, hstar]; omega
            · simp only [e1, e3, if_false, hc', Bool.false_eq_true, hstar, if_true,
                Bool.or_eq_true]
              left
              exact ih (i + 1) g (by omega) (by omega) (by omega)
        · simp only [hstar, Bool.false_eq_true, if_false, beq_self_eq_true, Bool.true_or, if_true]
          exact ih (i + 1) f (by omega) (by omega) (by omega)

/-! ## attributeEquals as a dispatch over alternatives -/

/-- The loop of `attributeEquals` followed by its final verdict decides the class verdict
over the alternatives still to be split off. -/
theorem attributeEqualsLoop_verdict (h : Host) (mode : List Char) (element : ElementData)
    (n : List Char) (v : AtomicString) :
    ∀ (k : Nat) (rest b : List Char) (urls : List KURL), rest.length ≤ k →
      attributeEqualsVerdict h mode element n v
          (attributeEqualsLoop h mode element n v rest false b urls)
        = classVerdict h mode element n v urls (splitAlternativesFrom rest b) := by
  have base : ∀ (b : List Char) (urls : List KURL) (e : Bool),
      attributeEqualsVerdict h mode element n v
          (attributeEqualsLoop h mode element n v [] e b urls)
        = classVerdict h mode element n v urls [b] := by
    intro b urls e
    simp only [attributeEqualsLoop, attributeEqualsVerdict, classVerdict, List.any_cons,
      List.any_nil, Bool.or_false, Bool.false_or, List.map_cons, List.map_nil]
  intro k
  induction k with
  | zero =>
    intro rest b urls hk
    have : rest = [] := List.length_eq_zero.mp (by omega)
    subst this
    simpa only [splitAlternativesFrom] using base b urls false
  | succ k ih =>
    intro rest b urls hk
    match rest, hk with
    | [], _ => simpa only [splitAlternativesFrom] using base b urls false
    | c :: rest, hk =>
      have hk1 : rest.length ≤ k := by simpa using hk
      by_cases hb : c = '\\'
      · subst hb
        match rest, hk1 with
        | [], _ =>
          have := base b urls true
          simpa only [attributeEqualsLoop, splitAlternativesFrom, beq_self_eq_true, if_true,
            Bool.false_eq_true, if_false] using this
        | d :: rest2, hk2 =>
          have hk3 : rest2.length ≤ k := by
            have : rest2.length + 1 ≤ k := by simpa using hk2
            omega
          have := ih rest2 (b ++ [d]) urls hk3
          simpa only [attributeEqualsLoop, splitAlternativesFrom, beq_self_eq_true, if_true,
            Bool.false_eq_true, if_false] using this
      · have hb' : (c == '\\') = false := by simpa using hb
        by_cases hbar : c = '|'
        · subst hbar
          have key := ih rest [] urls hk1
          have keyu := ih rest [] (urls ++ [h.mkKURL (some b)]) hk1
          unfold attributeEqualsLoop splitAlternativesFrom
          simp only [Bool.false_eq_true, if_false, hb, hb', beq_self_eq_true, if_true]
          by_cases hid : (n == "dtt-id".toList || n == "id".toList) = true
          · simp only [Bool.false_eq_true, ↓reduceIte, hid, if_true]
            by_cases hm : idEquals (some b) v mode = true
            · simp only [Bool.false_eq_true, ↓reduceIte, hm, if_true, attributeEqualsVerdict, classVerdict, hid, List.any_cons,
                Bool.true_or]
            · simp only [Bool.false_eq_true, ↓reduceIte, hm, if_false, key]
              simp only [Bool.false_eq_true, ↓reduceIte, classVerdict, hid, if_true, List.any_cons, hm, Bool.false_or]
          · simp only [Bool.false_eq_true, ↓reduceIte, hid, if_false]
            by_cases hs : isScriptAttribute element n = true
            · simp only [Bool.false_eq_true, ↓reduceIte, hs, if_true]
              by_cases hm : scriptEquals h b v.getString = true
              · simp only [Bool.false_eq_true, ↓reduceIte, hm, if_true, attributeEqualsVerdict, classVerdict, hid, hs,
                  List.any_cons, Bool.true_or, if_false]
              · simp only [Bool.false_eq_true, ↓reduceIte, hm, if_false, key]
                simp only [Bool.false_eq_true, ↓reduceIte, classVerdict, hid, hs, if_true, if_false, List.any_cons, hm,
                  Bool.false_or]
            · simp only [Bool.false_eq_true, ↓reduceIte, hs, if_false]
              by_cases hu : isURLAttribute h element n = true
              · simp only [Bool.false_eq_true, ↓reduceIte, hu, if_true, keyu]
                simp only [Bool.false_eq_true, ↓reduceIte, classVerdict, hid, hs, hu, if_true, if_false, List.map_cons,
                  List.append_assoc, List.singleton_append]
              · simp only [Bool.false_eq_true, ↓reduceIte, hu, if_false]
                by_cases hm : stringEquals b 0 v.getString 0 = true
                · simp only [Bool.false_eq_true, ↓reduceIte, hm, if_true, attributeEqualsVerdict, classVerdict, hid, hs, hu,
                    List.any_cons, Bool.true_or, if_false]
                · simp only [Bool.false_eq_true, ↓reduceIte, hm, if_false, key]
                  simp only [Bool.false_eq_true, ↓reduceIte, classVerdict, hid, hs, hu, if_true, if_false, List.any_cons, hm,
                    Bool.false_or]
        · have := ih rest (b ++ [c]) urls hk1
          have hbar' : (c == '|') = false := by simpa using hbar
          have e : splitAlternativesFrom (c :: rest) b = splitAlternativesFrom rest (b ++ [c]) := by
            rw [splitAlternativesFrom.eq_def]
            simp only [hb, hbar, ↓reduceIte]
          rw [e]
          simpa only [attributeEqualsLoop, hb', hbar', Bool.false_eq_true, if_false] using this

/-- The value of `attributeEquals` on a present pattern is the verdict of the attribute
class over the alternatives of the pattern. -/
theorem attributeEquals_eq_classVerdict (h : Host) (frame_mode : Option (List Char))
    (element : ElementData) (attribute_name pattern : List Char) (attribute_value : AtomicString) :
    attributeEquals h frame_mode element attribute_name (some pattern) attribute_value =
      if attribute_name = "dtt-id".toList ∨ attribute_name = "id".toList then
        (splitAlternatives pattern).any fun a =>
          idEquals (some a) attribute_value (frame_mode.getD "r".toList)
      else if "on".toList.isPrefixOf attribute_name then
        (splitAlternatives pattern).any fun a =>
          scriptEquals h a attribute_value.getString
      else if isURLAttribute h element attribute_name then
        urlEqualsList h ((splitAlternatives pattern).map fun a => h.mkKURL (some a))
          (h.mkKURL attribute_value)
      else
        (splitAlternatives pattern).any fun a =>
          stringEquals a 0 attribute_value.getString 0 := by
  have key := attributeEqualsLoop_verdict h (frame_mode.getD "r".toList) element attribute_name
    attribute_value pattern.length pattern [] [] (le_refl _)
  simp only [attributeEqualsVerdict, classVerdict, List.nil_append, isScriptAttribute,
    Bool.or_eq_true, beq_iff_eq] at key
  simp only [attributeEquals, splitAlternatives, isScriptAttribute, Bool.or_eq_true, beq_iff_eq]
  exact key

/-- A name that starts with `on` is neither `dtt-id` nor `id`. -/
theorem isScriptAttribute_not_id (element : ElementData) (attribute_name : List Char)
    (hscript : isScriptAttribute element attribute_name = true) :
    (attribute_name == "dtt-id".toList || attribute_name == "id".toList) = false := by
  cases hid : (attribute_name == "dtt-id".toList || attribute_name == "id".toList) with
  | false => rfl
  | true =>
    exfalso
    simp only [Bool.or_eq_true, beq_iff_eq] at hid
    rcases hid with e | e <;>
    · subst e
      unfold isScriptAttribute at hscript
      revert hscript
      decide

/-- With a value that is not null the loop of `attributeEquals` comes to its end. -/
theorem attributeEqualsLoopChecked_value (h : Host) (mode : List Char) (element : ElementData)
    (n : List Char) (value : List Char) :
    ∀ (rest : List Char) (e : Bool) (b : List Char) (urls : List KURL),
      attributeEqualsLoopChecked h mode element n (some value) rest e b urls
        = some (attributeEqualsLoop h mode element n (some value) rest e b urls) := by
  intro rest
  induction rest with
  | nil =>
    intro e b urls
    rfl
  | cons c rest ih =>
    intro e b urls
    unfold attributeEqualsLoopChecked attributeEqualsLoop
    simp only [ih, scriptEqualsChecked, AtomicString.getString, Option.getD_some]
    repeat' split
    all_goals first | rfl | simp_all

/-- For an attribute that is not a script attribute the loop of `attributeEquals` comes
to its end. -/
theorem attributeEqualsLoopChecked_not_script (h : Host) (mode : List Char)
    (element : ElementData) (n : List Char) (v : AtomicString)
    (hscript : isScriptAttribute element n = false) :
    ∀ (rest : List Char) (e : Bool) (b : List Char) (urls : List KURL),
      attributeEqualsLoopChecked h mode element n v rest e b urls
        = some (attributeEqualsLoop h mode element n v rest e b urls) := by
  intro rest
  induction rest with
  | nil =>
    intro e b urls
    rfl
  | cons c rest ih =>
    intro e b urls
    unfold attributeEqualsLoopChecked attributeEqualsLoop
    simp only [ih, hscript, Bool.false_eq_true, if_false]
    split_ifs <;> rfl

/-- Where `attributeEquals` returns: with a value that is not null, and for an attribute
that is not a script attribute, the call returns the value `attributeEquals`. -/
theorem attributeEqualsChecked_returns (h : Host) (frame_mode : Option (List Char))
    (element : ElementData) (attribute_name : List Char)
    (shadow_attribute_value attribute_value : AtomicString)
    (hreturns : attribute_value ≠ none ∨ isScriptAttribute element attribute_name = false) :
    attributeEqualsChecked h frame_mode element attribute_name shadow_attribute_value
        attribute_value
      = some (attributeEquals h frame_mode element attribute_name shadow_attribute_value
          attribute_value) := by
  cases shadow_attribute_value with
  | none => rfl
  | some shadow =>
    rcases hreturns with hvalue | hscript
    · cases attribute_value with
      | none => exact absurd rfl hvalue
      | some value =>
        unfold attributeEqualsChecked attributeEquals
        simp only [attributeEqualsLoopChecked_value, scriptEqualsChecked,
          AtomicString.getString, Option.getD_some]
        repeat' split
        all_goals first | rfl | simp_all
    · unfold attributeEqualsChecked attributeEquals
      simp only [attributeEqualsLoopChecked_not_script h _ element attribute_name
        attribute_value hscript, hscript, Bool.false_eq_true, if_false]
      split_ifs <;> rfl

/-- With a null value the loop of `attributeEquals` for a script attribute either stops
in `scriptEquals` or comes to its end without a match. -/
theorem attributeEqualsLoopChecked_null_value (h : Host) (mode : List Char)
    (element : ElementData) (n : List Char)
    (hscript : isScriptAttribute element n = true) :
    ∀ (rest : List Char) (e : Bool) (b : List Char) (urls : List KURL) (st : SplitState),
      attributeEqualsLoopChecked h mode element n none rest e b urls = some st →
        st.found_in_shadow_attribute_value = false := by
  have hid := isScriptAttribute_not_id element n hscript
  intro rest
  induction rest with
  | nil =>
    intro e b urls st hst
    simp only [attributeEqualsLoopChecked, Option.some.injEq] at hst
    rw [← hst]
  | cons c rest ih =>
    intro e b urls st hst
    unfold attributeEqualsLoopChecked at hst
    simp only [hid, hscript, Bool.false_eq_true, if_false, if_true, scriptEqualsChecked] at hst
    split_ifs at hst
    · exact ih _ _ _ st hst
    · exact ih _ _ _ st hst
    · exact ih _ _ _ st hst

/-- Where `attributeEquals` does not return: with a present pattern, a script attribute
and a null value. -/
theorem attributeEqualsChecked_stops (h : Host) (frame_mode : Option (List Char))
    (element : ElementData) (attribute_name shadow : List Char)
    (hscript : isScriptAttribute element attribute_name = true) :
    attributeEqualsChecked h frame_mode element attribute_name (some shadow) none = none := by
  have hid := isScriptAttribute_not_id element attribute_name hscript
  have hloop := attributeEqualsLoopChecked_null_value h (frame_mode.getD "r".toList) element
    attribute_name hscript shadow false [] []
  unfold attributeEqualsChecked
  simp only [hid, hscript, Bool.false_eq_true, if_false, if_true, scriptEqualsChecked]
  cases hst : attributeEqualsLoopChecked h (frame_mode.getD "r".toList) element attribute_name
      none shadow false [] [] with
  | none => rfl
  | some st =>
    simp only [hloop st hst, Bool.false_eq_true, if_false]

/-- Claim C10: on a present pattern `attributeEquals` splits the pattern at its unescaped
`|` into alternatives with the escapes removed and gives the verdict of the attribute
class: some alternative satisfies `idEquals` for `id` and `dtt-id`, else some alternative
satisfies `scriptEquals` for a name starting with `on`, else the list form of `urlEquals`
accepts the value against the URLs of all alternatives for a URL attribute, else some
alternative satisfies `stringEquals`.  The call returns this verdict on every input but
one: for a name starting with `on` and a null value, `scriptEquals` reads the null value
string at the first alternative and the call has no result.  Where the call returns,
its result is the value `attributeEquals`. -/
theorem attributeEquals_dispatch (h : Host) (frame_mode : Option (List Char))
    (element : ElementData) (attribute_name pattern : List Char) (attribute_value : AtomicString) :
    attributeEqualsChecked h frame_mode element attribute_name (some pattern) attribute_value
        = (if attribute_name = "dtt-id".toList ∨ attribute_name = "id".toList then
            some ((splitAlternatives pattern).any fun a =>
              idEquals (some a) attribute_value (frame_mode.getD "r".toList))
          else if "on".toList.isPrefixOf attribute_name then
            match attribute_value with
            | none => none
            | some value =>
              some ((splitAlternatives pattern).any fun a => scriptEquals h a value)
          else if isURLAttribute h element attribute_name then
            some (urlEqualsList h ((splitAlternatives pattern).map fun a => h.mkKURL (some a))
              (h.mkKURL attribute_value))
          else
            some ((splitAlternatives pattern).any fun a =>
              stringEquals a 0 attribute_value.getString 0))
      ∧ (attributeEqualsChecked h frame_mode element attribute_name (some pattern)
            attribute_value = none
          ∨ attributeEqualsChecked h frame_mode element attribute_name (some pattern)
              attribute_value
            = some (attributeEquals h frame_mode element attribute_name (some pattern)
                attribute_value)) := by
  by_cases hscript : isScriptAttribute element attribute_name = true
  · have hid := isScriptAttribute_not_id element attribute_name hscript
    have hid' : ¬ (attribute_name = "dtt-id".toList ∨ attribute_name = "id".toList) := by
      simpa only [Bool.or_eq_false_iff, beq_eq_false_iff_ne, ne_eq, not_or] using hid
    have hon : "on".toList.isPrefixOf attribute_name = true := hscript
    cases attribute_value with
    | none =>
      rw [attributeEqualsChecked_stops h frame_mode element attribute_name pattern hscript]
      rw [if_neg hid', if_pos hon]
      exact ⟨rfl, Or.inl rfl⟩
    | some value =>
      rw [attributeEqualsChecked_returns h frame_mode element attribute_name (some pattern)
        (some value) (Or.inl (by simp)),
        attributeEquals_eq_classVerdict]
      rw [if_neg hid', if_neg hid', if_pos hon, if_pos hon]
      exact ⟨rfl, Or.inr rfl⟩
  · have hscript' : isScriptAttribute element attribute_name = false := by
      simpa using hscript
    have hon : ¬ "on".toList.isPrefixOf attribute_name = true := hscript
    rw [attributeEqualsChecked_returns h frame_mode element attribute_name (some pattern)
      attribute_value (Or.inr hscript'), attributeEquals_eq_classVerdict]
    refine ⟨?_, Or.inr rfl⟩
    by_cases hid : attribute_name = "dtt-id".toList ∨ attribute_name = "id".toList
    · rw [if_pos hid, if_pos hid]
    · rw [if_neg hid, if_neg hid, if_neg hon, if_neg hon]
      by_cases hu : isURLAttribute h element attribute_name = true
      · rw [if_pos hu, if_pos hu]
      · rw [if_neg hu, if_neg hu]

/-! ## Recording and replaying attribute values -/

/-- Claim C1, failing input: for the plain attribute `name`, the value `\` has just been
merged into the pattern (absent before, or `x`), and replaying the same value against the
merged pattern is refused: the stored `\\` is unescaped to `\` by `attributeEquals` and
then read as an unfinished escape by `stringEquals`. -/
theorem mergeShadowAttribute_backslash_not_accepted :
    mergeShadowAttribute plainHost none plainDiv "name".toList none (some ['\\'])
        = some ['|', '\\', '\\']
      ∧ attributeEquals plainHost none plainDiv "name".toList
          (mergeShadowAttribute plainHost none plainDiv "name".toList none (some ['\\']))
          (some ['\\']) = false
      ∧ attributeEquals plainHost none plainDiv "name".toList
          (mergeShadowAttribute plainHost none plainDiv "name".toList (some ['x']) (some ['\\']))
          (some ['\\']) = false := by
  decide

/-- Claim C2, failing input: after `createShadowNode` has recorded `<div id="a|b">` under an
empty `BODY` shadow, `hasMatchingSubtreeInShadowTree` refuses the same element: the new
shadow stores the raw id as `dtt-id`, which reads as the two alternatives `a` and `b`. -/
theorem createShadowNode_bar_id_not_matched :
    createShadowNode plainHost (some ['r']) emptyBodyShadow divWithBarId
        = .element { tagName := "BODY".toList, attributes := [] }
            [.element { tagName := "DIV".toList,
                        attributes := [⟨"dtt-id".toList, "a|b".toList⟩,
                                       ⟨"id".toList, "a|b".toList⟩] } []]
      ∧ hasMatchingSubtreeInShadowTree plainHost (some ['e']) divWithBarId
          (createShadowNode plainHost (some ['r']) emptyBodyShadow divWithBarId) = false := by
  constructor
  · rfl
  · decide

/-- Claim C3, failing input: for the plain attribute `name`, merging the value `a*` into the
pattern `x` makes the pattern accept `ab`, which is neither the merged value nor accepted
before: the escaped star is unescaped by `attributeEquals` and acts as a wildcard. -/
theorem mergeShadowAttribute_star_value_is_wildcard :
    mergeShadowAttribute plainHost none plainDiv "name".toList (some ['x']) (some ['a', '*'])
        = some ['x', '|', 'a', '\\', '*']
      ∧ attributeEquals plainHost none plainDiv "name".toList
          (mergeShadowAttribute plainHost none plainDiv "name".toList (some ['x'])
            (some ['a', '*']))
          (some ['a', 'b']) = true
      ∧ attributeEquals plainHost none plainDiv "name".toList (some ['x']) (some ['a', 'b'])
          = false
      ∧ ['a', 'b'] ≠ ['a', '*'] := by
  decide

/-- Claim C4, failing input: the pattern `**` has no trailing backslash and the empty
subject is the concatenation of two empty runs, one for each star, yet `stringEquals`
rejects it, while it accepts the subject `x` for the same pattern. -/
theorem stringEquals_two_stars_empty_subject :
    endsWithUnpairedBackslash ['*', '*'] = false
      ∧ unitsMatch (patternUnits ['*', '*']) [] = true
      ∧ stringEquals ['*', '*'] 0 [] 0 = false
      ∧ stringEquals ['*', '*'] 0 ['x'] 0 = true := by
  decide

/-- Claim C5, counterexample: the string made of one backslash does not match itself. -/
theorem stringEquals_backslash_not_reflexive : stringEquals ['\\'] 0 ['\\'] 0 = false := by
  decide

/-- Claim C5, amended: every string without a backslash matches itself when used as a
pattern. -/
theorem stringEquals_refl_of_no_backslash (s : List Char) (hs : '\\' ∉ s) :
    stringEquals s 0 s 0 = true := by
  unfold stringEquals
  exact stringEqualsLoop_self s hs s.length 0 _ (by omega) (by omega) (by omega)

/-- Claim C5, amended, at the string `a*b?`. -/
theorem stringEquals_refl_of_no_backslash_witness :
    '\\' ∉ ['a', '*', 'b', '?'] ∧ stringEquals ['a', '*', 'b', '?'] 0 ['a', '*', 'b', '?'] 0 = true :=
  ⟨by decide, stringEquals_refl_of_no_backslash ['a', '*', 'b', '?'] (by decide)⟩

/-- Claim C6, failing input: adding the value `b` to the current pattern `a\` gives `a\|b`,
whose appended bar is escaped by the backslash the pattern ended with; the last top-level
alternative is the whole text and does not match `b`. -/
theorem escapeAndAdd_after_trailing_backslash :
    escapeAndAddToAttributeValue (some ['a', '\\']) (some ['b']) = ['a', '\\', '|', 'b']
      ∧ lastAlternative (escapeAndAddToAttributeValue (some ['a', '\\']) (some ['b']))
          = ['a', '\\', '|', 'b']
      ∧ stringEquals
          (lastAlternative (escapeAndAddToAttributeValue (some ['a', '\\']) (some ['b'])))
          0 ['b'] 0 = false := by
  decide

/-- Claim C7, failing input: for the plain attribute `name`, the pattern `a\` accepts `a`;
after merging the value `b` the pattern is `a\|b`, whose only alternative is `a|b`, and `a`
is no longer accepted. -/
theorem mergeShadowAttribute_narrows_after_trailing_backslash :
    attributeEquals plainHost none plainDiv "name".toList (some ['a', '\\']) (some ['a']) = true
      ∧ mergeShadowAttribute plainHost none plainDiv "name".toList (some ['a', '\\'])
          (some ['b']) = some ['a', '\\', '|', 'b']
      ∧ attributeEquals plainHost none plainDiv "name".toList
          (mergeShadowAttribute plainHost none plainDiv "name".toList (some ['a', '\\'])
            (some ['b']))
          (some ['a']) = false := by
  decide

/-- The escaping of `escapeAndAddToAttributeValue`: a backslash is put before each `\`,
`|` and `*` of the new value, every other character is copied. -/
theorem escapeValue_eq_bind (v : List Char) :
    escapeValue v
      = v.flatMap fun c => if c = '\\' ∨ c = '|' ∨ c = '*' then ['\\', c] else [c] := by
  induction v with
  | nil => rfl
  | cons c rest ih =>
    simp only [escapeValue, List.flatMap_cons, ih, beq_iff_eq]
    by_cases h1 : c = '\\'
    · subst h1
      simp
    · by_cases h2 : c = '|'
      · subst h2
        simp
      · by_cases h3 : c = '*'
        · subst h3
          simp
        · simp [h1, h2, h3]

/-- Where `mergeShadowAttribute` returns, it returns the current pattern or the current
pattern followed by `|` and the escaped new value; the current pattern is a prefix of the
result, and the result is strictly longer when `attributeEquals` returned false.  It
does not return for a present pattern, a script attribute and a null value. -/
theorem mergeShadowAttributeChecked_grows (h : Host) (frame_mode : Option (List Char))
    (element : ElementData) (attribute_name : List Char) (p v : AtomicString) :
    match mergeShadowAttributeChecked h frame_mode element attribute_name p v with
    | none => p ≠ none ∧ isScriptAttribute element attribute_name = true ∧ v = none
    | some merged =>
      (merged = p ∨ merged = some (p.getString ++ '|' :: escapeValue v.getString))
        ∧ p.getString <+: merged.getString
        ∧ (attributeEqualsChecked h frame_mode element attribute_name p v = some false →
            p.getString.length < merged.getString.length) := by
  unfold mergeShadowAttributeChecked
  cases hresult : attributeEqualsChecked h frame_mode element attribute_name p v with
  | none =>
    by_cases hreturns : v ≠ none ∨ isScriptAttribute element attribute_name = false
    · rw [attributeEqualsChecked_returns h frame_mode element attribute_name p v hreturns]
        at hresult
      exact absurd hresult (by simp)
    · have hv : v = none := by
        by_contra hne
        exact hreturns (Or.inl hne)
      have hs : isScriptAttribute element attribute_name = true := by
        cases hsc : isScriptAttribute element attribute_name
        · exact absurd (Or.inr hsc) hreturns
        · rfl
      refine ⟨?_, hs, hv⟩
      intro hp
      subst hp
      simp [attributeEqualsChecked] at hresult
  | some verdict =>
    cases verdict with
    | true => simp
    | false => simp [escapeAndAddToAttributeValue, AtomicString.getString]

/-- On a non-empty pattern `mergeShadowProperty` returns the pattern or the pattern
followed by `|` and the escaped CSS text of the new value; the pattern is a prefix of
the result, and the result is strictly longer when `propertyEquals` is false. -/
theorem mergeShadowProperty_grows (h : Host) (property : Nat) (p : AtomicString)
    (new_value : Option CSSValue) (hp : p.getString ≠ []) :
    (mergeShadowProperty h property p new_value = p
      ∨ mergeShadowProperty h property p new_value
          = some (p.getString
              ++ '|' :: escapeValue (AtomicString.getString (new_value.map h.cssText))))
    ∧ p.getString <+: AtomicString.getString (mergeShadowProperty h property p new_value)
    ∧ (propertyEquals h property p new_value = false →
        p.getString.length
          < (AtomicString.getString (mergeShadowProperty h property p new_value)).length) := by
  unfold mergeShadowProperty
  simp only [AtomicString.getString] at hp ⊢
  by_cases hm : propertyEquals h property p new_value = true
  · simp [hm, hp]
  · simp [hm, hp, escapeAndAddToAttributeValue, AtomicString.getString]

/-- Claim C8, failing input: the shadow `<DIV dtt-id="a" id="a" onclick="f(1)">` stores
the pattern `f(1)` for `onclick`, and the attribute is removed from the live element, so
the new value is null.  `mergeShadowAttribute` calls `attributeEquals`, which calls
`scriptEquals` on the null value string: the merge has no result, neither the pattern nor
the pattern with an alternative appended, and in record mode the hook that merges (the
attribute is monitored and the shadow is found) stops there.  With the new value `a*b`
the same merge returns `f(1)|a\*b`. -/
theorem mergeShadowAttribute_stops_at_removed_handler :
    shadowDivOnclick.getAttribute "onclick".toList = some "f(1)".toList
      ∧ mergeShadowAttributeChecked scriptHost none shadowDivOnclick "onclick".toList
          (shadowDivOnclick.getAttribute "onclick".toList) none = none
      ∧ shouldMonitorAttribute scriptHost liveDivOnclick "onclick".toList = true
      ∧ (locateNodeAndCreateAncestorsInShadowTree scriptHost
          (some recordOnclickFrame.dom_constraint_mode) recordOnclickFrame.dom_constraint
          (elementPosition liveDivOnclick bodyParents .ownDocument)).result = .Found
      ∧ (WillModifyDOMAttrExtended scriptHost recordOnclickFrame liveDivOnclick bodyParents
          .ownDocument "onclick".toList (some "f(1)".toList) none).null_dereference = true
      ∧ mergeShadowAttributeChecked scriptHost none shadowDivOnclick "onclick".toList
          (shadowDivOnclick.getAttribute "onclick".toList) (some "a*b".toList)
          = some (some "f(1)|a\\*b".toList) := by
  refine ⟨by decide, by decide, by decide, by decide, by decide, by decide⟩

/-- The attribute loop of `matchingNode` succeeds iff every monitored attribute of the list
is accepted by the pattern of the same name on the shadow. -/
theorem matchingNodeAttributes_iff (h : Host) (frame_mode : Option (List Char))
    (element shadow_element : ElementData) (attrs : List Attribute) :
    matchingNodeAttributes h frame_mode element shadow_element attrs = true ↔
      ∀ a ∈ attrs, shouldMonitorAttribute h element a.name = true →
        attributeEquals h frame_mode element a.name (shadow_element.getAttribute a.name)
          (some a.value) = true := by
  induction attrs with
  | nil => simp [matchingNodeAttributes]
  | cons a rest ih =>
    unfold matchingNodeAttributes
    by_cases hm : shouldMonitorAttribute h element a.name = true
    · by_cases he : attributeEquals h frame_mode element a.name
          (shadow_element.getAttribute a.name) (some a.value) = true
      · simp [hm, he, ih]
      · simp [hm, he]
    · simp [hm, ih]

/-- Claim C11: `matchingNode` returns the shadow node iff the shadow node is an element
with the tag of the live element, its `dtt-id` pattern accepts the id of the live element,
and the pattern of the same name accepts the value of every attribute of the live element
that `shouldMonitorAttribute` accepts; otherwise it returns null. -/
theorem matchingNode_iff (h : Host) (frame_mode : Option (List Char)) (element : ElementData)
    (shadow_node : Node) :
    (matchingNode h frame_mode element shadow_node = some shadow_node ↔
      ∃ shadow_element shadow_children,
        shadow_node = .element shadow_element shadow_children
        ∧ shadow_element.tagName = element.tagName
        ∧ attributeEquals h frame_mode element "dtt-id".toList
            (shadow_element.getAttribute "dtt-id".toList) element.getIdAttribute = true
        ∧ ∀ a ∈ element.attributes, shouldMonitorAttribute h element a.name = true →
            attributeEquals h frame_mode element a.name (shadow_element.getAttribute a.name)
              (some a.value) = true)
    ∧ (matchingNode h frame_mode element shadow_node ≠ some shadow_node →
        matchingNode h frame_mode element shadow_node = none) := by
  cases shadow_node with
  | element sd ch =>
    have hattrs := matchingNodeAttributes_iff h frame_mode element sd element.attributes
    by_cases ht : element.tagName = sd.tagName
    · by_cases hid : attributeEquals h frame_mode element "dtt-id".toList
          (sd.getAttribute "dtt-id".toList) element.getIdAttribute = true
      · by_cases ha : matchingNodeAttributes h frame_mode element sd element.attributes = true
        · have e : matchingNode h frame_mode element (.element sd ch) = some (.element sd ch) := by
            unfold matchingNode
            simp only [ht, hid, ha, ne_eq, not_true_eq_false, Bool.not_true, Bool.false_eq_true,
              ↓reduceIte]
          exact ⟨⟨fun _ => ⟨sd, ch, rfl, ht.symm, hid, hattrs.mp ha⟩, fun _ => e⟩,
            fun hne => absurd e hne⟩
        · have e : matchingNode h frame_mode element (.element sd ch) = none := by
            have ha' := eq_false_of_ne_true ha
            unfold matchingNode
            simp only [ht, hid, ha', ne_eq, not_true_eq_false, Bool.not_true, Bool.not_false,
              Bool.false_eq_true, ↓reduceIte]
          refine ⟨⟨fun hsome => ?_, fun hex => ?_⟩, fun _ => e⟩
          · rw [e] at hsome
            cases hsome
          · obtain ⟨sd', ch', heq, _, _, hall⟩ := hex
            cases heq
            exact absurd (hattrs.mpr hall) ha
      · have e : matchingNode h frame_mode element (.element sd ch) = none := by
          have hid' := eq_false_of_ne_true hid
          unfold matchingNode
          simp only [ht, hid', ne_eq, not_true_eq_false, Bool.not_false, Bool.false_eq_true,
            ↓reduceIte]
        refine ⟨⟨fun hsome => ?_, fun hex => ?_⟩, fun _ => e⟩
        · rw [e] at hsome
          cases hsome
        · obtain ⟨sd', ch', heq, _, hid', _⟩ := hex
          cases heq
          exact absurd hid' hid
    · have e : matchingNode h frame_mode element (.element sd ch) = none := by
        unfold matchingNode
        simp only [ne_eq, ht, not_false_eq_true, ↓reduceIte]
      refine ⟨⟨fun hsome => ?_, fun hex => ?_⟩, fun _ => e⟩
      · rw [e] at hsome
        cases hsome
      · obtain ⟨sd', ch', heq, ht', _, _⟩ := hex
        cases heq
        exact absurd ht'.symm ht
  | documentFragment ch => simp [matchingNode]
  | document ch => simp [matchingNode]
  | text d => simp [matchingNode]

/-- A child that `matchingNode` returns makes the sibling loop return some node. -/
theorem firstMatchingNode_isSome_of_mem (h : Host) (frame_mode : Option (List Char))
    (element : ElementData) (children : List Node) (child : Node) (hmem : child ∈ children)
    (hmatch : matchingNode h frame_mode element child = some child) :
    ∃ shadow_node, firstMatchingNode h frame_mode element children = some shadow_node := by
  induction children with
  | nil => cases hmem
  | cons first rest ih =>
    unfold firstMatchingNode
    cases hfirst : matchingNode h frame_mode element first with
    | some s => exact ⟨s, rfl⟩
    | none =>
      rcases List.mem_cons.mp hmem with heq | hrest
      · subst heq
        rw [hfirst] at hmatch
        cases hmatch
      · exact ih hrest

/-- Claim C12, counterexample: the shadow `<DIV dtt-id="item-*">` under `BODY` does not
match the live `<div id="item-42">`: `id` is itself a monitored attribute and the shadow
has no `id` pattern. -/
theorem wildcard_dtt_id_alone_not_matched :
    hasMatchingSubtreeInShadowTree plainHost (some ['e']) liveItem42 shadowBodyDttIdOnly
      = false := by
  decide

/-- Claim C12, amended: a live element without children whose only attribute is `id = i`
is matched under a shadow parent that has a child element of the same tag whose `dtt-id`
pattern and `id` pattern both accept `i`. -/
theorem wildcard_id_matched (h : Host) (frame_mode : Option (List Char)) (tag i : List Char)
    (shadow_parent : Node) (shadow_element : ElementData) (shadow_children : List Node)
    (hchild : Node.element shadow_element shadow_children ∈ shadow_parent.children)
    (htag : shadow_element.tagName = tag)
    (hdtt : attributeEquals h frame_mode { tagName := tag, attributes := [⟨"id".toList, i⟩] }
      "dtt-id".toList (shadow_element.getAttribute "dtt-id".toList) (some i) = true)
    (hid : attributeEquals h frame_mode { tagName := tag, attributes := [⟨"id".toList, i⟩] }
      "id".toList (shadow_element.getAttribute "id".toList) (some i) = true) :
    hasMatchingSubtreeInShadowTree h frame_mode
      (.element { tagName := tag, attributes := [⟨"id".toList, i⟩] } []) shadow_parent
      = true := by
  have hgetid : ElementData.getIdAttribute { tagName := tag, attributes := [⟨"id".toList, i⟩] }
      = some i := by
    simp [ElementData.getIdAttribute, ElementData.getAttribute]
  have hmatch : matchingNode h frame_mode { tagName := tag, attributes := [⟨"id".toList, i⟩] }
      (.element shadow_element shadow_children) = some (.element shadow_element shadow_children) := by
    refine (matchingNode_iff h frame_mode _ _).1.mpr ⟨shadow_element, shadow_children, rfl, htag,
      ?_, ?_⟩
    · rw [hgetid]
      exact hdtt
    · intro a ha _
      have : a = ⟨"id".toList, i⟩ := by simpa using ha
      subst this
      exact hid
  obtain ⟨s, hs⟩ := firstMatchingNode_isSome_of_mem h frame_mode _ _ _ hchild hmatch
  unfold hasMatchingSubtreeInShadowTree
  rw [hs]
  simp [hasMatchingSubtreeChildren]

/-- Claim C12, amended, at the shadow `<DIV dtt-id="item-*" id="item-*">` and the live
`<div id="item-42">`. -/
theorem wildcard_id_matched_witness :
    Node.element shadowDivItemStar [] ∈ shadowBodyDttIdAndId.children
      ∧ shadowDivItemStar.tagName = "DIV".toList
      ∧ attributeEquals plainHost (some ['e'])
          { tagName := "DIV".toList, attributes := [⟨"id".toList, "item-42".toList⟩] }
          "dtt-id".toList (shadowDivItemStar.getAttribute "dtt-id".toList)
          (some "item-42".toList) = true
      ∧ attributeEquals plainHost (some ['e'])
          { tagName := "DIV".toList, attributes := [⟨"id".toList, "item-42".toList⟩] }
          "id".toList (shadowDivItemStar.getAttribute "id".toList)
          (some "item-42".toList) = true
      ∧ hasMatchingSubtreeInShadowTree plainHost (some ['e'])
          (.element { tagName := "DIV".toList, attributes := [⟨"id".toList, "item-42".toList⟩] }
            []) shadowBodyDttIdAndId = true :=
  ⟨List.mem_singleton.mpr rfl, rfl, by decide, by decide,
    wildcard_id_matched plainHost (some ['e']) "DIV".toList "item-42".toList
      shadowBodyDttIdAndId shadowDivItemStar [] (List.mem_singleton.mpr rfl) rfl
      (by decide) (by decide)⟩

/-! ## Script equivalence -/

/-- The stream of a list starts with its head. -/
theorem tokenAt_zero (tokens : List Token) : tokenAt tokens 0 = tokens.headD Token.EOS := by
  cases tokens <;> rfl

/-- The stream of a tail is the stream shifted by one. -/
theorem tokenAt_tail (tokens : List Token) (k : Nat) :
    tokenAt tokens.tail k = tokenAt tokens (k + 1) := by
  cases tokens with
  | nil => rfl
  | cons t rest => simp [tokenAt]

/-- One round of the loop of `scriptEquals`. -/
theorem scriptEqualsTokens_cons (a : Token) (rest actual_tokens : List Token) :
    scriptEqualsTokens (a :: rest) actual_tokens =
      if a ≠ tokenAt actual_tokens 0 then false
      else if a.isTerminal then true
      else scriptEqualsTokens rest actual_tokens.tail := by
  simp only [scriptEqualsTokens, ← tokenAt_zero]
  by_cases hab : a = tokenAt actual_tokens 0
  · rw [← hab]
    cases a <;> simp [Token.isTerminal]
  · simp [hab]

/-- The loop of `scriptEquals` succeeds iff the two streams agree up to and including a
position that holds a terminal. -/
theorem scriptEqualsTokens_iff (shadow_tokens : List Token) :
    ∀ actual_tokens : List Token,
      scriptEqualsTokens shadow_tokens actual_tokens = true ↔
        ∃ k, (∀ j, j ≤ k → tokenAt shadow_tokens j = tokenAt actual_tokens j)
          ∧ (tokenAt shadow_tokens k).isTerminal = true := by
  induction shadow_tokens with
  | nil =>
    intro actual_tokens
    unfold scriptEqualsTokens
    rw [decide_eq_true_iff, ← tokenAt_zero]
    constructor
    · intro h0
      refine ⟨0, ?_, rfl⟩
      intro j hj
      have : j = 0 := by omega
      subst this
      exact h0
    · rintro ⟨k, hk, _⟩
      exact hk 0 (Nat.zero_le _)
  | cons a rest ih =>
    intro actual_tokens
    rw [scriptEqualsTokens_cons]
    have hshift : ∀ j, tokenAt (a :: rest) (j + 1) = tokenAt rest j := fun j => by
      simp [tokenAt]
    by_cases hab : a = tokenAt actual_tokens 0
    · by_cases hterm : a.isTerminal = true
      · simp only [ne_eq, hab, not_true_eq_false, if_false]
        rw [← hab]
        simp only [hterm, if_true, true_iff]
        refine ⟨0, ?_, hterm⟩
        intro j hj
        have : j = 0 := by omega
        subst this
        exact hab
      · simp only [ne_eq, hab, not_true_eq_false, if_false]
        rw [← hab]
        simp only [hterm, Bool.false_eq_true, if_false]
        rw [ih actual_tokens.tail]
        constructor
        · rintro ⟨k, hk, hkt⟩
          refine ⟨k + 1, ?_, ?_⟩
          · intro j hj
            cases j with
            | zero => exact hab
            | succ i =>
              have := hk i (by omega)
              rw [tokenAt_tail] at this
              rw [hshift]
              exact this
          · rw [hshift]
            exact hkt
        · rintro ⟨k, hk, hkt⟩
          cases k with
          | zero => exact absurd hkt hterm
          | succ k' =>
            refine ⟨k', ?_, ?_⟩
            · intro j hj
              have := hk (j + 1) (by omega)
              rw [tokenAt_tail, ← hshift]
              exact this
            · rw [← hshift]
              exact hkt
    · simp only [ne_eq, hab, not_false_eq_true, if_true, Bool.false_eq_true, false_iff, not_exists,
        not_and]
      intro k hk
      exact absurd (hk 0 (Nat.zero_le _)) hab

/-- Claim C14: `scriptEquals` is true iff the token-kind streams of the two sources agree
at every position up to and including some position that holds `EOS` or `ILLEGAL`; a
mismatch at a position before which the streams agree without a terminal gives false. -/
theorem scriptEquals_iff_streams_agree_to_terminal (h : Host) (a b : List Char) :
    (scriptEquals h a b = true ↔
      ∃ k, (∀ j, j ≤ k → tokenAt (h.tokens a) j = tokenAt (h.tokens b) j)
        ∧ (tokenAt (h.tokens a) k).isTerminal = true
        ∧ (tokenAt (h.tokens b) k).isTerminal = true)
    ∧ ((∃ m, tokenAt (h.tokens a) m ≠ tokenAt (h.tokens b) m
          ∧ ∀ i, i < m → tokenAt (h.tokens a) i = tokenAt (h.tokens b) i
              ∧ (tokenAt (h.tokens a) i).isTerminal = false) →
        scriptEquals h a b = false) := by
  have key := scriptEqualsTokens_iff (h.tokens a) (h.tokens b)
  have main : scriptEquals h a b = true ↔
      ∃ k, (∀ j, j ≤ k → tokenAt (h.tokens a) j = tokenAt (h.tokens b) j)
        ∧ (tokenAt (h.tokens a) k).isTerminal = true
        ∧ (tokenAt (h.tokens b) k).isTerminal = true := by
    unfold scriptEquals
    rw [key]
    constructor
    · rintro ⟨k, hk, hkt⟩
      exact ⟨k, hk, hkt, (hk k (le_refl _)) ▸ hkt⟩
    · rintro ⟨k, hk, hkt, _⟩
      exact ⟨k, hk, hkt⟩
  refine ⟨main, ?_⟩
  rintro ⟨m, hm, hbefore⟩
  cases hres : scriptEquals h a b with
  | false => rfl
  | true =>
    obtain ⟨k, hk, hkt, _⟩ := main.mp hres
    rcases Nat.lt_or_ge k m with hlt | hge
    · have := (hbefore k hlt).2
      rw [hkt] at this
      cases this
    · exact absurd (hk m hge) hm

/-- Claim C14 at a concrete mismatch: the streams of `f(1)` and `f[1]` differ at
position 1 and agree without terminal before it. -/
theorem scriptEquals_iff_streams_agree_to_terminal_witness :
    (∃ m, tokenAt (scriptHost.tokens "f(1)".toList) m ≠ tokenAt (scriptHost.tokens "f[1]".toList) m
        ∧ ∀ i, i < m →
            tokenAt (scriptHost.tokens "f(1)".toList) i = tokenAt (scriptHost.tokens "f[1]".toList) i
            ∧ (tokenAt (scriptHost.tokens "f(1)".toList) i).isTerminal = false)
      ∧ scriptEquals scriptHost "f(1)".toList "f[1]".toList = false :=
  have hm : ∃ m, tokenAt (scriptHost.tokens "f(1)".toList) m
        ≠ tokenAt (scriptHost.tokens "f[1]".toList) m
      ∧ ∀ i, i < m →
          tokenAt (scriptHost.tokens "f(1)".toList) i = tokenAt (scriptHost.tokens "f[1]".toList) i
          ∧ (tokenAt (scriptHost.tokens "f(1)".toList) i).isTerminal = false :=
    ⟨1, by decide, fun i hi => by
      have : i = 0 := by omega
      subst this
      exact ⟨by decide, by decide⟩⟩
  ⟨hm, (scriptEquals_iff_streams_agree_to_terminal scriptHost "f(1)".toList "f[1]".toList).2 hm⟩

/-- Two sources with the same token kinds are script-equal, whatever the scanner. -/
theorem scriptEquals_of_tokens_eq (h : Host) (a b : List Char) (heq : h.tokens a = h.tokens b) :
    scriptEquals h a b = true := by
  have hlen : ∀ ts : List Token, tokenAt ts ts.length = Token.EOS := fun ts => by
    simp [tokenAt]
  refine (scriptEquals_iff_streams_agree_to_terminal h a b).1.mpr
    ⟨(h.tokens a).length, fun j _ => by rw [heq], ?_, ?_⟩
  · rw [hlen]
    rfl
  · rw [heq, hlen]
    rfl

/-- Claim C13, counterexample: with the pattern `f(1)` recorded for the script-class
attribute `onclick`, the value `g(1)` is accepted: `scriptEquals` sees the same token
kinds in both. -/
theorem script_attribute_accepts_renamed_call :
    scriptEquals scriptHost "f(1)".toList "g(1)".toList = true
      ∧ attributeEquals scriptHost (some ['e']) plainAnchor "onclick".toList
          (some "f(1)".toList) (some "g(1)".toList) = true := by
  decide

/-- Claim C13, amended: for the script-class attribute `onclick` recorded with the value
`f(1)`, `attributeEquals` accepts the whitespace variant `f ( 1 )` and also `g(1)`, whose
token kinds (identifier, `(`, number, `)`) are those of `f(1)`, and rejects `f[1]`, whose
token kinds differ. -/
theorem script_attribute_compares_token_kinds :
    specTokens "f(1)".toList
        = [Token.IDENTIFIER, Token.punctuator '(', Token.SMI, Token.punctuator ')']
      ∧ specTokens "f ( 1 )".toList = specTokens "f(1)".toList
      ∧ specTokens "g(1)".toList = specTokens "f(1)".toList
      ∧ shouldMonitorAttribute scriptHost plainAnchor "onclick".toList = true
      ∧ isScriptAttribute plainAnchor "onclick".toList = true
      ∧ attributeEquals scriptHost (some ['e']) plainAnchor "onclick".toList
          (some "f(1)".toList) (some "f ( 1 )".toList) = true
      ∧ attributeEquals scriptHost (some ['e']) plainAnchor "onclick".toList
          (some "f(1)".toList) (some "g(1)".toList) = true
      ∧ attributeEquals scriptHost (some ['e']) plainAnchor "onclick".toList
          (some "f(1)".toList) (some "f[1]".toList) = false := by
  decide

/-- More fuel than the characters left never changes the result of the scanner loop: the
fuel given by `specTokens` is never used up. -/
theorem specScanLoop_fuel :
    ∀ (f1 f2 : Nat) (source : List Char), source.length < f1 → source.length < f2 →
      specScanLoop f1 source = specScanLoop f2 source := by
  intro f1
  induction f1 with
  | zero => intro f2 source h1; omega
  | succ n ih =>
    intro f2 source h1 h2
    cases f2 with
    | zero => omega
    | succ m =>
      cases source with
      | nil => rfl
      | cons c rest =>
        have hrest : rest.length < n ∧ rest.length < m := by
          simp only [List.length_cons] at h1 h2
          omega
        have hdrop : ∀ p : Char → Bool,
            (rest.dropWhile p).length < n ∧ (rest.dropWhile p).length < m := fun p =>
          ⟨Nat.lt_of_le_of_lt (List.dropWhile_sublist p).length_le hrest.1,
            Nat.lt_of_le_of_lt (List.dropWhile_sublist p).length_le hrest.2⟩
        simp only [specScanLoop]
        rw [ih m rest hrest.1 hrest.2,
          ih m (rest.dropWhile isIdentifierPartChar) (hdrop _).1 (hdrop _).2,
          ih m (rest.dropWhile Char.isDigit) (hdrop _).1 (hdrop _).2]
        cases hq : rest.dropWhile (fun d => d != c) with
        | nil => rfl
        | cons d after =>
          have hlen := hdrop (fun d => d != c)
          rw [hq, List.length_cons] at hlen
          dsimp only
          rw [ih m after (by omega) (by omega)]

/-! ## URL equivalence -/

/-- Claim C16: against a subject URL that is not valid, both forms of `urlEquals` are
true for every pattern URL and every list of pattern URLs, the empty list included. -/
theorem urlEquals_invalid_subject (h : Host) (url_constraint : KURL)
    (url_constraints : List KURL) (new_url : KURL) (hinvalid : new_url.isValid = false) :
    urlEquals h url_constraint new_url = true
      ∧ urlEqualsList h url_constraints new_url = true
      ∧ urlEqualsList h [] new_url = true := by
  simp [urlEquals, urlEqualsList, hinvalid]

/-- Claim C16 at the null URL as subject. -/
theorem urlEquals_invalid_subject_witness :
    KURL.null.isValid = false
      ∧ urlEquals plainHost cdnUrlA KURL.null = true
      ∧ urlEqualsList plainHost [cdnUrlA] KURL.null = true
      ∧ urlEqualsList plainHost [] KURL.null = true :=
  ⟨rfl, urlEquals_invalid_subject plainHost cdnUrlA [cdnUrlA] KURL.null rfl⟩

/-! ## Identifier equivalence -/

/-- Claim C17: `idEquals` is true iff `stringEquals` accepts the subject for the pattern,
or the mode string is longer than one character and some non-empty piece between spaces
of the mode without its first character starts both the pattern and the subject; for a
mode of at most one character `idEquals` is `stringEquals`. -/
theorem idEquals_iff (p s : AtomicString) (m : List Char) :
    (idEquals p s m = true ↔
      stringEquals p.getString 0 s.getString 0 = true
        ∨ (m.length > 1
            ∧ ∃ q ∈ (m.drop 1).splitOn ' ', q ≠ [] ∧ q <+: p.getString ∧ q <+: s.getString))
    ∧ (m.length ≤ 1 → idEquals p s m = stringEquals p.getString 0 s.getString 0) := by
  constructor
  · unfold idEquals splitSpaces
    by_cases hm : m.length > 1
    · simp only [hm, if_true, Bool.or_eq_true, List.any_eq_true, List.mem_filter,
        Bool.and_eq_true, List.isPrefixOf_iff_prefix, Bool.not_eq_true', List.isEmpty_eq_false,
        true_and]
      constructor
      · rintro (⟨q, ⟨hq, hne⟩, hp, hs⟩ | hse)
        · exact Or.inr ⟨q, hq, hne, hp, hs⟩
        · exact Or.inl hse
      · rintro (hse | ⟨q, hq, hne, hp, hs⟩)
        · exact Or.inr hse
        · exact Or.inl ⟨q, ⟨hq, hne⟩, hp, hs⟩
    · simp only [hm, if_false, Bool.false_or, false_and, or_false]
  · intro hm
    have : ¬ m.length > 1 := by omega
    unfold idEquals
    simp only [this, if_false, Bool.false_or]

/-- Claim C17 at the mode `r`, which lists no piece: `idEquals` is `stringEquals`. -/
theorem idEquals_iff_witness :
    ['r'].length ≤ 1
      ∧ idEquals (some "item-*".toList) (some "item-42".toList) ['r']
          = stringEquals "item-*".toList 0 "item-42".toList 0 :=
  ⟨by decide, (idEquals_iff (some "item-*".toList) (some "item-42".toList) ['r']).2 (by decide)⟩

/-! ## Locating a node -/

/-- A chain that ends in an element has an element ancestor. -/
theorem elementAncestors_ne_nil_of_getLast (l : List Ancestor) (d : ElementData)
    (hl : l.getLast? = some (.element d)) : elementAncestors l ≠ [] := by
  induction l with
  | nil => simp at hl
  | cons a rest ih =>
    cases a with
    | element e => simp [elementAncestors]
    | documentFragment ua =>
      cases rest with
      | nil => simp at hl
      | cons b rest2 =>
        have : (b :: rest2).getLast? = some (.element d) := by
          simpa [List.getLast?_cons_cons] using hl
        simpa [elementAncestors] using ih this

/-- On a walk whose deepest node is an element the loop of `locateNodeInShadowTree`
classifies as the specification does. -/
theorem locateLoop_eq_locateSpecWalk (h : Host) (frame_mode : Option (List Char)) :
    ∀ (l : List Ancestor), (l = [] ∨ ∃ d, l.getLast? = some (.element d)) →
      ∀ shadow_ptr : Node,
        locateLoop h frame_mode l shadow_ptr
          = locateSpecWalk h frame_mode (elementAncestors l) shadow_ptr := by
  intro l
  induction l with
  | nil => intro _ sp; rfl
  | cons a rest ih =>
    intro hl sp
    have hrest : rest = [] ∨ ∃ d, rest.getLast? = some (.element d) := by
      cases rest with
      | nil => exact Or.inl rfl
      | cons b rest2 =>
        right
        rcases hl with hnil | ⟨d, hd⟩
        · cases hnil
        · exact ⟨d, by simpa [List.getLast?_cons_cons] using hd⟩
    cases a with
    | documentFragment ua =>
      have hne : rest ≠ [] := by
        rintro rfl
        rcases hl with hnil | ⟨d, hd⟩
        · cases hnil
        · simp at hd
      simp only [locateLoop, elementAncestors]
      exact ih hrest sp
    | element e =>
      simp only [locateLoop, elementAncestors, locateSpecWalk]
      cases hfind : findShadowSibling h frame_mode e sp.children 0 with
      | none => rfl
      | some found =>
        obtain ⟨i, fd, fch⟩ := found
        simp only
        by_cases hw : fd.getAttribute "dtt-whitelist".toList ≠ none
        · by_cases hr : rest = []
          · subst hr
            simp only [hw, ne_eq, not_true_eq_false, if_true, if_false, elementAncestors,
              and_false, locateSpecWalk, not_false_eq_true]
          · have hdeep : elementAncestors rest ≠ [] := by
              rcases hrest with hnil | ⟨d, hd⟩
              · exact absurd hnil hr
              · exact elementAncestors_ne_nil_of_getLast rest d hd
            simp only [hw, hr, hdeep, ne_eq, not_false_eq_true, if_true, and_self]
        · simp only [hw, if_false, false_and]
          exact ih hrest _

/-- For a node that is an element, and for a node that is its own topmost ancestor,
`locateNodeInShadowTree` classifies as the specification does. -/
theorem locateNodeInShadowTree_eq_locateSpec_of_element (h : Host)
    (frame_mode : Option (List Char)) (dom_constraint : Node) (node : NodePosition)
    (hnode : node.chain = [] ∨ ∃ d, node.chain.head? = some (.element d)) :
    locateNodeInShadowTree h frame_mode dom_constraint node
      = locateSpec h frame_mode dom_constraint node := by
  unfold locateNodeInShadowTree locateSpec
  have hl : node.chain.reverse = [] ∨ ∃ d, node.chain.reverse.getLast? = some (.element d) := by
    rcases hnode with hnil | ⟨d, hd⟩
    · exact Or.inl (by simp [hnil])
    · exact Or.inr ⟨d, by simpa using hd⟩
  rw [locateLoop_eq_locateSpecWalk h frame_mode _ hl]

/-- Claim C18, failing input: the node is the author shadow root of a `<div>` under the
body, and the shadow document holds `<HTML><BODY><DIV dtt-whitelist="">`.  The `<div>` is
the deepest element ancestor and is matched by the whitelisted shadow, so the
classification is `Found`; `locateNodeInShadowTree` counts the shadow root below the
`<div>` and returns `WhitelistMatch`.  For the `<div>` itself as the node it returns
`Found`. -/
theorem locateNodeInShadowTree_whitelisted_host_of_shadow_root :
    (elementAncestors shadowRootOfDiv.chain.reverse).getLast? = some plainDiv
      ∧ (locateSpec plainHost (some ['e']) shadowDocWhitelistDiv shadowRootOfDiv).1 = .Found
      ∧ (locateNodeInShadowTree plainHost (some ['e']) shadowDocWhitelistDiv shadowRootOfDiv).1
          = .WhitelistMatch
      ∧ (locateNodeInShadowTree plainHost (some ['e']) shadowDocWhitelistDiv divUnderBody).1
          = .Found := by
  decide

/-! ## Enforce-mode verdicts of the hooks -/

/-- The loop of `locateNodeInShadowTree` never reports `RootIsNotDocument`; it returns a
shadow node with `Found` and `WhitelistMatch` and none with `NotFound`.  The shadow node
is an element when the walk starts at an element or ends at one. -/
theorem locateLoop_shadow (h : Host) (frame_mode : Option (List Char)) :
    ∀ (l : List Ancestor) (shadow_ptr : Node),
      (locateLoop h frame_mode l shadow_ptr).1 ≠ .RootIsNotDocument
      ∧ ((locateLoop h frame_mode l shadow_ptr).1 = .NotFound →
          (locateLoop h frame_mode l shadow_ptr).2 = none)
      ∧ ((locateLoop h frame_mode l shadow_ptr).1 ≠ .NotFound →
          ∃ s, (locateLoop h frame_mode l shadow_ptr).2 = some s
            ∧ (((∃ d ch, shadow_ptr = .element d ch) ∨ ∃ d, l.getLast? = some (.element d)) →
                ∃ d ch, s = .element d ch)) := by
  intro l
  induction l with
  | nil =>
    intro sp
    refine ⟨by simp [locateLoop], by simp [locateLoop], fun _ => ⟨sp, rfl, ?_⟩⟩
    rintro (hsp | ⟨d, hd⟩)
    · exact hsp
    · simp at hd
  | cons a rest ih =>
    intro sp
    cases a with
    | documentFragment ua =>
      simp only [locateLoop]
      obtain ⟨h1, h2, h3⟩ := ih sp
      refine ⟨h1, h2, fun hne => ?_⟩
      obtain ⟨s, hs, hel⟩ := h3 hne
      refine ⟨s, hs, ?_⟩
      rintro (hsp | ⟨d, hd⟩)
      · exact hel (Or.inl hsp)
      · cases rest with
        | nil => simp at hd
        | cons b rest2 =>
          exact hel (Or.inr ⟨d, by simpa [List.getLast?_cons_cons] using hd⟩)
    | element e =>
      simp only [locateLoop]
      cases hfind : findShadowSibling h frame_mode e sp.children 0 with
      | none => simp
      | some found =>
        obtain ⟨i, fd, fch⟩ := found
        dsimp only
        by_cases hw : fd.getAttribute "dtt-whitelist".toList ≠ none
        · by_cases hr : rest ≠ []
          · have e : (if fd.getAttribute "dtt-whitelist".toList ≠ none then
                  if rest ≠ [] then
                    (ShadowTreeMatchResult.WhitelistMatch, some (Node.element fd fch))
                  else (ShadowTreeMatchResult.Found, some (Node.element fd fch))
                else locateLoop h frame_mode rest (Node.element fd fch))
                = (ShadowTreeMatchResult.WhitelistMatch, some (Node.element fd fch)) := by
              rw [if_pos hw, if_pos hr]
            show _ ∧ _ ∧ _
            rw [e]
            exact ⟨by simp, by simp, fun _ => ⟨_, rfl, fun _ => ⟨fd, fch, rfl⟩⟩⟩
          · have e : (if fd.getAttribute "dtt-whitelist".toList ≠ none then
                  if rest ≠ [] then
                    (ShadowTreeMatchResult.WhitelistMatch, some (Node.element fd fch))
                  else (ShadowTreeMatchResult.Found, some (Node.element fd fch))
                else locateLoop h frame_mode rest (Node.element fd fch))
                = (ShadowTreeMatchResult.Found, some (Node.element fd fch)) := by
              rw [if_pos hw, if_neg hr]
            show _ ∧ _ ∧ _
            rw [e]
            exact ⟨by simp, by simp, fun _ => ⟨_, rfl, fun _ => ⟨fd, fch, rfl⟩⟩⟩
        · have e : (if fd.getAttribute "dtt-whitelist".toList ≠ none then
                if rest ≠ [] then
                  (ShadowTreeMatchResult.WhitelistMatch, some (Node.element fd fch))
                else (ShadowTreeMatchResult.Found, some (Node.element fd fch))
              else locateLoop h frame_mode rest (Node.element fd fch))
              = locateLoop h frame_mode rest (Node.element fd fch) := by
            rw [if_neg hw]
          show _ ∧ _ ∧ _
          rw [e]
          obtain ⟨h1, h2, h3⟩ := ih (.element fd fch)
          refine ⟨h1, h2, fun hne => ?_⟩
          obtain ⟨s, hs, hel⟩ := h3 hne
          exact ⟨s, hs, fun _ => hel (Or.inl ⟨fd, fch, rfl⟩)⟩

/-- The results of `locateNodeInShadowTree`: a shadow node comes with `Found` and
`WhitelistMatch` only, and it is an element when the located node is an element. -/
theorem locateNodeInShadowTree_shadow (h : Host) (frame_mode : Option (List Char))
    (dom_constraint : Node) (node : NodePosition) :
    ((locateNodeInShadowTree h frame_mode dom_constraint node).1 = .Found
        ∨ (locateNodeInShadowTree h frame_mode dom_constraint node).1 = .WhitelistMatch →
      ∃ s, (locateNodeInShadowTree h frame_mode dom_constraint node).2 = some s
        ∧ ((∃ d, node.chain.head? = some (.element d)) → ∃ d ch, s = .element d ch)) := by
  unfold locateNodeInShadowTree
  by_cases hroot : node.root.isDocument = true
  · simp only [hroot, Bool.not_true, Bool.false_eq_true, if_false]
    intro hres
    obtain ⟨_, _, h3⟩ := locateLoop_shadow h frame_mode node.chain.reverse dom_constraint
    have hne : (locateLoop h frame_mode node.chain.reverse dom_constraint).1 ≠ .NotFound := by
      rcases hres with hf | hf <;> rw [hf] <;> decide
    obtain ⟨s, hs, hel⟩ := h3 hne
    refine ⟨s, hs, ?_⟩
    rintro ⟨d, hd⟩
    exact hel (Or.inr ⟨d, by simpa using hd⟩)
  · have hroot' := eq_false_of_ne_true hroot
    simp [hroot']

/-- Claim C19: in enforce mode, with a window, outside user-agent shadow roots and while
the document is not being parsed, the `allowed` flag of `WillInsertDOMNodeExtended` is
true if locating the parent gives `RootIsNotDocument`, is
`hasMatchingSubtreeInShadowTree(node, shadow)` if it gives `Found`, is
`matchesNodeWhitelistInShadowTree(node, shadow)` if it gives `WhitelistMatch`, and is false
if it gives `NotFound`; the hook returns and leaves the shadow document as it was. -/
theorem WillInsertDOMNodeExtended_enforce_verdict (h : Host) (frame : FrameState)
    (parent : NodePosition) (node : Node)
    (hwindow : frame.has_dom_window = true)
    (hua : isDescendantOfUserAgentShadowRoot parent = false)
    (hparsing : frame.is_parsing = false)
    (hmode : frame.dom_constraint_mode.head? = some 'e') :
    ((locateNodeInShadowTree h (some frame.dom_constraint_mode) frame.dom_constraint parent).1
        = .RootIsNotDocument →
      (WillInsertDOMNodeExtended h frame parent node).allowed = true)
    ∧ ((locateNodeInShadowTree h (some frame.dom_constraint_mode) frame.dom_constraint parent).1
        = .Found →
      ∃ shadow,
        (locateNodeInShadowTree h (some frame.dom_constraint_mode) frame.dom_constraint parent).2
          = some shadow
        ∧ (WillInsertDOMNodeExtended h frame parent node).allowed
          = hasMatchingSubtreeInShadowTree h (some frame.dom_constraint_mode) node shadow)
    ∧ ((locateNodeInShadowTree h (some frame.dom_constraint_mode) frame.dom_constraint parent).1
        = .WhitelistMatch →
      ∃ shadow,
        (locateNodeInShadowTree h (some frame.dom_constraint_mode) frame.dom_constraint parent).2
          = some shadow
        ∧ (WillInsertDOMNodeExtended h frame parent node).allowed
          = matchesNodeWhitelistInShadowTree h (some frame.dom_constraint_mode) node shadow)
    ∧ ((locateNodeInShadowTree h (some frame.dom_constraint_mode) frame.dom_constraint parent).1
        = .NotFound →
      (WillInsertDOMNodeExtended h frame parent node).allowed = false)
    ∧ (WillInsertDOMNodeExtended h frame parent node).null_dereference = false
    ∧ (WillInsertDOMNodeExtended h frame parent node).dom_constraint = frame.dom_constraint := by
  have hnotr : ¬ frame.dom_constraint_mode.head? = some 'r' := by
    rw [hmode]
    decide
  have hshadow := locateNodeInShadowTree_shadow h (some frame.dom_constraint_mode)
    frame.dom_constraint parent
  unfold WillInsertDOMNodeExtended
  simp only [hwindow, hua, hparsing, hnotr, hmode, Bool.not_true, Bool.false_eq_true, if_false,
    if_true]
  rcases hloc : locateNodeInShadowTree h (some frame.dom_constraint_mode)
    frame.dom_constraint parent with ⟨result, shadow⟩
  rw [hloc] at hshadow
  cases result with
  | RootIsNotDocument => simp
  | NotFound => simp
  | Found =>
    obtain ⟨s, hs, _⟩ := hshadow (Or.inl rfl)
    simp only at hs
    subst hs
    simp
  | WhitelistMatch =>
    obtain ⟨s, hs, _⟩ := hshadow (Or.inr rfl)
    simp only at hs
    subst hs
    simp

/-- Claim C19 at the insertion of `<div id="a">` under the body, whose shadow is found. -/
theorem WillInsertDOMNodeExtended_enforce_verdict_witness :
    enforceFrame.has_dom_window = true
      ∧ isDescendantOfUserAgentShadowRoot bodyPosition = false
      ∧ enforceFrame.is_parsing = false
      ∧ enforceFrame.dom_constraint_mode.head? = some 'e'
      ∧ (locateNodeInShadowTree plainHost (some enforceFrame.dom_constraint_mode)
          enforceFrame.dom_constraint bodyPosition).1 = .Found
      ∧ (WillInsertDOMNodeExtended plainHost enforceFrame bodyPosition (.element liveDivA [])).allowed
          = true
      ∧ (WillInsertDOMNodeExtended plainHost enforceFrame bodyPosition
          (.element liveDivA [])).null_dereference = false :=
  ⟨rfl, rfl, rfl, rfl, by decide, by decide,
    (WillInsertDOMNodeExtended_enforce_verdict plainHost enforceFrame bodyPosition
      (.element liveDivA []) rfl rfl rfl rfl).2.2.2.2.1⟩

/-- Claim C20: in enforce mode, with a window and outside user-agent shadow roots, the
`allowed` flag of `WillModifyDOMAttrExtended` is true when the attribute is not monitored;
for a monitored attribute it is true if locating the element gives `RootIsNotDocument`, is
the result of `attributeEquals(element, name, pattern of the shadow for name, new value)`
if it gives `Found`, is the result of
`matchesAttributeWhitelistInShadowTree(element, name, new value, shadow)` if it gives
`WhitelistMatch`, and is false if it gives `NotFound`.  The hook returns in each of these
cases, with two exceptions that the theorem states: where the call of `attributeEquals`
or of `matchesAttributeWhitelistInShadowTree` has no result (it stops in `scriptEquals`
at the null value of a removed event handler) the hook stops there too, and after
`NotFound` the rejection record reads the null shadow pointer when `LOG(INFO)` is on. -/
theorem WillModifyDOMAttrExtended_enforce_verdict (h : Host) (frame : FrameState)
    (element : ElementData) (parents : List Ancestor) (root : RootKind) (name : List Char)
    (old_value new_value : AtomicString)
    (hwindow : frame.has_dom_window = true)
    (hua : isDescendantOfUserAgentShadowRoot (elementPosition element parents root) = false)
    (hmode : frame.dom_constraint_mode.head? = some 'e') :
    (shouldMonitorAttribute h element name = false →
      (WillModifyDOMAttrExtended h frame element parents root name old_value new_value).allowed
          = true
        ∧ (WillModifyDOMAttrExtended h frame element parents root name old_value
            new_value).null_dereference = false)
    ∧ (shouldMonitorAttribute h element name = true →
      ((locateNodeInShadowTree h (some frame.dom_constraint_mode) frame.dom_constraint
          (elementPosition element parents root)).1 = .RootIsNotDocument →
        (WillModifyDOMAttrExtended h frame element parents root name old_value new_value).allowed
            = true
          ∧ (WillModifyDOMAttrExtended h frame element parents root name old_value
              new_value).null_dereference = false)
      ∧ ((locateNodeInShadowTree h (some frame.dom_constraint_mode) frame.dom_constraint
          (elementPosition element parents root)).1 = .Found →
        ∃ shadow_element shadow_children,
          (locateNodeInShadowTree h (some frame.dom_constraint_mode) frame.dom_constraint
            (elementPosition element parents root)).2
            = some (.element shadow_element shadow_children)
          ∧ (∀ verdict : Bool,
              attributeEqualsChecked h (some frame.dom_constraint_mode) element name
                  (shadow_element.getAttribute name) new_value = some verdict →
                (WillModifyDOMAttrExtended h frame element parents root name old_value
                    new_value).allowed = verdict
                  ∧ (WillModifyDOMAttrExtended h frame element parents root name old_value
                      new_value).null_dereference = false)
          ∧ (attributeEqualsChecked h (some frame.dom_constraint_mode) element name
                (shadow_element.getAttribute name) new_value = none →
              (WillModifyDOMAttrExtended h frame element parents root name old_value
                new_value).null_dereference = true))
      ∧ ((locateNodeInShadowTree h (some frame.dom_constraint_mode) frame.dom_constraint
          (elementPosition element parents root)).1 = .WhitelistMatch →
        ∃ shadow,
          (locateNodeInShadowTree h (some frame.dom_constraint_mode) frame.dom_constraint
            (elementPosition element parents root)).2 = some shadow
          ∧ (∀ verdict : Bool,
              matchesAttributeWhitelistInShadowTreeChecked h (some frame.dom_constraint_mode)
                  element name new_value shadow = some verdict →
                (WillModifyDOMAttrExtended h frame element parents root name old_value
                    new_value).allowed = verdict
                  ∧ (WillModifyDOMAttrExtended h frame element parents root name old_value
                      new_value).null_dereference = false)
          ∧ (matchesAttributeWhitelistInShadowTreeChecked h (some frame.dom_constraint_mode)
                element name new_value shadow = none →
              (WillModifyDOMAttrExtended h frame element parents root name old_value
                new_value).null_dereference = true))
      ∧ ((locateNodeInShadowTree h (some frame.dom_constraint_mode) frame.dom_constraint
          (elementPosition element parents root)).1 = .NotFound →
        (WillModifyDOMAttrExtended h frame element parents root name old_value new_value).allowed
          = false
        ∧ (WillModifyDOMAttrExtended h frame element parents root name old_value
            new_value).null_dereference = frame.log_info_is_on)) := by
  have hnotr : ¬ frame.dom_constraint_mode.head? = some 'r' := by
    rw [hmode]
    decide
  have hshadow := locateNodeInShadowTree_shadow h (some frame.dom_constraint_mode)
    frame.dom_constraint (elementPosition element parents root)
  constructor
  · intro hmon
    unfold WillModifyDOMAttrExtended
    simp only [hwindow, hua, hmon, Bool.not_true, Bool.not_false, Bool.false_eq_true, if_false,
      if_true, and_self]
  · intro hmon
    unfold WillModifyDOMAttrExtended
    simp only [hwindow, hua, hmon, hnotr, hmode, Bool.not_true, Bool.false_eq_true, if_false,
      if_true]
    rcases hloc : locateNodeInShadowTree h (some frame.dom_constraint_mode)
      frame.dom_constraint (elementPosition element parents root) with ⟨result, shadow⟩
    rw [hloc] at hshadow
    cases result with
    | RootIsNotDocument => simp
    | NotFound => simp
    | Found =>
      obtain ⟨s, hs, hel⟩ := hshadow (Or.inl rfl)
      obtain ⟨d, ch, hd⟩ := hel ⟨element, rfl⟩
      simp only at hs
      subst hs
      subst hd
      cases hresult : attributeEqualsChecked h (some frame.dom_constraint_mode) element name
          (d.getAttribute name) new_value <;> simp [hresult]
    | WhitelistMatch =>
      obtain ⟨s, hs, hel⟩ := hshadow (Or.inr rfl)
      obtain ⟨d, ch, hd⟩ := hel ⟨element, rfl⟩
      simp only at hs
      subst hs
      subst hd
      cases hresult : matchesAttributeWhitelistInShadowTreeChecked h
          (some frame.dom_constraint_mode) element name new_value (.element d ch)
        <;> simp [hresult]

/-- Claim C20 at the attribute `onclick` of the live `<div id="a" onclick="f(1)">` under
the body, whose shadow is found and stores the pattern `f(1)`: the change to `g(2)`, a
script with the same token kinds, is allowed and the hook returns; at the removal of the
attribute (null new value) `attributeEquals` has no result and the hook stops. -/
theorem WillModifyDOMAttrExtended_enforce_verdict_witness :
    enforceOnclickFrame.has_dom_window = true
      ∧ isDescendantOfUserAgentShadowRoot (elementPosition liveDivOnclick bodyParents .ownDocument)
          = false
      ∧ enforceOnclickFrame.dom_constraint_mode.head? = some 'e'
      ∧ shouldMonitorAttribute scriptHost liveDivOnclick "onclick".toList = true
      ∧ locateNodeInShadowTree scriptHost (some enforceOnclickFrame.dom_constraint_mode)
          enforceOnclickFrame.dom_constraint
          (elementPosition liveDivOnclick bodyParents .ownDocument)
          = (.Found, some (.element shadowDivOnclick []))
      ∧ attributeEqualsChecked scriptHost (some enforceOnclickFrame.dom_constraint_mode)
          liveDivOnclick "onclick".toList (shadowDivOnclick.getAttribute "onclick".toList)
          (some "g(2)".toList) = some true
      ∧ ((WillModifyDOMAttrExtended scriptHost enforceOnclickFrame liveDivOnclick bodyParents
            .ownDocument "onclick".toList (some "f(1)".toList) (some "g(2)".toList)).allowed
            = true
        ∧ (WillModifyDOMAttrExtended scriptHost enforceOnclickFrame liveDivOnclick bodyParents
            .ownDocument "onclick".toList (some "f(1)".toList)
            (some "g(2)".toList)).null_dereference = false)
      ∧ attributeEqualsChecked scriptHost (some enforceOnclickFrame.dom_constraint_mode)
          liveDivOnclick "onclick".toList (shadowDivOnclick.getAttribute "onclick".toList)
          none = none
      ∧ (WillModifyDOMAttrExtended scriptHost enforceOnclickFrame liveDivOnclick bodyParents
          .ownDocument "onclick".toList (some "f(1)".toList) none).null_dereference = true := by
  have hlocate : locateNodeInShadowTree scriptHost (some enforceOnclickFrame.dom_constraint_mode)
      enforceOnclickFrame.dom_constraint
      (elementPosition liveDivOnclick bodyParents .ownDocument)
      = (.Found, some (.element shadowDivOnclick [])) := rfl
  have hchange : attributeEqualsChecked scriptHost (some enforceOnclickFrame.dom_constraint_mode)
      liveDivOnclick "onclick".toList (shadowDivOnclick.getAttribute "onclick".toList)
      (some "g(2)".toList) = some true := by decide
  have hremoval : attributeEqualsChecked scriptHost (some enforceOnclickFrame.dom_constraint_mode)
      liveDivOnclick "onclick".toList (shadowDivOnclick.getAttribute "onclick".toList)
      none = none := by decide
  refine ⟨rfl, rfl, rfl, by decide, hlocate, hchange, ?_, hremoval, ?_⟩
  · obtain ⟨shadow_element, shadow_children, hshadow, hverdict, _⟩ :=
      ((WillModifyDOMAttrExtended_enforce_verdict scriptHost enforceOnclickFrame liveDivOnclick
        bodyParents .ownDocument "onclick".toList (some "f(1)".toList) (some "g(2)".toList)
        rfl rfl rfl).2 (by decide)).2.1 (by rw [hlocate])
    rw [hlocate] at hshadow
    simp only [Option.some.injEq, Node.element.injEq] at hshadow
    obtain ⟨hdata, _⟩ := hshadow
    subst hdata
    exact hverdict true hchange
  · obtain ⟨shadow_element, shadow_children, hshadow, _, hstops⟩ :=
      ((WillModifyDOMAttrExtended_enforce_verdict scriptHost enforceOnclickFrame liveDivOnclick
        bodyParents .ownDocument "onclick".toList (some "f(1)".toList) none
        rfl rfl rfl).2 (by decide)).2.1 (by rw [hlocate])
    rw [hlocate] at hshadow
    simp only [Option.some.injEq, Node.element.injEq] at hshadow
    obtain ⟨hdata, _⟩ := hshadow
    subst hdata
    exact hstops hremoval

/-! ## Absent patterns and absent values -/

/-- The verdict of an attribute class over alternatives reads an absent value like the
empty value, for every attribute that is `id`, `dtt-id`, a script attribute or not a URL
attribute. -/
theorem classVerdict_absent_value (h : Host) (mode : List Char) (element : ElementData)
    (n : List Char) (urls : List KURL) (alternatives : List (List Char))
    (hclass : (n == "dtt-id".toList || n == "id".toList) = true
      ∨ isScriptAttribute element n = true ∨ isURLAttribute h element n = false) :
    classVerdict h mode element n none urls alternatives
      = classVerdict h mode element n (some []) urls alternatives := by
  unfold classVerdict
  by_cases hid : (n == "dtt-id".toList || n == "id".toList) = true
  · rw [if_pos hid, if_pos hid]
    rfl
  · rw [if_neg hid, if_neg hid]
    by_cases hs : isScriptAttribute element n = true
    · rw [if_pos hs, if_pos hs]
      rfl
    · rw [if_neg hs, if_neg hs]
      rcases hclass with hc | hc | hc
      · exact absurd hc hid
      · exact absurd hc hs
      · have hu : ¬ isURLAttribute h element n = true := by
          rw [hc]
          decide
        rw [if_neg hu, if_neg hu]
        rfl

/-- Claim C27, failing input: the present-but-empty pattern `""` of the plain attribute
`title` and an absent (null) value.  `attributeEquals` returns true: it tests for null on
the stored pattern only, and with a present pattern the null value goes to `stringEquals`
as a string of length 0.  The same holds for `id`, and the pattern `*` accepts the absent
value too.  The branch for a null pattern does tell the two apart: a null pattern
refuses the empty value. -/
theorem attributeEquals_empty_pattern_accepts_absent_value :
    attributeEqualsChecked plainHost none plainDiv "title".toList (some []) none = some true
      ∧ attributeEquals plainHost none plainDiv "title".toList (some []) none = true
      ∧ attributeEqualsChecked plainHost none plainDiv "id".toList (some []) none = some true
      ∧ attributeEqualsChecked plainHost none plainDiv "title".toList (some ['*']) none
          = some true
      ∧ attributeEqualsChecked plainHost none plainDiv "title".toList none (some [])
          = some false := by
  refine ⟨by decide, by decide, by decide, by decide, by decide⟩

/-- The value of `attributeEquals` for an absent pattern and for an absent value, for an
attribute that is not a script attribute: an absent pattern accepts only an absent
value; a present pattern reads an absent value as the empty string: for `id`, `dtt-id`
and every attribute that is not a URL attribute it accepts the absent value exactly when
it accepts the empty value, and for a URL attribute every present pattern accepts the
absent value. -/
theorem attributeEquals_absent_value (h : Host) (frame_mode : Option (List Char))
    (element : ElementData) (attribute_name : List Char)
    (hscript : isScriptAttribute element attribute_name = false) :
    (∀ attribute_value : AtomicString,
        attributeEquals h frame_mode element attribute_name none attribute_value = true
          ↔ attribute_value = none)
    ∧ (∀ pattern : List Char,
        attributeEquals h frame_mode element attribute_name (some pattern) none
          = if (attribute_name == "dtt-id".toList || attribute_name == "id".toList) = true
                ∨ isURLAttribute h element attribute_name = false then
              attributeEquals h frame_mode element attribute_name (some pattern) (some [])
            else true)
    ∧ attributeEquals h frame_mode element attribute_name (some []) none = true := by
  have hs : ¬ isScriptAttribute element attribute_name = true := by
    rw [hscript]
    decide
  have hsplit : ∀ (pattern : List Char) (v : AtomicString),
      attributeEquals h frame_mode element attribute_name (some pattern) v
        = classVerdict h (frame_mode.getD "r".toList) element attribute_name v []
            (splitAlternativesFrom pattern []) := by
    intro pattern v
    rw [← attributeEqualsLoop_verdict h (frame_mode.getD "r".toList) element attribute_name v
      pattern.length pattern [] [] (le_refl _)]
    rfl
  have hsecond : ∀ pattern : List Char,
      attributeEquals h frame_mode element attribute_name (some pattern) none
        = if (attribute_name == "dtt-id".toList || attribute_name == "id".toList) = true
              ∨ isURLAttribute h element attribute_name = false then
            attributeEquals h frame_mode element attribute_name (some pattern) (some [])
          else true := by
    intro pattern
    by_cases hc : (attribute_name == "dtt-id".toList || attribute_name == "id".toList) = true
        ∨ isURLAttribute h element attribute_name = false
    · rw [if_pos hc, hsplit, hsplit]
      apply classVerdict_absent_value
      rcases hc with hc | hc
      · exact Or.inl hc
      · exact Or.inr (Or.inr hc)
    · rw [if_neg hc, hsplit]
      have hid : ¬ (attribute_name == "dtt-id".toList || attribute_name == "id".toList) = true :=
        fun e => hc (Or.inl e)
      have hu : isURLAttribute h element attribute_name = true := by
        cases hv : isURLAttribute h element attribute_name
        · exact absurd (Or.inr hv) hc
        · rfl
      unfold classVerdict
      rw [if_neg hid, if_neg hs, if_pos hu]
      rfl
  refine ⟨?_, hsecond, ?_⟩
  · intro attribute_value
    simp only [attributeEquals, decide_eq_true_eq]
  · rw [hsecond]
    split_ifs with hc
    · rw [hsplit]
      unfold classVerdict
      by_cases hid : (attribute_name == "dtt-id".toList || attribute_name == "id".toList) = true
      · rw [if_pos hid]
        simp only [splitAlternativesFrom, List.any_cons, List.any_nil, Bool.or_false]
        unfold idEquals
        have : stringEquals (AtomicString.getString (some [])) 0
            (AtomicString.getString (some [])) 0 = true := by decide
        rw [this, Bool.or_true]
      · rw [if_neg hid, if_neg hs]
        have hu : ¬ isURLAttribute h element attribute_name = true := by
          rcases hc with hc | hc
          · exact absurd hc hid
          · rw [hc]
            decide
        rw [if_neg hu]
        simp only [splitAlternativesFrom, List.any_cons, List.any_nil, Bool.or_false]
        decide
    · rfl

/-! ## Value lists -/

/-- Once the state is -1, `cssValueEquals` leaves it -1 whatever the two values are. -/
theorem cssValueEquals_matched_stays (h : Host) :
    ∀ (k : Nat) (shadow actual : CSSValue), sizeOf shadow ≤ k →
      cssValueEquals h shadow actual (-1) = -1 := by
  intro k
  induction k with
  | zero =>
    intro shadow actual hk
    cases shadow <;> simp at hk
  | succ k ih =>
    intro shadow actual hk
    cases shadow with
    | numericLiteral d =>
      cases actual <;> simp only [cssValueEquals]
      split_ifs <;> first | rfl | contradiction
    | uri u => cases actual <;> simp only [cssValueEquals, ite_self]
    | image u => cases actual <;> simp only [cssValueEquals, ite_self]
    | color c => cases actual <;> simp only [cssValueEquals]
    | other a b => simp only [cssValueEquals]
    | valueList kind sep items =>
      cases actual with
      | valueList akind asep aitems =>
        simp only [cssValueEquals]
        have hitems : ∀ (l m : List CSSValue), sizeOf l ≤ k →
            cssValueEqualsItems h l m (-1) = -1 := by
          intro l
          induction l with
          | nil => intro m _; simp only [cssValueEqualsItems]
          | cons a rest ihl =>
            intro m hl
            cases m with
            | nil => simp only [cssValueEqualsItems]
            | cons b mrest =>
              simp only [List.cons.sizeOf_spec] at hl
              simp only [cssValueEqualsItems]
              rw [ih a b (by omega)]
              simp only [ne_eq, not_true_eq_false, if_false]
              exact ihl mrest (by omega)
        simp only [CSSValue.valueList.sizeOf_spec] at hk
        split_ifs <;> first | rfl | exact hitems _ _ (by omega)
      | _ => simp only [cssValueEquals]

/-- For two value lists of the same kind, separator and length, `cssValueEquals` started in
the unresolved state reports a match exactly when the FIRST pair of items is a match;
the later pairs are compared in the state -1, which no comparison leaves. -/
theorem cssValueEquals_list_iff_first_item (h : Host) (kind separator : Nat)
    (a b : CSSValue) (shadow_rest actual_rest : List CSSValue)
    (hlen : shadow_rest.length = actual_rest.length) :
    cssValueEquals h (.valueList kind separator (a :: shadow_rest))
        (.valueList kind separator (b :: actual_rest)) 0 = -1
      ↔ cssValueEquals h a b 0 = -1 := by
  have hitems : ∀ (l m : List CSSValue), cssValueEqualsItems h l m (-1) = -1 := by
    intro l
    induction l with
    | nil => intro m; simp only [cssValueEqualsItems]
    | cons x rest ihl =>
      intro m
      cases m with
      | nil => simp only [cssValueEqualsItems]
      | cons y mrest =>
        simp only [cssValueEqualsItems]
        rw [cssValueEquals_matched_stays h (sizeOf x) x y (le_refl _)]
        simp only [ne_eq, not_true_eq_false, if_false]
        exact ihl mrest
  simp only [cssValueEquals, ne_eq, not_true_eq_false, if_false, if_true, List.length_cons, hlen,
    cssValueEqualsItems]
  by_cases hfirst : cssValueEquals h a b 0 = -1
  · simp only [hfirst, not_true_eq_false, if_false, hitems]
  · simp only [hfirst, not_false_eq_true, if_true]

/-- Claim C28, failing input: the value lists `7 1` (stored) and `7 9999`
(new), of the same kind, separator and length, are reported a match by `cssValueEquals`
started in the unresolved state 0, although their second items `1` and `9999` are not a
match on their own (the state they leave is 2, not -1). -/
theorem cssValueEquals_list_later_items_ignored :
    cssValueEquals plainHost (.valueList 0 0 [.numericLiteral 7, .numericLiteral 1])
        (.valueList 0 0 [.numericLiteral 7, .numericLiteral 9999]) 0 = -1
      ∧ cssValueEquals plainHost (.numericLiteral 7) (.numericLiteral 7) 0 = -1
      ∧ cssValueEquals plainHost (.numericLiteral 1) (.numericLiteral 9999) 0 = 2 := by
  refine ⟨?_, ?_, ?_⟩ <;> simp only [cssValueEquals, cssValueEqualsItems] <;> norm_num

/-! ## Property patterns -/

/-- The loop of `propertyEquals` followed by the comparison of the last alternative ends in
the state in which the comparison with the alternatives still to be split off ends. -/
theorem propertyEqualsLoop_alternativesState (h : Host) (property : Nat)
    (new_value : Option CSSValue) :
    ∀ (k : Nat) (rest b : List Char) (match_state : Int), rest.length ≤ k →
      (((match propertyEqualsLoop h property new_value rest false b match_state with
        | none => (-1 : Int)
        | some (unescaped_current_part, state) =>
          cssValueEqualsText h property unescaped_current_part new_value state)
        = -1)
      ↔ alternativesState h property new_value (splitAlternativesFrom rest b) match_state
          = -1) := by
  have base : ∀ (b : List Char) (match_state : Int) (e : Bool),
      ((match propertyEqualsLoop h property new_value [] e b match_state with
        | none => (-1 : Int)
        | some (unescaped_current_part, state) =>
          cssValueEqualsText h property unescaped_current_part new_value state)
        = -1)
      ↔ alternativesState h property new_value [b] match_state = -1 := by
    intro b match_state e
    simp only [propertyEqualsLoop, alternativesState]
    by_cases hs : cssValueEqualsText h property b new_value match_state = -1
    · simp only [hs, if_true]
    · simp only [hs, if_false]
  intro k
  induction k with
  | zero =>
    intro rest b match_state hk
    have : rest = [] := List.length_eq_zero.mp (by omega)
    subst this
    simpa only [splitAlternativesFrom] using base b match_state false
  | succ k ih =>
    intro rest b match_state hk
    match rest, hk with
    | [], _ => simpa only [splitAlternativesFrom] using base b match_state false
    | c :: rest, hk =>
      have hk1 : rest.length ≤ k := by simpa using hk
      by_cases hb : c = '\\'
      · subst hb
        match rest, hk1 with
        | [], _ =>
          have := base b match_state true
          simpa only [propertyEqualsLoop, splitAlternativesFrom, beq_self_eq_true, if_true,
            Bool.false_eq_true, if_false] using this
        | d :: rest2, hk2 =>
          have hk3 : rest2.length ≤ k := by
            have : rest2.length + 1 ≤ k := by simpa using hk2
            omega
          have := ih rest2 (b ++ [d]) match_state hk3
          simpa only [propertyEqualsLoop, splitAlternativesFrom, beq_self_eq_true, if_true,
            Bool.false_eq_true, if_false] using this
      · have hb' : (c == '\\') = false := by simpa using hb
        by_cases hbar : c = '|'
        · subst hbar
          unfold propertyEqualsLoop splitAlternativesFrom
          simp only [Bool.false_eq_true, if_false, hb, hb', beq_self_eq_true, if_true,
            alternativesState]
          by_cases hs : cssValueEqualsText h property b new_value match_state = -1
          · simp only [hs, if_true]
          · simp only [hs, if_false]
            exact ih rest [] _ hk1
        · have := ih rest (b ++ [c]) match_state hk1
          have hbar' : (c == '|') = false := by simpa using hbar
          have e : splitAlternativesFrom (c :: rest) b = splitAlternativesFrom rest (b ++ [c]) := by
            rw [splitAlternativesFrom.eq_def]
            simp only [hb, hbar, ↓reduceIte]
          rw [e]
          simpa only [propertyEqualsLoop, hb', hbar', Bool.false_eq_true, if_false] using this

/-- On a present pattern `propertyEquals` is true iff the comparison of the new value with
the alternatives of the pattern, started in the unresolved state 0, ends in the state
-1. -/
theorem propertyEquals_iff_alternativesState (h : Host) (property : Nat) (pattern : List Char)
    (new_value : Option CSSValue) :
    propertyEquals h property (some pattern) new_value = true
      ↔ alternativesState h property new_value (splitAlternatives pattern) 0 = -1 := by
  rw [splitAlternatives, ← propertyEqualsLoop_alternativesState h property new_value
    pattern.length pattern [] 0 (le_refl _)]
  unfold propertyEquals
  cases hloop : propertyEqualsLoop h property new_value pattern false [] 0 with
  | none => simp [hloop]
  | some r =>
    obtain ⟨u, s⟩ := r
    simp [hloop]

/-- The state in which the comparison of a numeric literal v with numeric alternatives
ends, started in the state 0 (unresolved), 1 (a greater alternative was seen) or 2 (a
smaller alternative was seen). -/
theorem alternativesState_numeric (h : Host) (property : Nat) (v : Rat) :
    ∀ (l : List (List Char)),
      (∀ t ∈ l, t ≠ [] ∧ stringEquals t 0 (h.cssText (.numericLiteral v)) 0 = false
        ∧ ∃ a, h.parseSingleValue property t = some (.numericLiteral a)) →
      ∀ match_state : Int, (match_state = 0 ∨ match_state = 1 ∨ match_state = 2) →
        (alternativesState h property (some (.numericLiteral v)) l match_state = -1
          ↔ (∃ t ∈ l, h.parseSingleValue property t = some (.numericLiteral v))
            ∨ (match_state = 0
                ∧ (∃ t ∈ l, ∃ a, h.parseSingleValue property t = some (.numericLiteral a)
                    ∧ a > v)
                ∧ (∃ t ∈ l, ∃ a, h.parseSingleValue property t = some (.numericLiteral a)
                    ∧ a < v))
            ∨ (match_state = 1
                ∧ ∃ t ∈ l, ∃ a, h.parseSingleValue property t = some (.numericLiteral a)
                    ∧ a < v)
            ∨ (match_state = 2
                ∧ ∃ t ∈ l, ∃ a, h.parseSingleValue property t = some (.numericLiteral a)
                    ∧ a > v)) := by
  intro l
  induction l with
  | nil =>
    intro _ match_state hms
    simp only [alternativesState, List.not_mem_nil, false_and, exists_false, and_false,
      or_false, iff_false]
    rcases hms with e | e | e <;> rw [e] <;> decide
  | cons t l ih =>
    intro hl match_state hms
    obtain ⟨hne, hstr, a, ha⟩ := hl t (List.mem_cons_self _ _)
    have hl2 : ∀ t ∈ l, t ≠ [] ∧ stringEquals t 0 (h.cssText (.numericLiteral v)) 0 = false
        ∧ ∃ a, h.parseSingleValue property t = some (.numericLiteral a) :=
      fun u hu => hl u (List.mem_cons_of_mem _ hu)
    have hlen : ¬ t.length = 0 := fun e => hne (List.length_eq_zero.mp e)
    have step : cssValueEqualsText h property t (some (.numericLiteral v)) match_state
        = cssValueEquals h (.numericLiteral a) (.numericLiteral v) match_state := by
      unfold cssValueEqualsText
      simp only [hlen, if_false, hstr, Bool.false_eq_true, ha]
    have ih0 := ih hl2 0 (Or.inl rfl)
    have ih1 := ih hl2 1 (Or.inr (Or.inl rfl))
    have ih2 := ih hl2 2 (Or.inr (Or.inr rfl))
    simp only [alternativesState, step, cssValueEquals]
    rcases lt_trichotomy a v with hlt | heq | hgt
    · have hne2 : ¬ a = v := ne_of_lt hlt
      have hngt : ¬ a > v := not_lt.mpr (le_of_lt hlt)
      rcases hms with e | e | e <;> subst e <;>
        simp [hne2, hngt, hlt, ha, ih1, ih2]
    · subst heq
      simp [ha]
    · have hne2 : ¬ a = v := ne_of_gt hgt
      have hnlt : ¬ a < v := not_lt.mpr (le_of_lt hgt)
      rcases hms with e | e | e <;> subst e <;>
        simp [hne2, hnlt, hgt, ha, ih1, ih2]

/-- Claim C29: for a stored pattern whose alternatives are non-empty, do not match the
text of the new value and each parse to a single numeric literal, and for a new numeric
literal v, `propertyEquals` is true iff some alternative parses to v, or some
alternative parses to a literal greater than v and some alternative to a literal less
than v; a v below all alternatives, or above all of them, is rejected. -/
theorem propertyEquals_numeric_broadening (h : Host) (property : Nat) (pattern : List Char)
    (v : Rat)
    (hnum : ∀ t ∈ splitAlternatives pattern,
      t ≠ [] ∧ stringEquals t 0 (h.cssText (.numericLiteral v)) 0 = false
        ∧ ∃ a, h.parseSingleValue property t = some (.numericLiteral a)) :
    (propertyEquals h property (some pattern) (some (.numericLiteral v)) = true
      ↔ (∃ t ∈ splitAlternatives pattern,
            h.parseSingleValue property t = some (.numericLiteral v))
        ∨ ((∃ t ∈ splitAlternatives pattern, ∃ a,
              h.parseSingleValue property t = some (.numericLiteral a) ∧ a > v)
          ∧ (∃ t ∈ splitAlternatives pattern, ∃ a,
              h.parseSingleValue property t = some (.numericLiteral a) ∧ a < v)))
    ∧ ((∀ t ∈ splitAlternatives pattern, ∀ a,
          h.parseSingleValue property t = some (.numericLiteral a) → a > v) →
        propertyEquals h property (some pattern) (some (.numericLiteral v)) = false)
    ∧ ((∀ t ∈ splitAlternatives pattern, ∀ a,
          h.parseSingleValue property t = some (.numericLiteral a) → a < v) →
        propertyEquals h property (some pattern) (some (.numericLiteral v)) = false) := by
  have key : propertyEquals h property (some pattern) (some (.numericLiteral v)) = true
      ↔ (∃ t ∈ splitAlternatives pattern,
            h.parseSingleValue property t = some (.numericLiteral v))
        ∨ ((∃ t ∈ splitAlternatives pattern, ∃ a,
              h.parseSingleValue property t = some (.numericLiteral a) ∧ a > v)
          ∧ (∃ t ∈ splitAlternatives pattern, ∃ a,
              h.parseSingleValue property t = some (.numericLiteral a) ∧ a < v)) := by
    rw [propertyEquals_iff_alternativesState,
      alternativesState_numeric h property v (splitAlternatives pattern) hnum 0 (Or.inl rfl)]
    simp
  refine ⟨key, ?_, ?_⟩
  · intro hall
    apply eq_false_of_ne_true
    intro htrue
    rcases key.mp htrue with ⟨t, ht, hp⟩ | ⟨_, ⟨t, ht, a, hp, hlt⟩⟩
    · exact lt_irrefl v (hall t ht v hp)
    · exact lt_asymm hlt (hall t ht a hp)
  · intro hall
    apply eq_false_of_ne_true
    intro htrue
    rcases key.mp htrue with ⟨t, ht, hp⟩ | ⟨⟨t, ht, a, hp, hgt⟩, _⟩
    · exact lt_irrefl v (hall t ht v hp)
    · exact lt_asymm hgt (hall t ht a hp)

/-- Claim C29 at the pattern `1|9`: the new literal 5 lies between the two recorded
literals and is accepted. -/
theorem propertyEquals_numeric_broadening_witness :
    (∀ t ∈ splitAlternatives "1|9".toList,
      t ≠ [] ∧ stringEquals t 0 (numericHost.cssText (.numericLiteral 5)) 0 = false
        ∧ ∃ a, numericHost.parseSingleValue 0 t = some (.numericLiteral a))
      ∧ propertyEquals numericHost 0 (some "1|9".toList) (some (.numericLiteral 5)) = true := by
  have hsplit : splitAlternatives "1|9".toList = [['1'], ['9']] := by decide
  have hnum : ∀ t ∈ splitAlternatives "1|9".toList,
      t ≠ [] ∧ stringEquals t 0 (numericHost.cssText (.numericLiteral 5)) 0 = false
        ∧ ∃ a, numericHost.parseSingleValue 0 t = some (.numericLiteral a) := by
    intro t ht
    rw [hsplit] at ht
    simp only [List.mem_cons, List.mem_singleton, List.not_mem_nil, or_false] at ht
    rcases ht with e | e
    · subst e
      exact ⟨by decide, by decide, 1, rfl⟩
    · subst e
      exact ⟨by decide, by decide, 9, rfl⟩
  refine ⟨hnum, ?_⟩
  exact (propertyEquals_numeric_broadening numericHost 0 "1|9".toList 5 hnum).1.mpr
    (Or.inr ⟨⟨['9'], by rw [hsplit]; simp, 9, rfl, by norm_num⟩,
      ⟨['1'], by rw [hsplit]; simp, 1, rfl, by norm_num⟩⟩)

/-! ## Whitelist matching and descendants -/

mutual
/-- The search of `hasMatchingNodeInShadowTree` succeeds iff `matchingNode` succeeds at some
descendant of the shadow parent. -/
theorem hasMatchingNodeInShadowTree_iff (h : Host) (frame_mode : Option (List Char))
    (element : ElementData) :
    ∀ shadow_parent : Node,
      hasMatchingNodeInShadowTree h frame_mode element shadow_parent = true
        ↔ ∃ s ∈ shadow_parent.descendants, (matchingNode h frame_mode element s).isSome = true
  | .element _ children => by
    simp only [hasMatchingNodeInShadowTree, Node.descendants]
    exact hasMatchingNodeInShadowChildren_iff h frame_mode element children
  | .documentFragment children => by
    simp only [hasMatchingNodeInShadowTree, Node.descendants]
    exact hasMatchingNodeInShadowChildren_iff h frame_mode element children
  | .document children => by
    simp only [hasMatchingNodeInShadowTree, Node.descendants]
    exact hasMatchingNodeInShadowChildren_iff h frame_mode element children
  | .text _ => by
    simp [hasMatchingNodeInShadowTree, Node.descendants]
/-- The child loop of `hasMatchingNodeInShadowTree` succeeds iff `matchingNode` succeeds at
one of the children or at one of their descendants. -/
theorem hasMatchingNodeInShadowChildren_iff (h : Host) (frame_mode : Option (List Char))
    (element : ElementData) :
    ∀ children : List Node,
      hasMatchingNodeInShadowChildren h frame_mode element children = true
        ↔ ∃ s ∈ Node.descendantsOfChildren children,
            (matchingNode h frame_mode element s).isSome = true
  | [] => by
    simp [hasMatchingNodeInShadowChildren, Node.descendantsOfChildren]
  | child :: rest => by
    have hchild := hasMatchingNodeInShadowTree_iff h frame_mode element child
    have hrest := hasMatchingNodeInShadowChildren_iff h frame_mode element rest
    simp only [hasMatchingNodeInShadowChildren, Node.descendantsOfChildren, List.mem_cons,
      List.mem_append]
    constructor
    · intro hyp
      by_cases hc : ((matchingNode h frame_mode element child).isSome
          || hasMatchingNodeInShadowTree h frame_mode element child) = true
      · rcases Bool.or_eq_true _ _ ▸ hc with h1 | h2
        · exact ⟨child, Or.inl rfl, h1⟩
        · obtain ⟨s, hs, hm⟩ := hchild.mp h2
          exact ⟨s, Or.inr (Or.inl hs), hm⟩
      · rw [if_neg hc] at hyp
        obtain ⟨s, hs, hm⟩ := hrest.mp hyp
        exact ⟨s, Or.inr (Or.inr hs), hm⟩
    · rintro ⟨s, hs, hm⟩
      by_cases hc : ((matchingNode h frame_mode element child).isSome
          || hasMatchingNodeInShadowTree h frame_mode element child) = true
      · rw [if_pos hc]
      · rw [if_neg hc]
        rcases hs with hs | hs | hs
        · subst hs
          exact absurd (by rw [hm, Bool.true_or]) hc
        · exact absurd (by rw [hchild.mpr ⟨s, hs, hm⟩, Bool.or_true]) hc
        · exact hrest.mpr ⟨s, hs, hm⟩
end

mutual
/-- The walk of `matchesNodeWhitelistInShadowTree` succeeds iff the search of
`hasMatchingNodeInShadowTree` succeeds for every element of the inserted subtree. -/
theorem matchesNodeWhitelistInShadowTree_iff_all (h : Host) (frame_mode : Option (List Char))
    (shadow_parent : Node) :
    ∀ node : Node,
      matchesNodeWhitelistInShadowTree h frame_mode node shadow_parent = true
        ↔ ∀ m ∈ node.subtreeElements,
            hasMatchingNodeInShadowTree h frame_mode m shadow_parent = true
  | .documentFragment children => by
    simp only [matchesNodeWhitelistInShadowTree, Node.subtreeElements]
    exact matchesNodeWhitelistChildren_iff_all h frame_mode shadow_parent children
  | .element element children => by
    have hchildren := matchesNodeWhitelistChildren_iff_all h frame_mode shadow_parent children
    simp only [matchesNodeWhitelistInShadowTree, Node.subtreeElements, List.mem_cons,
      forall_eq_or_imp]
    cases hm : hasMatchingNodeInShadowTree h frame_mode element shadow_parent
    · simp
    · simpa using hchildren
  | .document _ => by
    simp [matchesNodeWhitelistInShadowTree, Node.subtreeElements]
  | .text _ => by
    simp [matchesNodeWhitelistInShadowTree, Node.subtreeElements]
/-- The child loops of `matchesNodeWhitelistInShadowTree` succeed iff the search succeeds
for every element of the subtrees of the children. -/
theorem matchesNodeWhitelistChildren_iff_all (h : Host) (frame_mode : Option (List Char))
    (shadow_parent : Node) :
    ∀ children : List Node,
      matchesNodeWhitelistChildren h frame_mode children shadow_parent = true
        ↔ ∀ m ∈ Node.subtreeElementsOfChildren children,
            hasMatchingNodeInShadowTree h frame_mode m shadow_parent = true
  | [] => by
    simp [matchesNodeWhitelistChildren, Node.subtreeElementsOfChildren]
  | child :: rest => by
    have hchild := matchesNodeWhitelistInShadowTree_iff_all h frame_mode shadow_parent child
    have hrest := matchesNodeWhitelistChildren_iff_all h frame_mode shadow_parent rest
    simp only [matchesNodeWhitelistChildren, Node.subtreeElementsOfChildren, List.mem_append]
    cases hm : matchesNodeWhitelistInShadowTree h frame_mode child shadow_parent
    · have hno : ¬ ∀ m ∈ child.subtreeElements,
          hasMatchingNodeInShadowTree h frame_mode m shadow_parent = true := by
        intro hall
        have := hchild.mpr hall
        rw [hm] at this
        exact Bool.false_ne_true this
      simp only [Bool.not_false, if_true, Bool.false_eq_true, false_iff]
      intro hall
      exact hno fun m hmem => hall m (Or.inl hmem)
    · have hyes := hchild.mp hm
      simp only [Bool.not_true, Bool.false_eq_true, if_false]
      rw [hrest]
      constructor
      · intro hall m hmem
        rcases hmem with hmem | hmem
        · exact hyes m hmem
        · exact hall m hmem
      · intro hall m hmem
        exact hall m (Or.inr hmem)
end

/-- Claim C25, counterexample: `matchingNode` succeeds for the live `<div>` at the `DIV`
below the shadow `BODY`, and `matchesNodeWhitelistInShadowTree` is false for that
`<div>` because it has a `<span>` child for which no shadow below the `BODY` matches. -/
theorem matchesNodeWhitelistInShadowTree_needs_children :
    shadowBodyPlainDiv.descendants
        = [.element { tagName := "DIV".toList, attributes := [] } []]
      ∧ (matchingNode plainHost none plainDiv
          (.element { tagName := "DIV".toList, attributes := [] } [])).isSome = true
      ∧ matchesNodeWhitelistInShadowTree plainHost none
          (.element plainDiv [.element plainSpan []]) shadowBodyPlainDiv = false := by
  refine ⟨rfl, by decide, by decide⟩

/-- Claim C25, amended: for every live element n with children and every shadow node
root, `matchesNodeWhitelistInShadowTree(n, root)` is true iff `matchingNode` succeeds at
some descendant of root for n and for every element below n (a document fragment
standing for its children); for an element n without children it is true iff
`matchingNode(n, s)` succeeds for some descendant s of root, and
`hasMatchingNodeInShadowTree(n, root)` is that condition for every n. -/
theorem matchesNodeWhitelistInShadowTree_iff (h : Host) (frame_mode : Option (List Char))
    (n : ElementData) (children : List Node) (root : Node) :
    (matchesNodeWhitelistInShadowTree h frame_mode (.element n children) root = true
      ↔ ∀ m ∈ (Node.element n children).subtreeElements,
          ∃ s ∈ root.descendants, (matchingNode h frame_mode m s).isSome = true)
    ∧ (matchesNodeWhitelistInShadowTree h frame_mode (.element n []) root = true
      ↔ ∃ s ∈ root.descendants, (matchingNode h frame_mode n s).isSome = true)
    ∧ (hasMatchingNodeInShadowTree h frame_mode n root = true
      ↔ ∃ s ∈ root.descendants, (matchingNode h frame_mode n s).isSome = true) := by
  refine ⟨?_, ?_, hasMatchingNodeInShadowTree_iff h frame_mode n root⟩
  · rw [matchesNodeWhitelistInShadowTree_iff_all]
    constructor
    · intro hall m hm
      exact (hasMatchingNodeInShadowTree_iff h frame_mode m root).mp (hall m hm)
    · intro hall m hm
      exact (hasMatchingNodeInShadowTree_iff h frame_mode m root).mpr (hall m hm)
  · rw [matchesNodeWhitelistInShadowTree_iff_all, ← hasMatchingNodeInShadowTree_iff]
    simp [Node.subtreeElements, Node.subtreeElementsOfChildren]

/-- Claim C25, amended, at a live `<div>` without children and the shadow `BODY` with a
`DIV` child: the `DIV` matches, so the whitelist walk succeeds. -/
theorem matchesNodeWhitelistInShadowTree_iff_witness :
    matchesNodeWhitelistInShadowTree plainHost none (.element plainDiv []) shadowBodyPlainDiv
      = true :=
  (matchesNodeWhitelistInShadowTree_iff plainHost none plainDiv [] shadowBodyPlainDiv).2.1.mpr
    ⟨_, List.mem_cons_self _ _, by decide⟩

mutual
/-- The search of `matchesAttributeWhitelistInShadowTree` below a shadow parent whose
descendants are elements and text nodes. -/
theorem matchesAttributeWhitelistInShadowTree_iff_descendant (h : Host)
    (frame_mode : Option (List Char)) (element : ElementData) (attribute_name : List Char)
    (attribute_value : AtomicString) :
    ∀ sp : Node, Node.areTreeNodes sp.children = true →
      (matchesAttributeWhitelistInShadowTree h frame_mode element attribute_name
          attribute_value sp = true
        ↔ ∃ d ∈ sp.descendants, ∃ data children, d = Node.element data children
            ∧ attributeEquals h frame_mode element attribute_name
                (data.getAttribute attribute_name) attribute_value = true)
  | .element _ children => by
    simp only [matchesAttributeWhitelistInShadowTree, Node.descendants, Node.children]
    exact matchesAttributeWhitelistChildren_iff_descendant h frame_mode element attribute_name
      attribute_value children
  | .documentFragment children => by
    simp only [matchesAttributeWhitelistInShadowTree, Node.descendants, Node.children]
    exact matchesAttributeWhitelistChildren_iff_descendant h frame_mode element attribute_name
      attribute_value children
  | .document children => by
    simp only [matchesAttributeWhitelistInShadowTree, Node.descendants, Node.children]
    exact matchesAttributeWhitelistChildren_iff_descendant h frame_mode element attribute_name
      attribute_value children
  | .text _ => by
    simp [matchesAttributeWhitelistInShadowTree, Node.descendants]
/-- The child loop of `matchesAttributeWhitelistInShadowTree` over children that are
elements and text nodes. -/
theorem matchesAttributeWhitelistChildren_iff_descendant (h : Host)
    (frame_mode : Option (List Char)) (element : ElementData) (attribute_name : List Char)
    (attribute_value : AtomicString) :
    ∀ children : List Node, Node.areTreeNodes children = true →
      (matchesAttributeWhitelistChildren h frame_mode element attribute_name attribute_value
          children = true
        ↔ ∃ d ∈ Node.descendantsOfChildren children, ∃ data grandchildren,
            d = Node.element data grandchildren
            ∧ attributeEquals h frame_mode element attribute_name
                (data.getAttribute attribute_name) attribute_value = true)
  | [] => by
    intro _
    simp [matchesAttributeWhitelistChildren, Node.descendantsOfChildren]
  | .element child_element child_children :: rest => by
    intro htree
    simp only [Node.areTreeNodes, Node.isTreeNode, Bool.and_eq_true] at htree
    have hchild := matchesAttributeWhitelistInShadowTree_iff_descendant h frame_mode element
      attribute_name attribute_value (.element child_element child_children) htree.1
    have hrest := matchesAttributeWhitelistChildren_iff_descendant h frame_mode element
      attribute_name attribute_value rest htree.2
    simp only [matchesAttributeWhitelistChildren, Node.descendantsOfChildren, List.mem_cons,
      List.mem_append]
    constructor
    · intro hyp
      by_cases hc : (attributeEquals h frame_mode element attribute_name
            (child_element.getAttribute attribute_name) attribute_value
          || matchesAttributeWhitelistInShadowTree h frame_mode element attribute_name
              attribute_value (.element child_element child_children)) = true
      · rcases Bool.or_eq_true _ _ ▸ hc with h1 | h2
        · exact ⟨_, Or.inl rfl, child_element, child_children, rfl, h1⟩
        · obtain ⟨d, hd, hP⟩ := hchild.mp h2
          exact ⟨d, Or.inr (Or.inl hd), hP⟩
      · rw [if_neg hc] at hyp
        obtain ⟨d, hd, hP⟩ := hrest.mp hyp
        exact ⟨d, Or.inr (Or.inr hd), hP⟩
    · rintro ⟨d, hd, hP⟩
      by_cases hc : (attributeEquals h frame_mode element attribute_name
            (child_element.getAttribute attribute_name) attribute_value
          || matchesAttributeWhitelistInShadowTree h frame_mode element attribute_name
              attribute_value (.element child_element child_children)) = true
      · rw [if_pos hc]
      · rw [if_neg hc]
        rcases hd with hd | hd | hd
        · subst hd
          obtain ⟨data, grandchildren, hdata, hattr⟩ := hP
          injection hdata with hdata1 hdata2
          subst hdata1
          exact absurd (by rw [hattr, Bool.true_or]) hc
        · exact absurd (by rw [hchild.mpr ⟨d, hd, hP⟩, Bool.or_true]) hc
        · exact hrest.mpr ⟨d, hd, hP⟩
  | .text _ :: rest => by
    intro htree
    simp only [Node.areTreeNodes, Node.isTreeNode, Bool.true_and] at htree
    have hrest := matchesAttributeWhitelistChildren_iff_descendant h frame_mode element
      attribute_name attribute_value rest htree
    simp only [matchesAttributeWhitelistChildren, Node.descendantsOfChildren, Node.descendants,
      List.nil_append, List.mem_cons]
    rw [hrest]
    constructor
    · rintro ⟨d, hd, hP⟩
      exact ⟨d, Or.inr hd, hP⟩
    · rintro ⟨d, hd, hP⟩
      rcases hd with hd | hd
      · subst hd
        obtain ⟨data, grandchildren, hdata, _⟩ := hP
        exact Node.noConfusion hdata
      · exact ⟨d, hd, hP⟩
  | .documentFragment _ :: rest => by
    intro htree
    simp [Node.areTreeNodes, Node.isTreeNode] at htree
  | .document _ :: rest => by
    intro htree
    simp [Node.areTreeNodes, Node.isTreeNode] at htree
end

mutual
/-- Where the search of `matchesAttributeWhitelistInShadowTree` returns: with a value
that is not null, and for an attribute that is not a script attribute, it returns the
value `matchesAttributeWhitelistInShadowTree`. -/
theorem matchesAttributeWhitelistInShadowTreeChecked_returns (h : Host)
    (frame_mode : Option (List Char)) (element : ElementData) (attribute_name : List Char)
    (attribute_value : AtomicString)
    (hreturns : attribute_value ≠ none ∨ isScriptAttribute element attribute_name = false) :
    ∀ sp : Node,
      matchesAttributeWhitelistInShadowTreeChecked h frame_mode element attribute_name
          attribute_value sp
        = some (matchesAttributeWhitelistInShadowTree h frame_mode element attribute_name
            attribute_value sp)
  | .element _ children => by
    simp only [matchesAttributeWhitelistInShadowTreeChecked,
      matchesAttributeWhitelistInShadowTree]
    exact matchesAttributeWhitelistChildrenChecked_returns h frame_mode element attribute_name
      attribute_value hreturns children
  | .documentFragment children => by
    simp only [matchesAttributeWhitelistInShadowTreeChecked,
      matchesAttributeWhitelistInShadowTree]
    exact matchesAttributeWhitelistChildrenChecked_returns h frame_mode element attribute_name
      attribute_value hreturns children
  | .document children => by
    simp only [matchesAttributeWhitelistInShadowTreeChecked,
      matchesAttributeWhitelistInShadowTree]
    exact matchesAttributeWhitelistChildrenChecked_returns h frame_mode element attribute_name
      attribute_value hreturns children
  | .text _ => by
    simp only [matchesAttributeWhitelistInShadowTreeChecked,
      matchesAttributeWhitelistInShadowTree]
/-- The child loop of `matchesAttributeWhitelistInShadowTreeChecked_returns`. -/
theorem matchesAttributeWhitelistChildrenChecked_returns (h : Host)
    (frame_mode : Option (List Char)) (element : ElementData) (attribute_name : List Char)
    (attribute_value : AtomicString)
    (hreturns : attribute_value ≠ none ∨ isScriptAttribute element attribute_name = false) :
    ∀ children : List Node,
      matchesAttributeWhitelistChildrenChecked h frame_mode element attribute_name
          attribute_value children
        = some (matchesAttributeWhitelistChildren h frame_mode element attribute_name
            attribute_value children)
  | [] => by
    simp only [matchesAttributeWhitelistChildrenChecked, matchesAttributeWhitelistChildren]
  | .element child_element child_children :: rest => by
    have hchild := matchesAttributeWhitelistInShadowTreeChecked_returns h frame_mode element
      attribute_name attribute_value hreturns (.element child_element child_children)
    have hrest := matchesAttributeWhitelistChildrenChecked_returns h frame_mode element
      attribute_name attribute_value hreturns rest
    simp only [matchesAttributeWhitelistChildrenChecked, matchesAttributeWhitelistChildren,
      attributeEqualsChecked_returns h frame_mode element attribute_name _ attribute_value
        hreturns, hchild, hrest]
    cases attributeEquals h frame_mode element attribute_name
        (child_element.getAttribute attribute_name) attribute_value <;>
      cases matchesAttributeWhitelistInShadowTree h frame_mode element attribute_name
        attribute_value (.element child_element child_children) <;> rfl
  | .text _ :: rest => by
    simp only [matchesAttributeWhitelistChildrenChecked, matchesAttributeWhitelistChildren]
    exact matchesAttributeWhitelistChildrenChecked_returns h frame_mode element attribute_name
      attribute_value hreturns rest
  | .documentFragment _ :: rest => by
    simp only [matchesAttributeWhitelistChildrenChecked, matchesAttributeWhitelistChildren]
    exact matchesAttributeWhitelistChildrenChecked_returns h frame_mode element attribute_name
      attribute_value hreturns rest
  | .document _ :: rest => by
    simp only [matchesAttributeWhitelistChildrenChecked, matchesAttributeWhitelistChildren]
    exact matchesAttributeWhitelistChildrenChecked_returns h frame_mode element attribute_name
      attribute_value hreturns rest
end

/-- With a value that is not null, and for an attribute that is not a script attribute,
`matchesAttributeWhitelistInShadowTree` returns, and it returns true iff some element
strictly below the shadow parent stores a pattern that `attributeEquals` accepts the
value against; the descendants of the shadow parent are DOM nodes (elements and text
nodes). -/
theorem matchesAttributeWhitelistInShadowTreeChecked_iff (h : Host)
    (frame_mode : Option (List Char)) (element : ElementData) (attribute_name : List Char)
    (attribute_value : AtomicString) (sp : Node)
    (hreturns : attribute_value ≠ none ∨ isScriptAttribute element attribute_name = false)
    (htree : Node.areTreeNodes sp.children = true) :
    (∃ verdict, matchesAttributeWhitelistInShadowTreeChecked h frame_mode element
        attribute_name attribute_value sp = some verdict)
    ∧ (matchesAttributeWhitelistInShadowTreeChecked h frame_mode element attribute_name
          attribute_value sp = some true
        ↔ ∃ d ∈ sp.descendants, ∃ data children, d = Node.element data children
            ∧ attributeEqualsChecked h frame_mode element attribute_name
                (data.getAttribute attribute_name) attribute_value = some true) := by
  rw [matchesAttributeWhitelistInShadowTreeChecked_returns h frame_mode element attribute_name
    attribute_value hreturns sp]
  refine ⟨⟨_, rfl⟩, ?_⟩
  simp only [Option.some.injEq,
    attributeEqualsChecked_returns h frame_mode element attribute_name _ attribute_value
      hreturns]
  exact matchesAttributeWhitelistInShadowTree_iff_descendant h frame_mode element
    attribute_name attribute_value sp htree

/-- Claim C26, failing input: the whitelisted shadow
`<DIV dtt-whitelist=""><SPAN onclick="f(1)"></SPAN><SPAN></SPAN></DIV>` and the removal
of `onclick` from a live `<span onclick="f(1)">` below its `<div>` (null new value).  The
second `SPAN`, a strict descendant of the shadow, stores no pattern for `onclick`, and
`attributeEquals` accepts the absent value against it.  The search starts at the first
`SPAN`, whose pattern `f(1)` sends the null value to `scriptEquals`: the search has no
result, and in enforce mode the hook (the attribute is monitored and locating the
element gives `WhitelistMatch` with this shadow) stops there. -/
theorem matchesAttributeWhitelistInShadowTree_stops_before_match :
    whitelistDivTwoSpans.descendants = [.element shadowSpanOnclick [], .element plainSpan []]
      ∧ attributeEqualsChecked scriptHost (some ['e']) liveSpanOnclick "onclick".toList
          (plainSpan.getAttribute "onclick".toList) none = some true
      ∧ attributeEqualsChecked scriptHost (some ['e']) liveSpanOnclick "onclick".toList
          (shadowSpanOnclick.getAttribute "onclick".toList) none = none
      ∧ matchesAttributeWhitelistInShadowTreeChecked scriptHost (some ['e']) liveSpanOnclick
          "onclick".toList none whitelistDivTwoSpans = none
      ∧ shouldMonitorAttribute scriptHost liveSpanOnclick "onclick".toList = true
      ∧ locateNodeInShadowTree scriptHost (some whitelistOnclickFrame.dom_constraint_mode)
          whitelistOnclickFrame.dom_constraint
          (elementPosition liveSpanOnclick divParents .ownDocument)
          = (.WhitelistMatch, some whitelistDivTwoSpans)
      ∧ (WillModifyDOMAttrExtended scriptHost whitelistOnclickFrame liveSpanOnclick divParents
          .ownDocument "onclick".toList (some "f(1)".toList) none).null_dereference = true := by
  refine ⟨rfl, by decide, by decide, by decide, by decide, rfl, by decide⟩

/-! ## The hooks in record mode, in enforce mode and during parsing -/

/-- In record mode the `allowed` flag is true in the state in which each of the four hooks
stops, for every input and every shadow document. -/
theorem record_mode_allowed_flag (h : Host) (sh : StyleHost) (frame : FrameState)
    (state : StyleState) (parent position : NodePosition) (node : Node)
    (element : ElementData) (parents : List Ancestor) (root : RootKind) (name : List Char)
    (old_value new_value : AtomicString) (current_style : Option ComputedStyle)
    (style : ComputedStyle) (hmode : frame.dom_constraint_mode.head? = some 'r') :
    (WillInsertDOMNodeExtended h frame parent node).allowed = true
    ∧ (WillModifyDOMAttrExtended h frame element parents root name old_value
        new_value).allowed = true
    ∧ (WillRemoveDOMNodeExtended frame position).allowed = true
    ∧ (WillSetStyle h sh frame state element parents root current_style style).hook.allowed
        = true := by
  refine ⟨?_, ?_, ?_, ?_⟩
  · unfold WillInsertDOMNodeExtended
    simp only [hmode, if_true]
    repeat (first | rfl | split)
  · unfold WillModifyDOMAttrExtended
    simp only [hmode, if_true]
    repeat (first | rfl | split)
  · unfold WillRemoveDOMNodeExtended
    repeat (first | rfl | split)
  · unfold WillSetStyle
    simp only [hmode, if_true]
    repeat (first | rfl | split)

/-- Claim C21, failing input: in record mode, at the insertion of a `<div>`
directly under the document, `WillInsertDOMNodeExtended` does not return: the located
shadow is the shadow document, `DynamicTo<Element>` of it is the null pointer and
`createShadowNode` reads `shadow_ptr->firstChild()`.  The `allowed` flag is true when
the hook stops there. -/
theorem WillInsertDOMNodeExtended_record_under_document :
    recordFrame.dom_constraint_mode.head? = some 'r'
      ∧ (locateNodeAndCreateAncestorsInShadowTree plainHost (some recordFrame.dom_constraint_mode)
          recordFrame.dom_constraint documentPosition).result = .Found
      ∧ (locateNodeAndCreateAncestorsInShadowTree plainHost (some recordFrame.dom_constraint_mode)
          recordFrame.dom_constraint documentPosition).shadow_path = some []
      ∧ (WillInsertDOMNodeExtended plainHost recordFrame documentPosition
          (.element plainDiv [])).null_dereference = true
      ∧ (WillInsertDOMNodeExtended plainHost recordFrame documentPosition
          (.element plainDiv [])).allowed = true := by
  refine ⟨rfl, by decide, by decide, by decide, by decide⟩

/-- Claim C22: in enforce mode the shadow document in the state in which each of the four
hooks stops is the shadow document of the frame before the hook: no hook adds, removes
or alters a shadow element or a shadow attribute. -/
theorem enforce_mode_leaves_shadow_document (h : Host) (sh : StyleHost) (frame : FrameState)
    (state : StyleState) (parent position : NodePosition) (node : Node)
    (element : ElementData) (parents : List Ancestor) (root : RootKind) (name : List Char)
    (old_value new_value : AtomicString) (current_style : Option ComputedStyle)
    (style : ComputedStyle) (hmode : frame.dom_constraint_mode.head? = some 'e') :
    (WillInsertDOMNodeExtended h frame parent node).dom_constraint = frame.dom_constraint
    ∧ (WillModifyDOMAttrExtended h frame element parents root name old_value
        new_value).dom_constraint = frame.dom_constraint
    ∧ (WillRemoveDOMNodeExtended frame position).dom_constraint = frame.dom_constraint
    ∧ (WillSetStyle h sh frame state element parents root current_style
        style).hook.dom_constraint = frame.dom_constraint := by
  have hnotr : ¬ frame.dom_constraint_mode.head? = some 'r' := by
    rw [hmode]
    decide
  refine ⟨?_, ?_, ?_, ?_⟩
  · unfold WillInsertDOMNodeExtended
    simp only [hnotr, if_false]
    simp only [hmode, if_true]
    repeat (first | rfl | split)
  · unfold WillModifyDOMAttrExtended
    simp only [hnotr, if_false]
    simp only [hmode, if_true]
    repeat (first | rfl | split)
  · unfold WillRemoveDOMNodeExtended
    repeat (first | rfl | split)
  · unfold WillSetStyle
    simp only [hnotr, if_false]
    simp only [hmode, if_true]
    repeat (first | rfl | split)

/-- Claim C22 at the frame `enforceFrame` and the `<div id="a">` under the body. -/
theorem enforce_mode_leaves_shadow_document_witness :
    enforceFrame.dom_constraint_mode.head? = some 'e'
      ∧ (WillInsertDOMNodeExtended plainHost enforceFrame bodyPosition
          (.element liveDivA [])).dom_constraint = shadowDocBodyDiv
      ∧ (WillSetStyle plainHost plainStyleHost enforceFrame oneProperty liveDivA bodyParents
          .ownDocument none 0).hook.dom_constraint = shadowDocBodyDiv :=
  ⟨rfl,
    (enforce_mode_leaves_shadow_document plainHost plainStyleHost enforceFrame oneProperty
      bodyPosition bodyPosition (.element liveDivA []) liveDivA bodyParents .ownDocument
      "id".toList none none none 0 rfl).1,
    (enforce_mode_leaves_shadow_document plainHost plainStyleHost enforceFrame oneProperty
      bodyPosition bodyPosition (.element liveDivA []) liveDivA bodyParents .ownDocument
      "id".toList none none none 0 rfl).2.2.2⟩

/-- Claim C23, failing input: in enforce mode, for a target whose topmost
ancestor is not a document, `locateNodeInShadowTree` reports `RootIsNotDocument` with
the null pointer; `WillInsertDOMNodeExtended` and `WillModifyDOMAttrExtended` then allow,
and `WillSetStyle` denies (outside user-agent shadow roots and with a window): it
returns with `allowed = false` at its test of the null shadow pointer, before it looks
at the match result. -/
theorem WillSetStyle_denies_disconnected_element (h : Host) (sh : StyleHost)
    (frame : FrameState) (state : StyleState) (node : Node) (element : ElementData)
    (parents : List Ancestor) (name : List Char) (old_value new_value : AtomicString)
    (current_style : Option ComputedStyle) (style : ComputedStyle)
    (hwindow : frame.has_dom_window = true)
    (hua : isDescendantOfUserAgentShadowRoot (elementPosition element parents .notDocument)
      = false)
    (hmode : frame.dom_constraint_mode.head? = some 'e') :
    locateNodeInShadowTree h (some frame.dom_constraint_mode) frame.dom_constraint
        (elementPosition element parents .notDocument) = (.RootIsNotDocument, none)
    ∧ (WillInsertDOMNodeExtended h frame (elementPosition element parents .notDocument)
        node).allowed = true
    ∧ (WillModifyDOMAttrExtended h frame element parents .notDocument name old_value
        new_value).allowed = true
    ∧ (WillSetStyle h sh frame state element parents .notDocument current_style
        style).hook.allowed = false := by
  have hnotr : ¬ frame.dom_constraint_mode.head? = some 'r' := by
    rw [hmode]
    decide
  have hloc : locateNodeInShadowTree h (some frame.dom_constraint_mode) frame.dom_constraint
      (elementPosition element parents .notDocument) = (.RootIsNotDocument, none) := rfl
  refine ⟨hloc, ?_, ?_, ?_⟩
  · unfold WillInsertDOMNodeExtended
    simp only [hnotr, if_false]
    simp only [hmode, hloc, if_true]
    repeat (first | rfl | split)
  · unfold WillModifyDOMAttrExtended
    simp only [hnotr, if_false]
    simp only [hmode, hloc, if_true]
    repeat (first | rfl | split)
  · unfold WillSetStyle
    simp only [hwindow, hua, hnotr, Bool.not_true, Bool.false_eq_true, if_false]
    simp only [hmode, hloc, if_true]

/-- Claim C23 at a `<div>` that is its own topmost ancestor, in the frame `enforceFrame`. -/
theorem WillSetStyle_denies_disconnected_element_witness :
    enforceFrame.has_dom_window = true
      ∧ isDescendantOfUserAgentShadowRoot (elementPosition plainDiv [] .notDocument) = false
      ∧ enforceFrame.dom_constraint_mode.head? = some 'e'
      ∧ (WillSetStyle plainHost plainStyleHost enforceFrame oneProperty plainDiv []
          .notDocument none 0).hook.allowed = false :=
  ⟨rfl, rfl, rfl,
    (WillSetStyle_denies_disconnected_element plainHost plainStyleHost enforceFrame oneProperty
      (.element plainDiv []) plainDiv [] "id".toList none none none 0 rfl rfl rfl).2.2.2⟩

/-- If the document is being parsed, `WillInsertDOMNodeExtended` returns with
`allowed = true`, whatever the mode and the shadow document; it leaves the shadow
document as it was and executes the pending attribute changes of the node. -/
theorem WillInsertDOMNodeExtended_parsing_exit (h : Host) (frame : FrameState)
    (parent : NodePosition) (node : Node) (hwindow : frame.has_dom_window = true)
    (hua : isDescendantOfUserAgentShadowRoot parent = false)
    (hparsing : frame.is_parsing = true) :
    WillInsertDOMNodeExtended h frame parent node
      = { allowed := true, dom_constraint := frame.dom_constraint,
          pending_attribute_changes_executed := true, null_dereference := false } := by
  unfold WillInsertDOMNodeExtended
  simp only [hwindow, hua, hparsing, Bool.not_true, Bool.false_eq_true, if_false, if_true]

/-- Claim C24, failing input: the document of the frame is being parsed, in enforce mode,
and the shadow document is `<HTML><BODY><DIV dtt-id="a" id="a">`.  The insertion of a
`<span>` under the body, which is refused when the document is not being parsed, is
allowed by the parsing exit of `WillInsertDOMNodeExtended`.  `WillModifyDOMAttrExtended`
has no such exit: the change of `id` from `a` to `b` on the `<div id="a">` under the body
is decided against the shadow and denied. -/
theorem WillModifyDOMAttrExtended_denies_while_parsing :
    parsingEnforceFrame.is_parsing = true
      ∧ (WillInsertDOMNodeExtended plainHost { parsingEnforceFrame with is_parsing := false }
          bodyPosition (.element plainSpan [])).allowed = false
      ∧ (WillInsertDOMNodeExtended plainHost parsingEnforceFrame bodyPosition
          (.element plainSpan [])).allowed = true
      ∧ (WillModifyDOMAttrExtended plainHost parsingEnforceFrame liveDivA bodyParents
          .ownDocument "id".toList (some ['a']) (some ['b'])).allowed = false
      ∧ (WillModifyDOMAttrExtended plainHost parsingEnforceFrame liveDivA bodyParents
          .ownDocument "id".toList (some ['a']) (some ['b'])).null_dereference = false := by
  refine ⟨rfl, by decide, by decide, by decide, by decide⟩

/-- Below a shadow parent without children `matchesPropertyWhitelistInShadowTree` returns
false and leaves the members as they are, whatever is marked modified. -/
theorem matchesPropertyWhitelistInShadowTree_childless (h : Host) (sh : StyleHost)
    (style : ComputedStyle) (slow_path : Bool) (shadow_element : ElementData)
    (state : StyleState) :
    matchesPropertyWhitelistInShadowTree h sh style slow_path (.element shadow_element [])
      state = (false, state) := by
  simp only [matchesPropertyWhitelistInShadowTree, matchesPropertyWhitelistChildren]

/-- Claim C30, failing input: in enforce mode, for a `<span>` below a
`<div>` whose shadow is a whitelisted `DIV` without children, the result is
`WhitelistMatch`, `collectStyleChanges` marks no property modified, and `WillSetStyle`
denies the style. -/
theorem WillSetStyle_whitelist_without_children_denies :
    (locateNodeInShadowTree plainHost (some whitelistFrame.dom_constraint_mode)
        whitelistFrame.dom_constraint (elementPosition plainSpan divParents .ownDocument)).1
        = .WhitelistMatch
      ∧ (collectStyleChanges plainHost plainStyleHost none 0 true oneProperty).modified_property_count_
          = 0
      ∧ (collectStyleChanges plainHost plainStyleHost none 0 true oneProperty).is_css_property_modified_
          = [false]
      ∧ (WillSetStyle plainHost plainStyleHost whitelistFrame oneProperty plainSpan divParents
          .ownDocument none 0).hook.allowed = false := by
  refine ⟨by decide, by decide, by decide, by decide⟩

/-! ## Shadows created for ancestors -/

/-- Claim C31, failing input: in record mode with an empty shadow document,
`locateNodeAndCreateAncestorsInShadowTree` for a `<div>` under `<body>` under `<html>`
creates the shadows of all three; the `HTML` shadow, whose parent is the shadow
document, and the `DIV` shadow, whose parent is the `BODY` shadow, both carry
`dtt-dangling`.  `createShadowNode` for the same `<div>` under the `BODY` shadow sets no
`dtt-dangling`. -/
theorem locateNodeAndCreateAncestorsInShadowTree_dangling_everywhere :
    (locateNodeAndCreateAncestorsInShadowTree plainHost (some ['r']) (.document [])
        divUnderBody).dom_constraint = shadowDocDanglingDiv
      ∧ createShadowNode plainHost (some ['r']) emptyBodyShadow (.element plainDiv [])
          = shadowBodyPlainDiv := by
  refine ⟨rfl, rfl⟩

/-! ## The rejection record of the attribute hook -/

/-- Claim C39, failing input: in enforce mode with `LOG(INFO)` on, the change of `id` on a
`<span>` under the body, for which the shadow document has no shadow, gives `NotFound`
with the null pointer; the hook sets `allowed = false` and its rejection record reads
`shadow_ptr->getAttribute(name)` of that null pointer. -/
theorem WillModifyDOMAttrExtended_rejection_reads_null_shadow :
    enforceFrame.log_info_is_on = true
      ∧ locateNodeInShadowTree plainHost (some enforceFrame.dom_constraint_mode)
          enforceFrame.dom_constraint (elementPosition plainSpan bodyParents .ownDocument)
          = (.NotFound, none)
      ∧ (WillModifyDOMAttrExtended plainHost enforceFrame plainSpan bodyParents .ownDocument
          "id".toList none (some ['x'])).allowed = false
      ∧ (WillModifyDOMAttrExtended plainHost enforceFrame plainSpan bodyParents .ownDocument
          "id".toList none (some ['x'])).null_dereference = true := by
  refine ⟨rfl, rfl, by decide, by decide⟩

/-! ## The style members after attaching frames -/

/-- The lengths of the three vectors after the loop of `FrameAttachedToParent`. -/
theorem FrameAttachedToParentLoop_lengths (is_monitored : Nat → Bool) :
    ∀ (css_property_id_list : List Nat) (state : StyleState),
      (FrameAttachedToParentLoop is_monitored css_property_id_list state).css_property_ids_.length
          = state.css_property_ids_.length + (css_property_id_list.filter is_monitored).length
      ∧ (FrameAttachedToParentLoop is_monitored css_property_id_list
          state).is_css_property_modified_.length
          = state.is_css_property_modified_.length
            + (css_property_id_list.filter is_monitored).length
      ∧ (FrameAttachedToParentLoop is_monitored css_property_id_list
          state).css_property_values_.length
          = state.css_property_values_.length
            + (css_property_id_list.filter is_monitored).length := by
  intro css_property_id_list
  induction css_property_id_list with
  | nil => intro state; simp [FrameAttachedToParentLoop]
  | cons property_id rest ih =>
    intro state
    unfold FrameAttachedToParentLoop
    by_cases hm : is_monitored property_id = true
    · rw [if_pos hm, List.filter_cons_of_pos hm]
      obtain ⟨h1, h2, h3⟩ := ih
        { state with
          css_property_ids_ := state.css_property_ids_ ++ [property_id]
          is_css_property_modified_ := state.is_css_property_modified_ ++ [false]
          css_property_values_ := state.css_property_values_ ++ [none] }
      rw [h1, h2, h3]
      simp only [List.length_append, List.length_cons, List.length_nil]
      omega
    · rw [if_neg hm, List.filter_cons_of_neg hm]
      exact ih state

/-- After `FrameAttachedToParent` the id vector and the flag vector have as many entries
as properties pass the test, and the value vector has that many entries more than
before the call. -/
theorem FrameAttachedToParent_lengths (css_property_id_list : List Nat)
    (is_monitored : Nat → Bool) (state : StyleState) :
    (FrameAttachedToParent css_property_id_list is_monitored state).css_property_ids_.length
        = (css_property_id_list.filter is_monitored).length
      ∧ (FrameAttachedToParent css_property_id_list is_monitored
          state).is_css_property_modified_.length
          = (css_property_id_list.filter is_monitored).length
      ∧ (FrameAttachedToParent css_property_id_list is_monitored
          state).css_property_values_.length
          = state.css_property_values_.length
            + (css_property_id_list.filter is_monitored).length := by
  unfold FrameAttachedToParent
  obtain ⟨h1, h2, h3⟩ := FrameAttachedToParentLoop_lengths is_monitored css_property_id_list
    { state with
      modified_property_count_ := 0
      css_property_ids_ := []
      is_css_property_modified_ := [] }
  rw [h1, h2, h3]
  simp

/-- Claim C32, failing input: with a registry of one property that passes the test, the
second call of `FrameAttachedToParent` leaves one id and one flag and TWO value slots:
the call clears `css_property_ids_` and `is_css_property_modified_` and does not clear
`css_property_values_`. -/
theorem FrameAttachedToParent_twice_values_grow :
    (FrameAttachedToParent [0] (fun _ => true)
        (FrameAttachedToParent [0] (fun _ => true) freshStyleState)).css_property_ids_.length = 1
      ∧ (FrameAttachedToParent [0] (fun _ => true)
          (FrameAttachedToParent [0] (fun _ => true)
            freshStyleState)).is_css_property_modified_.length = 1
      ∧ (FrameAttachedToParent [0] (fun _ => true)
          (FrameAttachedToParent [0] (fun _ => true)
            freshStyleState)).css_property_values_.length = 2 := by
  refine ⟨rfl, rfl, rfl⟩

/-! ## The table reads of the character classes -/

/-- The table `kOneByteCharFlags` has 256 entries. -/
theorem kOneByteCharFlags_length : kOneByteCharFlags.length = 256 := by
  simp [kOneByteCharFlags]

/-- The function `IsWhiteSpace` reads the table exactly for the code points that are not
indices of it: it calls the slow predicate for every `c` in 0..255 and reads outside the
table for every other `c`, while `IsIdentifierStart`, `IsIdentifierPart` and
`IsWhiteSpaceOrLineTerminator` read the table exactly for `c` in 0..255. -/
theorem IsWhiteSpace_reads_table_out_of_range (slow : Nat → Bool) (c : Nat) :
    IsWhiteSpace slow c = (if c ≤ 255 then some (slow c) else none)
      ∧ (IsIdentifierStart slow c = none ↔ False)
      ∧ (IsIdentifierPart slow c = none ↔ False)
      ∧ (IsWhiteSpaceOrLineTerminator slow c = none ↔ False) := by
  have hread : ∀ flag, 255 < c → readOneByteCharFlag c flag = none := by
    intro flag hc
    unfold readOneByteCharFlag
    rw [List.get?_eq_none.mpr (by rw [kOneByteCharFlags_length]; omega)]
    rfl
  have hin : ∀ flag, c ≤ 255 → readOneByteCharFlag c flag ≠ none := by
    intro flag hc hnone
    unfold readOneByteCharFlag at hnone
    rw [Option.map_eq_none', List.get?_eq_none] at hnone
    rw [kOneByteCharFlags_length] at hnone
    omega
  by_cases hc : c ≤ 255
  · have hr : IsInRange c 0 255 = true := by simp [IsInRange, hc]
    refine ⟨?_, ?_, ?_, ?_⟩
    · simp [IsWhiteSpace, hr, hc]
    · simpa [IsIdentifierStart, hr] using hin _ hc
    · simpa [IsIdentifierPart, hr] using hin _ hc
    · simpa [IsWhiteSpaceOrLineTerminator, hr] using hin _ hc
  · have hr : IsInRange c 0 255 = false := by simp [IsInRange, hc]
    refine ⟨?_, ?_, ?_, ?_⟩
    · simp [IsWhiteSpace, hr, hc, hread _ (by omega)]
    · simp [IsIdentifierStart, hr]
    · simp [IsIdentifierPart, hr]
    · simp [IsWhiteSpaceOrLineTerminator, hr]

/-- Claim C40, failing input: for the code point U+03A9 (937), which is not in 0..255,
`IsWhiteSpace` takes the table branch and reads `kOneByteCharFlags[937]`, outside the 256
entries of the table; `IsIdentifierStart` calls its slow predicate for the same code
point, and for the code point 32 `IsWhiteSpace` calls the slow predicate instead of
reading the table. -/
theorem IsWhiteSpace_reads_outside_table :
    kOneByteCharFlags.length = 256
      ∧ IsInRange 937 0 255 = false
      ∧ IsWhiteSpace (fun _ => false) 937 = none
      ∧ IsIdentifierStart (fun _ => false) 937 = some false
      ∧ IsWhiteSpace (fun _ => true) 32 = some true := by
  refine ⟨kOneByteCharFlags_length, by decide, ?_, by decide, by decide⟩
  exact (IsWhiteSpace_reads_table_out_of_range (fun _ => false) 937).1

/-! ## Totality of stringEquals -/

/-- With more fuel than characters are left in both strings, the loop of `stringEquals`
with explicit reads returns the value of the loop: the fuel is not used up and no
position outside a string is read. -/
theorem stringEqualsLoopChecked_eq (P S : List Char) :
    ∀ (fuel sp ap : Nat) (esc : Bool), sp ≤ P.length → ap ≤ S.length →
      (P.length - sp) + (S.length - ap) < fuel →
      stringEqualsLoopChecked P S fuel sp ap esc = some (stringEqualsLoop P S fuel sp ap esc) := by
  intro fuel
  induction fuel with
  | zero => intro sp ap esc _ _ h1; omega
  | succ n ih =>
    intro sp ap esc hsp hap h1
    unfold stringEqualsLoopChecked stringEqualsLoop
    by_cases e1 : sp = P.length
    · simp [e1]
    · have hs : sp < P.length := by omega
      have gP : P.get? sp = some (charAt P sp) := by
        rw [charAt_eq_getElem P sp hs]
        exact List.get?_eq_get hs
      by_cases e2 : ap = S.length
      · simp only [e1, e2, if_false, if_true, gP]
      · have ha : ap < S.length := by omega
        have gS : S.get? ap = some (charAt S ap) := by
          rw [charAt_eq_getElem S ap ha]
          exact List.get?_eq_get ha
        have r1 := ih (sp + 1) (ap + 1) false (by omega) (by omega) (by omega)
        have r2 := ih (sp + 1) ap true (by omega) (by omega) (by omega)
        have r3 := ih (sp + 1) ap false (by omega) (by omega) (by omega)
        have r4 := ih sp (ap + 1) false (by omega) (by omega) (by omega)
        simp only [e1, e2, if_false, gP, gS, r1, r2, r3, r4]
        by_cases hesc : esc = true
        · simp only [hesc, if_true]
          split_ifs <;> rfl
        · simp only [hesc, Bool.false_eq_true, if_false]
          by_cases hb : (charAt P sp == '\\') = true
          · simp only [hb, if_true]
          · simp only [hb, Bool.false_eq_true, if_false]
            by_cases hstar : (charAt P sp == '*') = true
            · simp only [hstar, if_true]
              cases stringEqualsLoop P S n (sp + 1) ap false <;> simp
            · simp only [hstar, Bool.false_eq_true, if_false]
              split_ifs <;> rfl

/-- Claim C33: `stringEquals` is total.  For every pattern P, subject S and start
positions `sp <= |P|`, `ap <= |S|`, the loop with its two recursive calls on `*`,
given one unit of fuel per iteration and per recursive call, returns with the fuel
`(|P| - sp) + (|S| - ap) + 1` (the number of characters left in both strings decreases
at every iteration and at every recursive call), reads no position outside either
string on the way, and returns the value of `stringEquals`. -/
theorem stringEquals_total (P S : List Char) (sp ap : Nat) (hsp : sp ≤ P.length)
    (hap : ap ≤ S.length) :
    stringEqualsLoopChecked P S ((P.length - sp) + (S.length - ap) + 1) sp ap false
      = some (stringEquals P sp S ap) :=
  stringEqualsLoopChecked_eq P S _ sp ap false hsp hap (Nat.lt_succ_self _)

/-- Claim C33 at the pattern `a*\b` and the subject `axxb`, from the start of both. -/
theorem stringEquals_total_witness :
    0 ≤ ['a', '*', '\\', 'b'].length ∧ 0 ≤ ['a', 'x', 'x', 'b'].length
      ∧ stringEqualsLoopChecked ['a', '*', '\\', 'b'] ['a', 'x', 'x', 'b'] 9 0 0 false
          = some true :=
  ⟨by decide, by decide,
    (stringEquals_total ['a', '*', '\\', 'b'] ['a', 'x', 'x', 'b'] 0 0 (by decide)
      (by decide)).trans (by decide)⟩

/-! ## Positional matching and whitelist matching -/

/-- The node returned by the sibling loop of `hasMatchingSubtreeInShadowTree` is one of the
siblings, and `matchingNode` returns it. -/
theorem firstMatchingNode_some (h : Host) (frame_mode : Option (List Char))
    (element : ElementData) :
    ∀ (siblings : List Node) (shadow_node : Node),
      firstMatchingNode h frame_mode element siblings = some shadow_node →
      shadow_node ∈ siblings
        ∧ (matchingNode h frame_mode element shadow_node).isSome = true := by
  intro siblings
  induction siblings with
  | nil => intro shadow_node hfirst; simp [firstMatchingNode] at hfirst
  | cons child rest ih =>
    intro shadow_node hfirst
    unfold firstMatchingNode at hfirst
    cases hm : matchingNode h frame_mode element child with
    | none =>
      rw [hm] at hfirst
      obtain ⟨hmem, hsome⟩ := ih shadow_node hfirst
      exact ⟨List.mem_cons_of_mem _ hmem, hsome⟩
    | some found =>
      rw [hm] at hfirst
      simp only [Option.some.injEq] at hfirst
      subst hfirst
      have hfound : found = child := by
        unfold matchingNode at hm
        cases child with
        | element shadow_element shadow_children =>
          simp only at hm
          split_ifs at hm
          simp only [Option.some.injEq] at hm
          exact hm.symm
        | documentFragment _ => simp at hm
        | document _ => simp at hm
        | text _ => simp at hm
      subst hfound
      exact ⟨List.mem_cons_self _ _, by rw [hm]; rfl⟩

/-- The descendants of a node are the descendants of its children. -/
theorem Node.descendants_eq (n : Node) :
    n.descendants = Node.descendantsOfChildren n.children := by
  cases n <;> simp [Node.descendants, Node.children, Node.descendantsOfChildren]

/-- A child and its descendants are among the descendants of the child list. -/
theorem Node.mem_descendantsOfChildren (child : Node) :
    ∀ children : List Node, child ∈ children →
      child ∈ Node.descendantsOfChildren children
        ∧ ∀ d ∈ child.descendants, d ∈ Node.descendantsOfChildren children := by
  intro children
  induction children with
  | nil => intro hmem; simp at hmem
  | cons first rest ih =>
    intro hmem
    simp only [Node.descendantsOfChildren, List.mem_cons, List.mem_append]
    rcases List.mem_cons.mp hmem with e | hrest
    · subst e
      exact ⟨Or.inl rfl, fun d hd => Or.inr (Or.inl hd)⟩
    · obtain ⟨h1, h2⟩ := ih hrest
      exact ⟨Or.inr (Or.inr h1), fun d hd => Or.inr (Or.inr (h2 d hd))⟩

mutual
/-- Under a positional match every element of the live subtree is matched by
`matchingNode` at some descendant of the shadow parent. -/
theorem hasMatchingSubtreeInShadowTree_elements (h : Host) (frame_mode : Option (List Char)) :
    ∀ (node shadow_parent : Node),
      hasMatchingSubtreeInShadowTree h frame_mode node shadow_parent = true →
      ∀ m ∈ node.subtreeElements, ∃ s ∈ shadow_parent.descendants,
        (matchingNode h frame_mode m s).isSome = true
  | .documentFragment children, shadow_parent => by
    intro hsub m hm
    simp only [hasMatchingSubtreeInShadowTree] at hsub
    simp only [Node.subtreeElements] at hm
    exact hasMatchingSubtreeChildren_elements h frame_mode children shadow_parent hsub m hm
  | .element element children, shadow_parent => by
    intro hsub m hm
    simp only [hasMatchingSubtreeInShadowTree] at hsub
    simp only [Node.subtreeElements, List.mem_cons] at hm
    cases hfirst : firstMatchingNode h frame_mode element shadow_parent.children with
    | none => simp [hfirst] at hsub
    | some shadow_node =>
      rw [hfirst] at hsub
      simp only at hsub
      obtain ⟨hmem, hsome⟩ := firstMatchingNode_some h frame_mode element _ _ hfirst
      obtain ⟨hchild, hbelow⟩ := Node.mem_descendantsOfChildren shadow_node _ hmem
      rw [Node.descendants_eq]
      rcases hm with e | hm
      · subst e
        exact ⟨shadow_node, hchild, hsome⟩
      · obtain ⟨s, hs, hmatch⟩ :=
          hasMatchingSubtreeChildren_elements h frame_mode children shadow_node hsub m hm
        exact ⟨s, hbelow s hs, hmatch⟩
  | .document _, _ => by
    intro _ m hm
    simp [Node.subtreeElements] at hm
  | .text _, _ => by
    intro _ m hm
    simp [Node.subtreeElements] at hm
/-- The child loops of `hasMatchingSubtreeInShadowTree`: every element of the subtrees of
the children is matched at some descendant of the shadow parent. -/
theorem hasMatchingSubtreeChildren_elements (h : Host) (frame_mode : Option (List Char)) :
    ∀ (children : List Node) (shadow_parent : Node),
      hasMatchingSubtreeChildren h frame_mode children shadow_parent = true →
      ∀ m ∈ Node.subtreeElementsOfChildren children, ∃ s ∈ shadow_parent.descendants,
        (matchingNode h frame_mode m s).isSome = true
  | [], _ => by
    intro _ m hm
    simp [Node.subtreeElementsOfChildren] at hm
  | child :: rest, shadow_parent => by
    intro hsub m hm
    simp only [hasMatchingSubtreeChildren] at hsub
    simp only [Node.subtreeElementsOfChildren, List.mem_append] at hm
    cases hc : hasMatchingSubtreeInShadowTree h frame_mode child shadow_parent with
    | false => simp [hc] at hsub
    | true =>
      rw [hc] at hsub
      simp only [Bool.not_true, Bool.false_eq_true, if_false] at hsub
      rcases hm with hm | hm
      · exact hasMatchingSubtreeInShadowTree_elements h frame_mode child shadow_parent hc m hm
      · exact hasMatchingSubtreeChildren_elements h frame_mode rest shadow_parent hsub m hm
end

/-- Claim C34: for every live node n and shadow node sp, if
`hasMatchingSubtreeInShadowTree(n, sp)` is true then
`matchesNodeWhitelistInShadowTree(n, sp)` is true. -/
theorem matchesNodeWhitelistInShadowTree_of_hasMatchingSubtree (h : Host)
    (frame_mode : Option (List Char)) (n sp : Node)
    (hsub : hasMatchingSubtreeInShadowTree h frame_mode n sp = true) :
    matchesNodeWhitelistInShadowTree h frame_mode n sp = true := by
  rw [matchesNodeWhitelistInShadowTree_iff_all]
  intro m hm
  rw [hasMatchingNodeInShadowTree_iff]
  exact hasMatchingSubtreeInShadowTree_elements h frame_mode n sp hsub m hm

/-- Claim C34 at the live `<div>` and the shadow `BODY` with a `DIV` child. -/
theorem matchesNodeWhitelistInShadowTree_of_hasMatchingSubtree_witness :
    hasMatchingSubtreeInShadowTree plainHost none (.element plainDiv []) shadowBodyPlainDiv
        = true
      ∧ matchesNodeWhitelistInShadowTree plainHost none (.element plainDiv [])
          shadowBodyPlainDiv = true :=
  ⟨by decide,
    matchesNodeWhitelistInShadowTree_of_hasMatchingSubtree plainHost none (.element plainDiv [])
      shadowBodyPlainDiv (by decide)⟩

/-! ## The two locate walks -/

/-- The sibling found by `findShadowSibling` stands at the returned position. -/
theorem findShadowSibling_get (h : Host) (frame_mode : Option (List Char))
    (element : ElementData) :
    ∀ (siblings : List Node) (start i : Nat) (found : ElementData) (children : List Node),
      findShadowSibling h frame_mode element siblings start = some (i, found, children) →
      start ≤ i ∧ siblings.get? (i - start) = some (.element found children) := by
  intro siblings
  induction siblings with
  | nil => intro start i found children hfind; simp [findShadowSibling] at hfind
  | cons first rest ih =>
    intro start i found children hfind
    have hnext : findShadowSibling h frame_mode element rest (start + 1)
        = some (i, found, children) →
        start ≤ i ∧ (first :: rest).get? (i - start) = some (.element found children) := by
      intro hrest
      obtain ⟨hle, hget⟩ := ih (start + 1) i found children hrest
      refine ⟨by omega, ?_⟩
      have e : i - start = (i - (start + 1)) + 1 := by omega
      rw [e, List.get?_cons_succ]
      exact hget
    cases first with
    | element sibling_element sibling_children =>
      simp only [findShadowSibling] at hfind
      by_cases heq : isEqualInShadowTree h frame_mode sibling_element element = true
      · rw [if_pos heq] at hfind
        simp only [Option.some.injEq, Prod.mk.injEq] at hfind
        obtain ⟨e1, e2, e3⟩ := hfind
        subst e1 e2 e3
        simp
      · rw [if_neg heq] at hfind
        exact hnext hfind
    | documentFragment _ =>
      simp only [findShadowSibling] at hfind
      exact hnext hfind
    | document _ =>
      simp only [findShadowSibling] at hfind
      exact hnext hfind
    | text _ =>
      simp only [findShadowSibling] at hfind
      exact hnext hfind

/-- Writing an entry of a list back at its position leaves the list as it is. -/
theorem set_of_get?_eq {α : Type} :
    ∀ (l : List α) (i : Nat) (x : α), l.get? i = some x → l.set i x = l := by
  intro l
  induction l with
  | nil => intro i x hget; simp at hget
  | cons a rest ih =>
    intro i x hget
    cases i with
    | zero =>
      simp only [List.get?_cons_zero, Option.some.injEq] at hget
      subst hget
      rfl
    | succ j =>
      simp only [List.get?_cons_succ] at hget
      simp only [List.set_cons_succ, ih j x hget]

/-- A node with its own child list written back is the node. -/
theorem Node.withChildren_children (n : Node) : n.withChildren n.children = n := by
  cases n <;> rfl

/-- Where the first walk finds a shadow for every ancestor, the creating walk returns the
shadow tree as it is, with a path to the same shadow. -/
theorem locateAndCreateLoop_of_found (h : Host) (frame_mode : Option (List Char)) :
    ∀ (ancestors : List Ancestor) (shadow_ptr s : Node)
      (shadow_ptr_is_root shadow_ptr_is_html : Bool),
      locateLoop h frame_mode ancestors shadow_ptr = (.Found, some s) →
      (locateAndCreateLoop h frame_mode shadow_ptr_is_root shadow_ptr_is_html ancestors
          shadow_ptr).1 = shadow_ptr
        ∧ shadow_ptr.nodeAt (locateAndCreateLoop h frame_mode shadow_ptr_is_root
            shadow_ptr_is_html ancestors shadow_ptr).2 = some s := by
  intro ancestors
  induction ancestors with
  | nil =>
    intro shadow_ptr s r html hfound
    simp only [locateLoop, Prod.mk.injEq, Option.some.injEq, true_and] at hfound
    subst hfound
    simp [locateAndCreateLoop, Node.nodeAt]
  | cons ancestor rest ih =>
    intro shadow_ptr s r html hfound
    cases ancestor with
    | documentFragment ua =>
      simp only [locateLoop] at hfound
      simp only [locateAndCreateLoop]
      exact ih shadow_ptr s r html hfound
    | element ancestor_element =>
      simp only [locateLoop] at hfound
      cases hfind : findShadowSibling h frame_mode ancestor_element shadow_ptr.children 0 with
      | none =>
        rw [hfind] at hfound
        simp at hfound
      | some triple =>
        obtain ⟨i, found_element, found_children⟩ := triple
        rw [hfind] at hfound
        simp only at hfound
        obtain ⟨_, hget⟩ := findShadowSibling_get h frame_mode ancestor_element _ _ _ _ _ hfind
        simp only [Nat.sub_zero] at hget
        have hbelow : ∀ (r2 html2 : Bool),
            (locateAndCreateLoop h frame_mode r2 html2 rest
                (.element found_element found_children)).1
              = .element found_element found_children
            ∧ (Node.element found_element found_children).nodeAt
                (locateAndCreateLoop h frame_mode r2 html2 rest
                  (.element found_element found_children)).2 = some s := by
          intro r2 html2
          by_cases hw : found_element.getAttribute "dtt-whitelist".toList ≠ none
          · rw [if_pos hw] at hfound
            by_cases hrest : rest ≠ []
            · rw [if_pos hrest] at hfound
              simp at hfound
            · rw [if_neg hrest] at hfound
              simp only [Prod.mk.injEq, Option.some.injEq, true_and] at hfound
              have hnil : rest = [] := by
                by_contra hne
                exact hrest hne
              subst hnil
              subst hfound
              simp [locateAndCreateLoop, Node.nodeAt]
          · rw [if_neg hw] at hfound
            exact ih _ s r2 html2 hfound
        simp only [locateAndCreateLoop, hfind]
        have hsame : ∀ (r2 html2 : Bool),
            (shadow_ptr.withChildren (shadow_ptr.children.set i
                (locateAndCreateLoop h frame_mode r2 html2 rest
                  (.element found_element found_children)).1) = shadow_ptr)
            ∧ shadow_ptr.nodeAt (i :: (locateAndCreateLoop h frame_mode r2 html2 rest
                  (.element found_element found_children)).2) = some s := by
          intro r2 html2
          obtain ⟨h1, h2⟩ := hbelow r2 html2
          refine ⟨?_, ?_⟩
          · rw [h1, set_of_get?_eq _ _ _ hget, Node.withChildren_children]
          · simp only [Node.nodeAt, hget]
            exact h2
        split_ifs
        · exact hsame _ _
        · exact hsame _ _
        · exact hsame _ _

/-- Claim C35: for every node whose topmost ancestor is its own document, if
`locateNodeInShadowTree` returns `Found` with the shadow s, then
`locateNodeAndCreateAncestorsInShadowTree` on the same node and shadow document returns
`Found`, leaves the shadow document as it is, and returns a shadow that is s (the node
of the shadow document at the returned path). -/
theorem locate_walks_agree (h : Host) (frame_mode : Option (List Char)) (dom_constraint : Node)
    (node : NodePosition) (s : Node) (hroot : node.root = .ownDocument)
    (hfound : locateNodeInShadowTree h frame_mode dom_constraint node = (.Found, some s)) :
    (locateNodeAndCreateAncestorsInShadowTree h frame_mode dom_constraint node).result = .Found
      ∧ (locateNodeAndCreateAncestorsInShadowTree h frame_mode dom_constraint
          node).dom_constraint = dom_constraint
      ∧ ∃ path,
          (locateNodeAndCreateAncestorsInShadowTree h frame_mode dom_constraint
            node).shadow_path = some path
          ∧ dom_constraint.nodeAt path = some s := by
  have hloop : locateLoop h frame_mode node.chain.reverse dom_constraint = (.Found, some s) := by
    unfold locateNodeInShadowTree at hfound
    rw [hroot] at hfound
    simpa [RootKind.isDocument] using hfound
  obtain ⟨h1, h2⟩ := locateAndCreateLoop_of_found h frame_mode node.chain.reverse
    dom_constraint s true true hloop
  unfold locateNodeAndCreateAncestorsInShadowTree
  simp only [hroot, ne_eq, not_true_eq_false, if_false]
  exact ⟨trivial, h1, _, rfl, h2⟩

/-- Claim C35 at the `<body>` under `<html>` and the shadow document `shadowDocBodyDiv`. -/
theorem locate_walks_agree_witness :
    bodyPosition.root = .ownDocument
      ∧ (locateNodeInShadowTree plainHost (some ['r']) shadowDocBodyDiv bodyPosition).1 = .Found
      ∧ (locateNodeAndCreateAncestorsInShadowTree plainHost (some ['r']) shadowDocBodyDiv
          bodyPosition).dom_constraint = shadowDocBodyDiv :=
  ⟨rfl, by decide,
    (locate_walks_agree plainHost (some ['r']) shadowDocBodyDiv bodyPosition
      (.element { tagName := "BODY".toList, attributes := [] }
        [.element { tagName := "DIV".toList,
                    attributes := [⟨"dtt-id".toList, ['a']⟩, ⟨"id".toList, ['a']⟩] } []])
      rfl rfl).2.1⟩

/-! ## Attributes the live element lacks -/

/-- The verdict of `attributeEquals` is the same for two elements of the same tag that the
host classifies alike. -/
theorem attributeEquals_congr_element (h : Host) (frame_mode : Option (List Char))
    (a b : ElementData) (htag : a.tagName = b.tagName) (hhost : h.classifiesAlike a b)
    (attribute_name : List Char) (pattern value : AtomicString) :
    attributeEquals h frame_mode a attribute_name pattern value
      = attributeEquals h frame_mode b attribute_name pattern value := by
  cases pattern with
  | none => rfl
  | some p =>
    have hsplit : ∀ e : ElementData,
        attributeEquals h frame_mode e attribute_name (some p) value
          = classVerdict h (frame_mode.getD "r".toList) e attribute_name value []
              (splitAlternativesFrom p []) := by
      intro e
      rw [← attributeEqualsLoop_verdict h (frame_mode.getD "r".toList) e attribute_name value
        p.length p [] [] (le_refl _)]
      rfl
    have hurl : isURLAttribute h a attribute_name = isURLAttribute h b attribute_name := by
      unfold isURLAttribute
      rw [(hhost attribute_name).1, htag]
    rw [hsplit a, hsplit b]
    unfold classVerdict
    rw [hurl]
    rfl

/-- The answer of `shouldMonitorAttribute` is the same for two elements of the same tag
that the host classifies alike. -/
theorem shouldMonitorAttribute_congr_element (h : Host) (a b : ElementData)
    (htag : a.tagName = b.tagName) (hhost : h.classifiesAlike a b)
    (attribute_name : List Char) :
    shouldMonitorAttribute h a attribute_name = shouldMonitorAttribute h b attribute_name := by
  obtain ⟨h1, h2, h3, h4⟩ := hhost attribute_name
  unfold shouldMonitorAttribute isURLAttribute
  rw [h1, h2, h3, h4, htag]

/-- Removing the attributes of a name leaves the lookup of every other name as it was. -/
theorem getAttribute_setAttribute_none (e : ElementData) (removed name : List Char)
    (hne : name ≠ removed) :
    (e.setAttribute removed none).getAttribute name = e.getAttribute name := by
  unfold ElementData.setAttribute ElementData.getAttribute
  simp only
  congr 1
  induction e.attributes with
  | nil => rfl
  | cons a rest ih =>
    by_cases hrem : (a.name == removed) = true
    · have hname : (a.name == name) = false := by
        have e1 : a.name = removed := by simpa using hrem
        have : ¬ a.name = name := fun e2 => hne (e2.symm.trans e1)
        simpa using this
      rw [List.filter_cons_of_neg (by simp [hrem])]
      simp only [List.find?_cons, hname]
      exact ih
    · rw [List.filter_cons_of_pos (by simpa using hrem)]
      by_cases hname : (a.name == name) = true
      · simp only [List.find?_cons, hname]
      · have hname2 : (a.name == name) = false := by simpa using hname
        simp only [List.find?_cons, hname2]
        exact ih

/-- Claim C37: for every live element e and shadow s for which `matchingNode(e, s)`
succeeds, the element obtained from e by removing the attribute of any name other than
`id` still matches s, provided the element predicates of the host answer for the
reduced element as they answer for e.  The patterns stored on the shadow place no
requirement on attributes the live element lacks. -/
theorem matchingNode_without_attribute (h : Host) (frame_mode : Option (List Char))
    (e : ElementData) (s : Node) (removed : List Char) (hid : removed ≠ "id".toList)
    (hhost : h.classifiesAlike (e.setAttribute removed none) e)
    (hmatch : (matchingNode h frame_mode e s).isSome = true) :
    (matchingNode h frame_mode (e.setAttribute removed none) s).isSome = true := by
  have htag : (e.setAttribute removed none).tagName = e.tagName := rfl
  have hidattr : (e.setAttribute removed none).getIdAttribute = e.getIdAttribute :=
    getAttribute_setAttribute_none e removed "id".toList (fun c => hid c.symm)
  cases s with
  | element shadow_element shadow_children =>
    unfold matchingNode at hmatch ⊢
    simp only at hmatch ⊢
    by_cases h1 : e.tagName ≠ shadow_element.tagName
    · rw [if_pos h1] at hmatch
      simp at hmatch
    · rw [if_neg h1] at hmatch
      by_cases h2 : (!attributeEquals h frame_mode e "dtt-id".toList
          (shadow_element.getAttribute "dtt-id".toList) e.getIdAttribute) = true
      · rw [if_pos h2] at hmatch
        simp at hmatch
      · rw [if_neg h2] at hmatch
        by_cases h3 : (!matchingNodeAttributes h frame_mode e shadow_element e.attributes)
            = true
        · rw [if_pos h3] at hmatch
          simp at hmatch
        · have h3' : matchingNodeAttributes h frame_mode e shadow_element e.attributes
              = true := by simpa using h3
          have hall := (matchingNodeAttributes_iff h frame_mode e shadow_element
            e.attributes).mp h3'
          have h4 : matchingNodeAttributes h frame_mode (e.setAttribute removed none)
              shadow_element (e.setAttribute removed none).attributes = true := by
            rw [matchingNodeAttributes_iff]
            intro a ha hmon
            have hmem : a ∈ e.attributes := by
              have : a ∈ e.attributes.filter fun x => !(x.name == removed) := ha
              exact (List.mem_filter.mp this).1
            rw [shouldMonitorAttribute_congr_element h _ e htag hhost] at hmon
            rw [attributeEquals_congr_element h frame_mode _ e htag hhost]
            exact hall a hmem hmon
          rw [htag, if_neg h1, hidattr,
            attributeEquals_congr_element h frame_mode _ e htag hhost, if_neg h2, h4]
          rfl
  | documentFragment _ => simp [matchingNode] at hmatch
  | document _ => simp [matchingNode] at hmatch
  | text _ => simp [matchingNode] at hmatch

/-- Claim C37 at the live `<div id="item-42" title="t">` and the shadow
`<DIV dtt-id="item-*" id="item-*">`: the element matches, and it still matches once
`title` is removed. -/
theorem matchingNode_without_attribute_witness :
    "title".toList ≠ "id".toList
      ∧ (matchingNode plainHost none
          { tagName := "DIV".toList,
            attributes := [⟨"id".toList, "item-42".toList⟩, ⟨"title".toList, ['t']⟩] }
          (.element shadowDivItemStar [])).isSome = true
      ∧ (matchingNode plainHost none
          (({ tagName := "DIV".toList,
              attributes := [⟨"id".toList, "item-42".toList⟩, ⟨"title".toList, ['t']⟩] } :
            ElementData).setAttribute "title".toList none)
          (.element shadowDivItemStar [])).isSome = true :=
  ⟨by decide, by decide,
    matchingNode_without_attribute plainHost none
      { tagName := "DIV".toList,
        attributes := [⟨"id".toList, "item-42".toList⟩, ⟨"title".toList, ['t']⟩] }
      (.element shadowDivItemStar []) "title".toList (by decide)
      (fun _ => ⟨rfl, rfl, rfl, rfl⟩) (by decide)⟩

/-! ## Whitelisted shadows in record mode -/

/-- Setting or removing an attribute leaves the lookup of every other name as it was. -/
theorem getAttribute_setAttribute_of_ne (e : ElementData) (name kept : List Char)
    (value : AtomicString) (hne : kept ≠ name) :
    (e.setAttribute name value).getAttribute kept = e.getAttribute kept := by
  cases value with
  | none => exact getAttribute_setAttribute_none e name kept hne
  | some v =>
    unfold ElementData.setAttribute ElementData.getAttribute
    simp only
    have hnew : (name == kept) = false := by
      have : ¬ name = kept := fun c => hne c.symm
      simpa using this
    split_ifs
    · simp only
      congr 1
      induction e.attributes with
      | nil => rfl
      | cons a rest ih =>
        unfold setAttributeValue
        by_cases hname : (a.name == name) = true
        · have hk : (a.name == kept) = false := by
            have e1 : a.name = name := by simpa using hname
            rw [e1]
            exact hnew
          simp only [hname, if_true, List.find?_cons, hk]
        · simp only [hname, Bool.false_eq_true, if_false, List.find?_cons]
          rw [ih]
    · simp only
      congr 1
      rw [List.find?_append]
      simp only [List.find?_cons, hnew, List.find?_nil, Option.or_none]

/-- A monitored attribute name is not `dtt-whitelist`. -/
theorem ne_whitelist_of_shouldMonitorAttribute (h : Host) (element : ElementData)
    (name : List Char) (hmon : shouldMonitorAttribute h element name = true) :
    "dtt-whitelist".toList ≠ name := by
  intro hname
  subst hname
  unfold shouldMonitorAttribute at hmon
  have hpfx : "dtt-".toList.isPrefixOf "dtt-whitelist".toList = true := by decide
  rw [if_pos hpfx] at hmon
  exact Bool.false_ne_true hmon

/-- The attribute loop for a new shadow element sets no `dtt-whitelist`. -/
theorem copyShadowAttributes_whitelist (h : Host) (element : ElementData) :
    ∀ (attrs : List Attribute) (shadow_element : ElementData),
      (copyShadowAttributes h element attrs shadow_element).getAttribute "dtt-whitelist".toList
        = shadow_element.getAttribute "dtt-whitelist".toList := by
  intro attrs
  induction attrs with
  | nil => intro shadow_element; rfl
  | cons attr rest ih =>
    intro shadow_element
    unfold copyShadowAttributes
    simp only
    rw [ih]
    have hid : "dtt-whitelist".toList ≠ "dtt-id".toList := by decide
    by_cases hmon : shouldMonitorAttribute h element attr.name = true
    · have hne := ne_whitelist_of_shouldMonitorAttribute h element attr.name hmon
      rw [if_pos hmon, getAttribute_setAttribute_of_ne _ _ _ _ hne]
      split_ifs
      · exact getAttribute_setAttribute_of_ne _ _ _ _ hid
      · rfl
    · rw [if_neg hmon]
      split_ifs
      · exact getAttribute_setAttribute_of_ne _ _ _ _ hid
      · rfl

/-- The attribute loop for an existing shadow element leaves its `dtt-whitelist` as it
was. -/
theorem mergeShadowAttributes_whitelist (h : Host) (frame_mode : Option (List Char))
    (element : ElementData) :
    ∀ (attrs : List Attribute) (shadow_element : ElementData),
      (mergeShadowAttributes h frame_mode element attrs shadow_element).getAttribute
          "dtt-whitelist".toList
        = shadow_element.getAttribute "dtt-whitelist".toList := by
  intro attrs
  induction attrs with
  | nil => intro shadow_element; rfl
  | cons attr rest ih =>
    intro shadow_element
    unfold mergeShadowAttributes
    simp only
    rw [ih]
    by_cases hmon : shouldMonitorAttribute h element attr.name = true
    · have hne := ne_whitelist_of_shouldMonitorAttribute h element attr.name hmon
      rw [if_pos hmon, getAttribute_setAttribute_of_ne _ _ _ _ hne]
    · rw [if_neg hmon]

/-- The whitelisted shadows of an element depend on its `dtt-whitelist` and on the
whitelisted shadows below it. -/
theorem whitelisted_element_congr (a b : ElementData) (children1 children2 : List Node)
    (hattr : a.getAttribute "dtt-whitelist".toList = b.getAttribute "dtt-whitelist".toList)
    (hchildren : Node.whitelistedOfChildren children1 0
      = Node.whitelistedOfChildren children2 0) :
    (Node.element a children1).whitelisted = (Node.element b children2).whitelisted := by
  simp only [Node.whitelisted, hattr, hchildren]

/-- A node with another child list has the same whitelisted shadows when the child lists
have. -/
theorem whitelisted_withChildren (n : Node) (children : List Node)
    (hchildren : Node.whitelistedOfChildren children 0
      = Node.whitelistedOfChildren n.children 0) :
    (n.withChildren children).whitelisted = n.whitelisted := by
  cases n with
  | element data old => simp only [Node.withChildren, Node.whitelisted, Node.children] at *; rw [hchildren]
  | documentFragment old => simpa only [Node.withChildren, Node.whitelisted, Node.children] using hchildren
  | document old => simpa only [Node.withChildren, Node.whitelisted, Node.children] using hchildren
  | text data => rfl

/-- A child without whitelisted shadows appended to a child list adds none. -/
theorem whitelistedOfChildren_append (added : Node) (hadded : added.whitelisted = []) :
    ∀ (children : List Node) (position : Nat),
      Node.whitelistedOfChildren (children ++ [added]) position
        = Node.whitelistedOfChildren children position := by
  intro children
  induction children with
  | nil =>
    intro position
    simp [Node.whitelistedOfChildren, hadded]
  | cons first rest ih =>
    intro position
    show (first.whitelisted.map fun entry => (position :: entry.1, entry.2))
        ++ Node.whitelistedOfChildren (rest ++ [added]) (position + 1)
      = (first.whitelisted.map fun entry => (position :: entry.1, entry.2))
        ++ Node.whitelistedOfChildren rest (position + 1)
    rw [ih]

/-- A child replaced by a node with the same whitelisted shadows changes none. -/
theorem whitelistedOfChildren_set (replacement old : Node)
    (hsame : replacement.whitelisted = old.whitelisted) :
    ∀ (children : List Node) (i position : Nat), children.get? i = some old →
      Node.whitelistedOfChildren (children.set i replacement) position
        = Node.whitelistedOfChildren children position := by
  intro children
  induction children with
  | nil => intro i position hget; simp at hget
  | cons first rest ih =>
    intro i position hget
    cases i with
    | zero =>
      simp only [List.get?_cons_zero, Option.some.injEq] at hget
      subst hget
      simp only [List.set_cons_zero, Node.whitelistedOfChildren, hsame]
    | succ j =>
      simp only [List.get?_cons_succ] at hget
      simp only [List.set_cons_succ, Node.whitelistedOfChildren, ih j (position + 1) hget]

mutual
/-- Recording a live node under a shadow parent leaves the whitelisted shadows of the
shadow parent as they were. -/
theorem createShadowNode_whitelisted (h : Host) (frame_mode : Option (List Char)) :
    ∀ (node shadow_ptr : Node),
      (createShadowNode h frame_mode shadow_ptr node).whitelisted = shadow_ptr.whitelisted
  | .documentFragment children, shadow_ptr => by
    simp only [createShadowNode]
    exact createShadowNodeChildren_whitelisted h frame_mode children shadow_ptr
  | .element element children, shadow_ptr => by
    simp only [createShadowNode]
    cases hfind : findShadowSibling h frame_mode element shadow_ptr.children 0 with
    | none =>
      simp only
      apply whitelisted_withChildren
      apply whitelistedOfChildren_append
      rw [createShadowNodeChildren_whitelisted h frame_mode children]
      have hnone : ∀ se : ElementData, se.getAttribute "dtt-whitelist".toList = none →
          (Node.element se []).whitelisted = [] := by
        intro se hse
        simp only [Node.whitelisted, Node.whitelistedOfChildren, hse, List.append_nil]
      apply hnone
      have hcopy : (copyShadowAttributes h element element.attributes
          { tagName := element.tagName, attributes := [] }).getAttribute "dtt-whitelist".toList
          = none := by
        rw [copyShadowAttributes_whitelist]
        rfl
      split_ifs
      · rw [getAttribute_setAttribute_of_ne _ _ _ _ (by decide)]
        exact hcopy
      · exact hcopy
    | some triple =>
      obtain ⟨i, sibling_element, sibling_children⟩ := triple
      simp only
      obtain ⟨_, hget⟩ := findShadowSibling_get h frame_mode element _ _ _ _ _ hfind
      simp only [Nat.sub_zero] at hget
      apply whitelisted_withChildren
      apply whitelistedOfChildren_set _ _ _ _ _ _ hget
      rw [createShadowNodeChildren_whitelisted h frame_mode children]
      exact whitelisted_element_congr _ _ _ _
        (mergeShadowAttributes_whitelist h frame_mode element _ _) rfl
  | .document _, shadow_ptr => by
    simp only [createShadowNode]
  | .text _, shadow_ptr => by
    simp only [createShadowNode]
/-- The child loops of `createShadowNode` leave the whitelisted shadows of the shadow
parent as they were. -/
theorem createShadowNodeChildren_whitelisted (h : Host) (frame_mode : Option (List Char)) :
    ∀ (children : List Node) (shadow_ptr : Node),
      (createShadowNodeChildren h frame_mode shadow_ptr children).whitelisted
        = shadow_ptr.whitelisted
  | [], shadow_ptr => by
    simp only [createShadowNodeChildren]
  | child :: rest, shadow_ptr => by
    simp only [createShadowNodeChildren]
    rw [createShadowNodeChildren_whitelisted h frame_mode rest,
      createShadowNode_whitelisted h frame_mode child]
end

/-- The shadows created for missing ancestors are not whitelisted: the second loop of
`locateNodeAndCreateAncestorsInShadowTree` leaves the whitelisted shadows as they were. -/
theorem createAncestorsLoop_whitelisted (shadow_ptr_is_html : Bool) :
    ∀ (ancestors : List Ancestor) (shadow_ptr : Node),
      (createAncestorsLoop shadow_ptr_is_html ancestors shadow_ptr).1.whitelisted
        = shadow_ptr.whitelisted := by
  intro ancestors
  induction ancestors with
  | nil => intro shadow_ptr; rfl
  | cons ancestor rest ih =>
    intro shadow_ptr
    cases ancestor with
    | documentFragment ua =>
      simp only [createAncestorsLoop]
      exact ih shadow_ptr
    | element ancestor_element =>
      simp only [createAncestorsLoop]
      apply whitelisted_withChildren
      apply whitelistedOfChildren_append
      rw [ih]
      have hid : (({ tagName := ancestor_element.tagName, attributes := [] } :
          ElementData).setAttribute "dtt-id".toList
            ancestor_element.getIdAttribute).getAttribute "dtt-whitelist".toList = none := by
        rw [getAttribute_setAttribute_of_ne _ _ _ _ (by decide)]
        rfl
      have hnone : ∀ se : ElementData, se.getAttribute "dtt-whitelist".toList = none →
          (Node.element se []).whitelisted = [] := by
        intro se hse
        simp only [Node.whitelisted, Node.whitelistedOfChildren, hse, List.append_nil]
      apply hnone
      split_ifs
      · rw [getAttribute_setAttribute_of_ne _ _ _ _ (by decide)]
        exact hid
      · exact hid

/-- The walk of `locateNodeAndCreateAncestorsInShadowTree` leaves the whitelisted shadows
as they were. -/
theorem locateAndCreateLoop_whitelisted (h : Host) (frame_mode : Option (List Char)) :
    ∀ (ancestors : List Ancestor) (shadow_ptr : Node)
      (shadow_ptr_is_root shadow_ptr_is_html : Bool),
      (locateAndCreateLoop h frame_mode shadow_ptr_is_root shadow_ptr_is_html ancestors
          shadow_ptr).1.whitelisted = shadow_ptr.whitelisted := by
  intro ancestors
  induction ancestors with
  | nil => intro shadow_ptr r html; rfl
  | cons ancestor rest ih =>
    intro shadow_ptr r html
    cases ancestor with
    | documentFragment ua =>
      simp only [locateAndCreateLoop]
      exact ih shadow_ptr r html
    | element ancestor_element =>
      cases hfind : findShadowSibling h frame_mode ancestor_element shadow_ptr.children 0 with
      | none =>
        simp only [locateAndCreateLoop, hfind]
        exact createAncestorsLoop_whitelisted html _ shadow_ptr
      | some triple =>
        obtain ⟨i, found_element, found_children⟩ := triple
        obtain ⟨_, hget⟩ := findShadowSibling_get h frame_mode ancestor_element _ _ _ _ _ hfind
        simp only [Nat.sub_zero] at hget
        simp only [locateAndCreateLoop, hfind]
        apply whitelisted_withChildren
        apply whitelistedOfChildren_set _ _ _ _ _ _ hget
        split_ifs <;> exact ih _ _ _

/-- The shadow document returned by `locateNodeAndCreateAncestorsInShadowTree` has the
whitelisted shadows of the shadow document given. -/
theorem locateNodeAndCreateAncestorsInShadowTree_whitelisted (h : Host)
    (frame_mode : Option (List Char)) (dom_constraint : Node) (node : NodePosition) :
    (locateNodeAndCreateAncestorsInShadowTree h frame_mode dom_constraint
        node).dom_constraint.whitelisted = dom_constraint.whitelisted := by
  unfold locateNodeAndCreateAncestorsInShadowTree
  split_ifs
  · rfl
  · exact locateAndCreateLoop_whitelisted h frame_mode _ dom_constraint true true

/-- A change of one child that keeps its whitelisted shadows keeps those of the list. -/
theorem whitelistedOfChildren_modifyChild (f : Node → Node)
    (hf : ∀ m : Node, (f m).whitelisted = m.whitelisted) :
    ∀ (children : List Node) (i position : Nat),
      Node.whitelistedOfChildren (modifyChild f i children) position
        = Node.whitelistedOfChildren children position := by
  intro children
  induction children with
  | nil => intro i position; cases i <;> rfl
  | cons first rest ih =>
    intro i position
    cases i with
    | zero => simp only [modifyChild, Node.whitelistedOfChildren, hf]
    | succ j => simp only [modifyChild, Node.whitelistedOfChildren, ih j (position + 1)]

/-- A change of the node at a path that keeps the whitelisted shadows of that node keeps
those of the tree. -/
theorem updateAt_whitelisted (f : Node → Node)
    (hf : ∀ m : Node, (f m).whitelisted = m.whitelisted) :
    ∀ (path : List Nat) (n : Node), (Node.updateAt f path n).whitelisted = n.whitelisted := by
  intro path
  induction path with
  | nil => intro n; exact hf n
  | cons i path ih =>
    intro n
    simp only [Node.updateAt]
    apply whitelisted_withChildren
    exact whitelistedOfChildren_modifyChild _ ih _ _ _

/-- The name of a style pattern attribute is not `dtt-whitelist`. -/
theorem whitelist_ne_shadowStyleAttributeName (sh : StyleHost) (property : Nat) :
    "dtt-whitelist".toList ≠ shadowStyleAttributeName sh property := by
  intro heq
  have h4 := congrArg (fun l => l.get? 4) heq
  simp [shadowStyleAttributeName] at h4

/-- The record loop of `WillSetStyle` leaves the `dtt-whitelist` of the shadow element as
it was. -/
theorem recordStyleLoop_whitelist (h : Host) (sh : StyleHost) (style : ComputedStyle)
    (is_css_property_modified : List Bool) :
    ∀ (properties : List Nat) (count : Nat) (shadow_element : ElementData),
      (recordStyleLoop h sh style is_css_property_modified properties count
          shadow_element).getAttribute "dtt-whitelist".toList
        = shadow_element.getAttribute "dtt-whitelist".toList := by
  intro properties
  induction properties with
  | nil => intro count shadow_element; rfl
  | cons property rest ih =>
    intro count shadow_element
    unfold recordStyleLoop
    split_ifs
    · simp only
      rw [ih, getAttribute_setAttribute_of_ne _ _ _ _
        (whitelist_ne_shadowStyleAttributeName sh property)]
    · exact ih _ _

/-- Claim C36: no record-mode operation adds, removes or changes a `dtt-whitelist`
attribute of a shadow element, whatever attributes the live elements carry: the
whitelisted shadows (the positions of the shadow elements that carry `dtt-whitelist`,
with the values of the attribute) are the same after `createShadowNode`, after
`locateNodeAndCreateAncestorsInShadowTree`, and after `WillInsertDOMNodeExtended`,
`WillModifyDOMAttrExtended` and `WillSetStyle` in every mode. -/
theorem record_mode_keeps_whitelisted_shadows (h : Host) (sh : StyleHost)
    (frame_mode : Option (List Char)) (frame : FrameState) (state : StyleState)
    (shadow_ptr dom_constraint node : Node) (parent : NodePosition) (element : ElementData)
    (parents : List Ancestor) (root : RootKind) (name : List Char)
    (old_value new_value : AtomicString) (current_style : Option ComputedStyle)
    (style : ComputedStyle) :
    (createShadowNode h frame_mode shadow_ptr node).whitelisted = shadow_ptr.whitelisted
    ∧ (locateNodeAndCreateAncestorsInShadowTree h frame_mode dom_constraint
        parent).dom_constraint.whitelisted = dom_constraint.whitelisted
    ∧ (WillInsertDOMNodeExtended h frame parent node).dom_constraint.whitelisted
        = frame.dom_constraint.whitelisted
    ∧ (WillModifyDOMAttrExtended h frame element parents root name old_value
        new_value).dom_constraint.whitelisted = frame.dom_constraint.whitelisted
    ∧ (WillSetStyle h sh frame state element parents root current_style
        style).hook.dom_constraint.whitelisted = frame.dom_constraint.whitelisted := by
  have hlocate := locateNodeAndCreateAncestorsInShadowTree_whitelisted h
    (some frame.dom_constraint_mode) frame.dom_constraint
  refine ⟨createShadowNode_whitelisted h frame_mode node shadow_ptr,
    locateNodeAndCreateAncestorsInShadowTree_whitelisted h frame_mode dom_constraint parent,
    ?_, ?_, ?_⟩
  · unfold WillInsertDOMNodeExtended
    dsimp only
    repeat' split
    all_goals first | rfl | exact hlocate _ | skip
    all_goals refine (updateAt_whitelisted _ ?_ _ _).trans (hlocate _)
    all_goals intro m
    all_goals exact createShadowNode_whitelisted h (some frame.dom_constraint_mode) node m
  · unfold WillModifyDOMAttrExtended
    dsimp only
    by_cases hmon : shouldMonitorAttribute h element name = true
    · have hne := ne_whitelist_of_shouldMonitorAttribute h element name hmon
      repeat' split
      all_goals first | rfl | exact hlocate _ | skip
      all_goals refine (updateAt_whitelisted _ ?_ _ _).trans (hlocate _)
      all_goals intro m
      all_goals
        cases m with
        | element shadow_element shadow_children =>
          exact whitelisted_element_congr _ _ _ _
            (getAttribute_setAttribute_of_ne _ _ _ _ hne) rfl
        | documentFragment _ => rfl
        | document _ => rfl
        | text _ => rfl
    · have hmon2 : shouldMonitorAttribute h element name = false := by simpa using hmon
      simp only [hmon2, Bool.not_false, if_true]
      split_ifs <;> rfl
  · unfold WillSetStyle
    dsimp only
    repeat' split
    all_goals first | rfl | exact hlocate _ | skip
    all_goals refine (updateAt_whitelisted _ ?_ _ _).trans (hlocate _)
    all_goals intro m
    all_goals
      cases m with
      | element shadow_element shadow_children =>
        exact whitelisted_element_congr _ _ _ _ (recordStyleLoop_whitelist h sh style _ _ _ _)
          rfl
      | documentFragment _ => rfl
      | document _ => rfl
      | text _ => rfl

/-- Claim C36 at the recording of the live `<div dtt-whitelist="">` under an empty `BODY`
shadow: the shadow tree has no whitelisted shadow afterwards. -/
theorem record_mode_keeps_whitelisted_shadows_witness :
    liveDivWhitelistAttribute.getAttribute "dtt-whitelist".toList = some []
      ∧ (createShadowNode plainHost (some ['r']) emptyBodyShadow
          (.element liveDivWhitelistAttribute [])).whitelisted = [] :=
  ⟨by decide,
    (record_mode_keeps_whitelisted_shadows plainHost plainStyleHost (some ['r']) recordFrame
      oneProperty emptyBodyShadow (.document []) (.element liveDivWhitelistAttribute [])
      documentPosition plainDiv [] .ownDocument "id".toList none none none 0).1.trans rfl⟩

/-! ## The counter of modified properties -/

/-- Writing the entry at a position does not change the entries before it. -/
theorem take_set_self {α : Type} :
    ∀ (l : List α) (i : Nat) (b : α), (l.set i b).take i = l.take i := by
  intro l
  induction l with
  | nil => intro i b; simp
  | cons a rest ih =>
    intro i b
    cases i with
    | zero => simp
    | succ j => simp [ih j b]

/-- The entries up to and including a position after the entry there has been written. -/
theorem take_succ_set {α : Type} :
    ∀ (l : List α) (i : Nat) (b : α), i < l.length →
      (l.set i b).take (i + 1) = l.take i ++ [b] := by
  intro l
  induction l with
  | nil => intro i b hi; simp at hi
  | cons a rest ih =>
    intro i b hi
    cases i with
    | zero => simp
    | succ j =>
      have hj : j < rest.length := by simpa using hi
      simp [ih j b hj]

/-- Clearing a set flag lowers the number of set flags by one. -/
theorem countSetFlags_set_false :
    ∀ (flags : List Bool) (i : Nat), flags.getD i false = true →
      countSetFlags (flags.set i false) = countSetFlags flags - 1 := by
  intro flags
  induction flags with
  | nil => intro i hi; simp at hi
  | cons a rest ih =>
    intro i hi
    cases i with
    | zero =>
      simp only [List.getD_cons_zero] at hi
      subst hi
      simp [countSetFlags]
    | succ j =>
      simp only [List.getD_cons_succ] at hi
      have := ih j hi
      unfold countSetFlags at this ⊢
      cases a
      · simpa using this
      · simp only [List.set_cons_succ, List.count_cons_self]
        push_cast
        omega

/-- The number of set flags is not negative, and it is 0 exactly when no flag is set. -/
theorem countSetFlags_eq_zero (flags : List Bool) :
    0 ≤ countSetFlags flags ∧ (countSetFlags flags = 0 ↔ ∀ b ∈ flags, b = false) := by
  unfold countSetFlags
  refine ⟨Int.natCast_nonneg _, ?_⟩
  rw [Int.natCast_eq_zero, List.count_eq_zero]
  constructor
  · intro hno b hb
    cases b
    · rfl
    · exact absurd hb hno
  · intro hall hmem
    exact Bool.noConfusion (hall true hmem)

/-- The loop of `collectStyleChanges`: when the counter is the number of set flags among
the entries already visited, it is the number of set flags among all entries after
the loop, and the loop changes neither the ids nor the length of the flag vector. -/
theorem collectStyleChangesLoop_counter (h : Host) (sh : StyleHost)
    (current_style : Option ComputedStyle) (new_style : ComputedStyle)
    (is_whitelist_match : Bool) (n : Nat) (ids : List Nat) :
    ∀ (rest : List Nat) (count : Nat) (state : StyleState),
      count + rest.length = n →
      state.is_css_property_modified_.length = n →
      state.css_property_ids_ = ids →
      state.modified_property_count_
        = countSetFlags (state.is_css_property_modified_.take count) →
      (collectStyleChangesLoop h sh current_style new_style is_whitelist_match rest count
          state).modified_property_count_
        = countSetFlags (collectStyleChangesLoop h sh current_style new_style
            is_whitelist_match rest count state).is_css_property_modified_
      ∧ (collectStyleChangesLoop h sh current_style new_style is_whitelist_match rest count
          state).is_css_property_modified_.length = n
      ∧ (collectStyleChangesLoop h sh current_style new_style is_whitelist_match rest count
          state).css_property_ids_ = ids := by
  intro rest
  induction rest with
  | nil =>
    intro count state hcount hlen hids hinv
    simp only [List.length_nil, Nat.add_zero] at hcount
    simp only [collectStyleChangesLoop]
    rw [hcount, ← hlen, List.take_length] at hinv
    exact ⟨hinv, hlen, hids⟩
  | cons property rest ih =>
    intro count state hcount hlen hids hinv
    simp only [List.length_cons] at hcount
    have hlt : count < state.is_css_property_modified_.length := by omega
    unfold collectStyleChangesLoop
    simp only
    apply ih
    · omega
    · split_ifs <;> simpa using hlen
    · split_ifs <;> simpa using hids
    · split_ifs
      all_goals simp only
      all_goals
        first
        | (rw [take_succ_set _ _ _ (by simpa using hlt), take_set_self, hinv]
           simp [countSetFlags])
        | (rw [take_succ_set _ _ _ hlt, hinv]
           simp [countSetFlags])

/-- After `collectStyleChanges` the counter is the number of set flags, when the flag
vector has an entry for every monitored property. -/
theorem collectStyleChanges_counter (h : Host) (sh : StyleHost)
    (current_style : Option ComputedStyle) (new_style : ComputedStyle)
    (is_whitelist_match : Bool) (state : StyleState)
    (hlen : state.is_css_property_modified_.length = state.css_property_ids_.length) :
    (collectStyleChanges h sh current_style new_style is_whitelist_match
        state).modified_property_count_
      = countSetFlags (collectStyleChanges h sh current_style new_style is_whitelist_match
          state).is_css_property_modified_
    ∧ (collectStyleChanges h sh current_style new_style is_whitelist_match
        state).is_css_property_modified_.length = state.css_property_ids_.length
    ∧ (collectStyleChanges h sh current_style new_style is_whitelist_match
        state).css_property_ids_ = state.css_property_ids_ := by
  unfold collectStyleChanges
  apply collectStyleChangesLoop_counter
  · simp
  · simpa using hlen
  · rfl
  · simp [countSetFlags]

/-- The property loop run for one shadow element keeps the counter equal to the number
of set flags, and changes neither the ids nor the length of the flag vector. -/
theorem clearMatchedPropertiesLoop_counter (h : Host) (sh : StyleHost) (style : ComputedStyle)
    (slow_path : Bool) (child_element : ElementData) (n : Nat) (ids : List Nat) :
    ∀ (rest : List Nat) (count : Nat) (state : StyleState),
      state.is_css_property_modified_.length = n →
      state.css_property_ids_ = ids →
      state.modified_property_count_ = countSetFlags state.is_css_property_modified_ →
      (clearMatchedPropertiesLoop h sh style slow_path child_element rest count
          state).modified_property_count_
        = countSetFlags (clearMatchedPropertiesLoop h sh style slow_path child_element rest
            count state).is_css_property_modified_
      ∧ (clearMatchedPropertiesLoop h sh style slow_path child_element rest count
          state).is_css_property_modified_.length = n
      ∧ (clearMatchedPropertiesLoop h sh style slow_path child_element rest count
          state).css_property_ids_ = ids := by
  intro rest
  induction rest with
  | nil =>
    intro count state hlen hids hinv
    simp only [clearMatchedPropertiesLoop]
    exact ⟨hinv, hlen, hids⟩
  | cons property rest ih =>
    intro count state hlen hids hinv
    unfold clearMatchedPropertiesLoop
    by_cases hflag : state.is_css_property_modified_.getD count false = true
    · simp only [hflag, Bool.not_true, Bool.false_eq_true, if_false]
      apply ih
      · split_ifs <;> simpa using hlen
      · split_ifs <;> simpa using hids
      · split_ifs
        all_goals
          first
          | exact hinv
          | (rw [countSetFlags_set_false _ _ hflag, hinv])
    · have hflag2 : state.is_css_property_modified_.getD count false = false := by
        simpa using hflag
      simp only [hflag2, Bool.not_false, if_true]
      exact ih (count + 1) state hlen hids hinv

mutual
/-- The walk of `matchesPropertyWhitelistInShadowTree` keeps the counter equal to the
number of set flags. -/
theorem matchesPropertyWhitelistInShadowTree_counter (h : Host) (sh : StyleHost)
    (style : ComputedStyle) (slow_path : Bool) (n : Nat) (ids : List Nat) :
    ∀ (shadow_parent : Node) (state : StyleState),
      state.is_css_property_modified_.length = n →
      state.css_property_ids_ = ids →
      state.modified_property_count_ = countSetFlags state.is_css_property_modified_ →
      (matchesPropertyWhitelistInShadowTree h sh style slow_path shadow_parent
          state).2.modified_property_count_
        = countSetFlags (matchesPropertyWhitelistInShadowTree h sh style slow_path
            shadow_parent state).2.is_css_property_modified_
      ∧ (matchesPropertyWhitelistInShadowTree h sh style slow_path shadow_parent
          state).2.is_css_property_modified_.length = n
      ∧ (matchesPropertyWhitelistInShadowTree h sh style slow_path shadow_parent
          state).2.css_property_ids_ = ids
  | .element _ children, state => by
    intro hlen hids hinv
    simp only [matchesPropertyWhitelistInShadowTree]
    exact matchesPropertyWhitelistChildren_counter h sh style slow_path n ids children state
      hlen hids hinv
  | .documentFragment children, state => by
    intro hlen hids hinv
    simp only [matchesPropertyWhitelistInShadowTree]
    exact matchesPropertyWhitelistChildren_counter h sh style slow_path n ids children state
      hlen hids hinv
  | .document children, state => by
    intro hlen hids hinv
    simp only [matchesPropertyWhitelistInShadowTree]
    exact matchesPropertyWhitelistChildren_counter h sh style slow_path n ids children state
      hlen hids hinv
  | .text _, state => by
    intro hlen hids hinv
    simp only [matchesPropertyWhitelistInShadowTree]
    exact ⟨hinv, hlen, hids⟩
/-- The child loop of `matchesPropertyWhitelistInShadowTree` keeps the counter equal to
the number of set flags. -/
theorem matchesPropertyWhitelistChildren_counter (h : Host) (sh : StyleHost)
    (style : ComputedStyle) (slow_path : Bool) (n : Nat) (ids : List Nat) :
    ∀ (children : List Node) (state : StyleState),
      state.is_css_property_modified_.length = n →
      state.css_property_ids_ = ids →
      state.modified_property_count_ = countSetFlags state.is_css_property_modified_ →
      (matchesPropertyWhitelistChildren h sh style slow_path children
          state).2.modified_property_count_
        = countSetFlags (matchesPropertyWhitelistChildren h sh style slow_path children
            state).2.is_css_property_modified_
      ∧ (matchesPropertyWhitelistChildren h sh style slow_path children
          state).2.is_css_property_modified_.length = n
      ∧ (matchesPropertyWhitelistChildren h sh style slow_path children
          state).2.css_property_ids_ = ids
  | [], state => by
    intro hlen hids hinv
    simp only [matchesPropertyWhitelistChildren]
    exact ⟨hinv, hlen, hids⟩
  | .element child_element child_children :: rest, state => by
    intro hlen hids hinv
    obtain ⟨c1, c2, c3⟩ := clearMatchedPropertiesLoop_counter h sh style slow_path
      child_element n ids state.css_property_ids_ 0 state hlen hids hinv
    simp only [matchesPropertyWhitelistChildren]
    split_ifs with hzero hbelow
    · exact ⟨c1, c2, c3⟩
    · exact matchesPropertyWhitelistInShadowTree_counter h sh style slow_path n ids
        (.element child_element child_children) _ c2 c3 c1
    · obtain ⟨b1, b2, b3⟩ := matchesPropertyWhitelistInShadowTree_counter h sh style
        slow_path n ids (.element child_element child_children) _ c2 c3 c1
      exact matchesPropertyWhitelistChildren_counter h sh style slow_path n ids rest _ b2 b3 b1
  | .documentFragment _ :: rest, state => by
    intro hlen hids hinv
    simp only [matchesPropertyWhitelistChildren]
    exact matchesPropertyWhitelistChildren_counter h sh style slow_path n ids rest state hlen
      hids hinv
  | .document _ :: rest, state => by
    intro hlen hids hinv
    simp only [matchesPropertyWhitelistChildren]
    exact matchesPropertyWhitelistChildren_counter h sh style slow_path n ids rest state hlen
      hids hinv
  | .text _ :: rest, state => by
    intro hlen hids hinv
    simp only [matchesPropertyWhitelistChildren]
    exact matchesPropertyWhitelistChildren_counter h sh style slow_path n ids rest state hlen
      hids hinv
end

/-- Claim C38: when the flag vector has an entry for every monitored property (as after
`FrameAttachedToParent`), `modified_property_count_` is the number of true entries of
`is_css_property_modified_` immediately after `collectStyleChanges`; and from every
state of the members in which the two agree, they agree again after the property loop
that `matchesPropertyWhitelistInShadowTree` runs for one shadow element and after
`matchesPropertyWhitelistInShadowTree` itself, on the fast and on the slow path.  The
counter is therefore never negative and is 0 exactly when no flag is set. -/
theorem modified_property_count_counts_set_flags (h : Host) (sh : StyleHost)
    (current_style : Option ComputedStyle) (new_style : ComputedStyle)
    (is_whitelist_match : Bool) (state : StyleState)
    (hlen : state.is_css_property_modified_.length = state.css_property_ids_.length) :
    (collectStyleChanges h sh current_style new_style is_whitelist_match
        state).modified_property_count_
      = countSetFlags (collectStyleChanges h sh current_style new_style is_whitelist_match
          state).is_css_property_modified_
    ∧ 0 ≤ (collectStyleChanges h sh current_style new_style is_whitelist_match
        state).modified_property_count_
    ∧ ((collectStyleChanges h sh current_style new_style is_whitelist_match
        state).modified_property_count_ = 0
      ↔ ∀ b ∈ (collectStyleChanges h sh current_style new_style is_whitelist_match
          state).is_css_property_modified_, b = false)
    ∧ ∀ (members : StyleState) (style : ComputedStyle) (slow_path : Bool),
        members.modified_property_count_ = countSetFlags members.is_css_property_modified_ →
        (∀ child_element : ElementData,
          (clearMatchedPropertiesLoop h sh style slow_path child_element
              members.css_property_ids_ 0 members).modified_property_count_
            = countSetFlags (clearMatchedPropertiesLoop h sh style slow_path child_element
                members.css_property_ids_ 0 members).is_css_property_modified_)
        ∧ ∀ shadow_parent : Node,
          (matchesPropertyWhitelistInShadowTree h sh style slow_path shadow_parent
              members).2.modified_property_count_
            = countSetFlags (matchesPropertyWhitelistInShadowTree h sh style slow_path
                shadow_parent members).2.is_css_property_modified_ := by
  obtain ⟨c1, _, _⟩ := collectStyleChanges_counter h sh current_style new_style
    is_whitelist_match state hlen
  refine ⟨c1, ?_, ?_, ?_⟩
  · rw [c1]
    exact (countSetFlags_eq_zero _).1
  · rw [c1]
    exact (countSetFlags_eq_zero _).2
  · intro members style slow_path hinv
    refine ⟨fun child_element => ?_, fun shadow_parent => ?_⟩
    · exact (clearMatchedPropertiesLoop_counter h sh style slow_path child_element _ _
        members.css_property_ids_ 0 members rfl rfl hinv).1
    · exact (matchesPropertyWhitelistInShadowTree_counter h sh style slow_path _ _
        shadow_parent members rfl rfl hinv).1

/-- Claim C38 at the guard that monitors one property, after `collectStyleChanges` for an
element without a computed style. -/
theorem modified_property_count_counts_set_flags_witness :
    oneProperty.is_css_property_modified_.length = oneProperty.css_property_ids_.length
      ∧ (collectStyleChanges plainHost plainStyleHost none 0 true
          oneProperty).modified_property_count_
        = countSetFlags (collectStyleChanges plainHost plainStyleHost none 0 true
            oneProperty).is_css_property_modified_ :=
  ⟨rfl,
    (modified_property_count_counts_set_flags plainHost plainStyleHost none 0 true oneProperty
      rfl).1⟩

end DOMGuard
